import Mathlib

/-!
# Gputop stream engine: ring-buffer arithmetic, header-offset tracker, OA reader

Shallow embedding of `src/gputop/gputop-perf.c`.  Machine integers are natural
numbers reduced explicitly modulo `2 ^ 64`, `2 ^ 32` or `2 ^ 16` wherever the C
type truncates.
-/

namespace Gputop

/-! ## Fixed-width arithmetic -/

/-- Number of values of a `uint64_t` (also `size_t` on the 64-bit targets). -/
def U64 : Nat := 2 ^ 64

/-- Number of values of a `uint32_t` / `unsigned int`. -/
def U32 : Nat := 2 ^ 32

/-- Number of values of a `__u16` (the `size` field of a record header). -/
def U16 : Nat := 2 ^ 16

/-- Subtraction of two `uint64_t` values, wrapping modulo `2 ^ 64`. -/
def sub64 (a b : Nat) : Nat := (a + U64 - b % U64) % U64

/-- Addition of two `uint64_t` values, wrapping modulo `2 ^ 64`. -/
def add64 (a b : Nat) : Nat := (a + b) % U64

/-- Subtraction of two `uint32_t` values, wrapping modulo `2 ^ 32`. -/
def sub32 (a b : Nat) : Nat := (a + U32 - b % U32) % U32

/-- Addition of two `uint32_t` values, wrapping modulo `2 ^ 32`. -/
def add32 (a b : Nat) : Nat := (a + b) % U32

/-! ## `TAKEN` / `REMAINING` (gputop-perf.c, lines 78-81) -/

/-- The macro `TAKEN(HEAD, TAIL, POT_SIZE)`:
`(((HEAD) - (TAIL)) & (POT_SIZE - 1))` on 64-bit unsigned operands. -/
def TAKEN (head tail pot_size : Nat) : Nat :=
  sub64 head tail &&& sub64 pot_size 1

/-- The macro `REMAINING(HEAD, TAIL, POT_SIZE)`:
`(POT_SIZE - TAKEN (HEAD, TAIL, POT_SIZE))` on 64-bit unsigned operands. -/
def REMAINING (head tail pot_size : Nat) : Nat :=
  sub64 pot_size (TAKEN head tail pot_size)

/-! ## Header-offset tracker (gputop-perf.c, lines 883-1069) -/

/-- The tracker `struct gputop_perf_header_buf`.  Its declaration lives in
`gputop-perf.h`; the field widths follow the locals of the walker
(`uint32_t buf_head`, `uint32_t buf_tail`, `uint32_t buf_tail_offset`) and the
allocation `xmalloc(sizeof(uint32_t) * expected_max_samples)`. -/
structure HeaderBuf where
  /-- Contents of `offsets[]`, indexed by array position. -/
  offsets : Nat → Nat
  /-- Capacity `len` of `offsets[]`. -/
  len : Nat
  /-- Index `head`: one past the newest tracked record (not reduced modulo `len`). -/
  head : Nat
  /-- Index `tail`: the oldest tracked record (not reduced modulo `len`). -/
  tail : Nat
  /-- Flag `full`: set when a record was seen to cross the end of the ring. -/
  full : Bool

/-- The part of a generic-perf `struct gputop_perf_stream` that the walker
touches, together with the kernel's `perf_event_mmap_page` cursors. -/
structure PerfStream where
  /-- Field `perf.buffer_size` (a `size_t`). -/
  buffer_size : Nat
  /-- Kernel cursor `mmap_page->data_head` (64 bits). -/
  data_head : Nat
  /-- Consumer cursor `mmap_page->data_tail` (64 bits). -/
  data_tail : Nat
  /-- Ring contents: the `size` field of the `perf_event_header` found at byte
  offset `o` of `perf.buffer`. -/
  header_size : Nat → Nat
  /-- Field `perf.header_buf`. -/
  header_buf : HeaderBuf

/-- The local variables of the record walk that change from one iteration to
the next (`hdr_buf->full` and `hdr_buf->offsets[]` are written in place). -/
structure WalkState where
  perf_tail : Nat
  buf_head : Nat
  buf_tail : Nat
  full : Bool
  offsets : Nat → Nat
  n_new : Nat

/-- The function `read_perf_head`: the 64-bit `data_head` is returned through an
`unsigned int`. -/
def read_perf_head (data_head : Nat) : Nat := data_head % U32

/-- The function `write_perf_tail`: the new tail comes in through an
`unsigned int` parameter and is stored in the 64-bit `data_tail`. -/
def write_perf_tail (tail : Nat) : Nat := tail % U32

/-- Assignment `a[i] = v` on an array of `uint32_t`. -/
def store32 (a : Nat → Nat) (i v : Nat) : Nat → Nat :=
  fun j => if j = i then v % U32 else a j

/-- Exit test of the eviction loop (lines 1025-1034) for the current
`buf_tail`: `true` when the `break` ("nothing eaten") is taken. -/
def nothing_eaten (offsets : Nat → Nat) (len buffer_size perf_offset size buf_tail : Nat) :
    Bool :=
  let buf_tail_offset := offsets (buf_tail % len) % U32
  let buf_tail_offset :=
    if buf_tail_offset < perf_offset then add32 buf_tail_offset buffer_size
    else buf_tail_offset
  decide (add64 perf_offset size < buf_tail_offset)

/-- The eviction loop `while (1) { ... buf_tail++; }` (lines 1024-1037).  Returns
the value of `buf_tail` at the `break`, or `none` when `fuel` iterations did not
reach it. -/
def evict_loop (offsets : Nat → Nat) (len buffer_size perf_offset size : Nat) :
    Nat → Nat → Option Nat
  | 0, _ => none
  | fuel + 1, buf_tail =>
    if nothing_eaten offsets len buffer_size perf_offset size buf_tail then some buf_tail
    else evict_loop offsets len buffer_size perf_offset size fuel (add32 buf_tail 1)

/-- The record walk `while (TAKEN(perf_head, perf_tail, buffer_size))`
(lines 987-1043).  `ev` bounds each run of the eviction loop, `fuel` the number
of iterations of the walk; `none` means one of the bounds was hit.  The indices
`% len` are those of the C code for `len > 0` (for `len = 0` C divides by
zero). -/
def walk (ev : Nat) (buffer_size len : Nat) (header_size : Nat → Nat) (perf_head : Nat) :
    Nat → WalkState → Option WalkState
  | 0, _ => none
  | fuel + 1, st =>
    if TAKEN perf_head st.perf_tail buffer_size = 0 then some st
    else
      let perf_offset := st.perf_tail &&& sub64 buffer_size 1
      let size := header_size perf_offset % U16
      let n_new := add32 st.n_new 1
      if size = 0 then some { st with n_new := n_new }
      else if sub64 perf_head st.perf_tail < size then some { st with n_new := n_new }
      else
        let full := st.full || decide (buffer_size < perf_offset + size)
        let buf_tail :=
          if sub32 st.buf_head st.buf_tail = len then add32 st.buf_tail 1 else st.buf_tail
        let evicted :=
          if full then evict_loop st.offsets len buffer_size perf_offset size ev buf_tail
          else some buf_tail
        match evicted with
        | none => none
        | some buf_tail =>
          walk ev buffer_size len header_size perf_head fuel
            { perf_tail := add64 st.perf_tail size
              buf_head := add32 st.buf_head 1
              buf_tail := buf_tail
              full := full
              offsets := store32 st.offsets (st.buf_head % len) perf_offset
              n_new := n_new }

/-- The function `gputop_perf_update_header_offsets`.  `fuel` bounds the walk
and each eviction loop; `none` means the bound was hit before the C function
returned. -/
def gputop_perf_update_header_offsets (fuel : Nat) (s : PerfStream) : Option PerfStream :=
  let perf_head := read_perf_head s.data_head
  let perf_tail := s.data_tail
  if perf_head = perf_tail then some s
  else
    match walk fuel s.buffer_size s.header_buf.len s.header_size perf_head fuel
        { perf_tail := perf_tail
          buf_head := s.header_buf.head
          buf_tail := s.header_buf.tail
          full := s.header_buf.full
          offsets := s.header_buf.offsets
          n_new := 0 } with
    | none => none
    | some st =>
      some { s with
        data_tail := write_perf_tail perf_head
        header_buf :=
          { offsets := st.offsets
            len := s.header_buf.len
            head := st.buf_head
            tail := st.buf_tail
            full := st.full } }

/-- What the kernel did between two calls of the walker: it moved `data_head`
and wrote record headers into the ring. -/
structure KernelWrite where
  data_head : Nat
  header_size : Nat → Nat

/-- A sequence of calls of `gputop_perf_update_header_offsets`, the kernel
producing before each call. -/
def run_updates (fuel : Nat) : PerfStream → List KernelWrite → Option PerfStream
  | s, [] => some s
  | s, w :: ws =>
    match gputop_perf_update_header_offsets fuel
        { s with data_head := w.data_head, header_size := w.header_size } with
    | none => none
    | some s' => run_updates fuel s' ws

/-- A generic-perf stream as `gputop_perf_open_generic_counter` leaves it in
overwrite mode: cursors at zero, tracker zeroed by `memset`, `len` entries
allocated with contents `offsets`. -/
def open_perf_stream (buffer_size len : Nat) (offsets : Nat → Nat) : PerfStream :=
  { buffer_size := buffer_size
    data_head := 0
    data_tail := 0
    header_size := fun _ => 0
    header_buf := { offsets := offsets, len := len, head := 0, tail := 0, full := false } }

/-- Ring contents holding one record header of size `size` at byte offset
`off`. -/
def one_record (off size : Nat) : Nat → Nat :=
  fun o => if o = off then size else 0

/-! ### Reference description of a walk, used to state what it computes -/

/-- The records the walk accepts, as `(offset, size)` pairs in walk order: the
headers met from `perf_tail` on that pass both size checks.  This depends on
the ring contents only, not on the tracker. -/
def walked (buffer_size : Nat) (header_size : Nat → Nat) (perf_head : Nat) :
    Nat → Nat → List (Nat × Nat)
  | 0, _ => []
  | fuel + 1, perf_tail =>
    if TAKEN perf_head perf_tail buffer_size = 0 then []
    else
      let perf_offset := perf_tail &&& sub64 buffer_size 1
      let size := header_size perf_offset % U16
      if size = 0 then []
      else if sub64 perf_head perf_tail < size then []
      else (perf_offset, size) :: walked buffer_size header_size perf_head fuel
        (add64 perf_tail size)

/-- Whether the byte span of a record `(offset, size)` crosses the end of the
ring. -/
def crosses_end (buffer_size : Nat) (r : Nat × Nat) : Bool :=
  decide (buffer_size < r.1 + r.2)

/-- The array after appending, in order, the offsets of `recs` starting at
head index `buf_head`. -/
def store_all (len : Nat) : (Nat → Nat) → Nat → List (Nat × Nat) → (Nat → Nat)
  | offsets, _, [] => offsets
  | offsets, buf_head, r :: rs =>
    store_all len (store32 offsets (buf_head % len) r.1) (add32 buf_head 1) rs

/-- The head index after `n` increments of a `uint32_t`. -/
def advance_head : Nat → Nat → Nat
  | buf_head, 0 => buf_head
  | buf_head, n + 1 => advance_head (add32 buf_head 1) n

/-- Byte position of record `i` of a run of records laid from `tail`: `tail`
plus the sizes of the earlier records. -/
def record_start (tail : Nat) (sizes : List Nat) (i : Nat) : Nat :=
  tail + (sizes.take i).sum

/-- The run `sizes` is laid contiguously in the ring from `tail`: the header at
the offset of record `i` declares the size of record `i`. -/
def laid_out (buffer_size : Nat) (header_size : Nat → Nat) (tail : Nat) (sizes : List Nat) :
    Prop :=
  ∀ i, i < sizes.length →
    header_size (record_start tail sizes i % buffer_size) = sizes.getD i 0

/-- The records accepted by one call of the walker on stream `s` (walk order),
with enough iterations allowed to reach the end of the walk. -/
def walked_records (s : PerfStream) : List (Nat × Nat) :=
  walked s.buffer_size s.header_size (read_perf_head s.data_head)
    (sub64 (read_perf_head s.data_head) s.data_tail + 1) s.data_tail

/-! ### Concrete inputs -/

/-- Ring contents holding two record headers: size `sa` at byte offset `a` and
size `sb` at byte offset `b`. -/
def two_records (a sa b sb : Nat) : Nat → Nat :=
  fun o => if o = a then sa else if o = b then sb else 0

/-- Four wake-ups of a 128-byte ring, the kernel adding contiguous well-formed
records before each: 32 and 16 bytes (offsets 0, 32), then 24 and 80 bytes
(offsets 48, 72; the second wraps), then 64 bytes (offset 24), then 96 bytes
(offset 88; wraps). -/
def four_wakeups : List KernelWrite :=
  [ { data_head := 48, header_size := two_records 0 32 32 16 },
    { data_head := 152, header_size := two_records 48 24 72 80 },
    { data_head := 216, header_size := one_record 24 64 },
    { data_head := 312, header_size := one_record 88 96 } ]

/-- A fresh 128-byte stream whose producer cursor has passed `2 ^ 32`: the
kernel wrote `2 ^ 32 + 16` bytes in all, the record at offset 0 is 16 bytes
long. -/
def stream_head_above_u32 : PerfStream :=
  { open_perf_stream 128 4 (fun _ => 0) with
    data_head := 2 ^ 32 + 16
    header_size := one_record 0 16 }

/-- The `(offset, size)` pairs of a run of records laid contiguously from byte
position `tail` in a ring of `buffer_size` bytes. -/
def run_records (buffer_size : Nat) : Nat → List Nat → List (Nat × Nat)
  | _, [] => []
  | tail, r :: rs => (tail % buffer_size, r) :: run_records buffer_size (tail + r) rs

/-- A 128-byte ring that the kernel has filled exactly: two 64-byte records at
offsets 0 and 64, `data_tail = 0`, `data_head = 128`; fresh 4-entry tracker. -/
def exactly_full_stream : PerfStream :=
  { open_perf_stream 128 4 (fun _ => 0) with
    data_head := 128
    header_size := fun o => if o = 0 ∨ o = 64 then 64 else 0 }

/-- A 128-byte ring holding a 40-byte and an 8-byte record at offsets 0 and 40,
`data_tail = 0`, `data_head = 48`; fresh 4-entry tracker. -/
def two_record_stream : PerfStream :=
  { open_perf_stream 128 4 (fun _ => 0) with
    data_head := 48
    header_size := fun o => if o = 0 then 40 else if o = 40 then 8 else 0 }

/-- A 128-byte ring holding a 40-byte record at offset 0 followed by a header
that declares size 0 at offset 40, `data_tail = 0`, `data_head = 48`; fresh
4-entry tracker. -/
def corrupt_second_record_stream : PerfStream :=
  { open_perf_stream 128 4 (fun _ => 0) with
    data_head := 48
    header_size := one_record 0 40 }

/-! ## Hardware-OA reader (gputop-perf.c, lines 1201-1275) -/

/-- Value of `DRM_I915_PERF_RECORD_SAMPLE` in the i915 uapi header. -/
def DRM_I915_PERF_RECORD_SAMPLE : Nat := 1

/-- Value of `DRM_I915_PERF_RECORD_OA_REPORT_LOST` in the i915 uapi header. -/
def DRM_I915_PERF_RECORD_OA_REPORT_LOST : Nat := 2

/-- Value of `DRM_I915_PERF_RECORD_OA_BUFFER_LOST` in the i915 uapi header. -/
def DRM_I915_PERF_RECORD_OA_BUFFER_LOST : Nat := 3

/-- Value of `EINTR` on Linux. -/
def EINTR : Nat := 4

/-- Value of `EAGAIN` on Linux. -/
def EAGAIN : Nat := 11

/-- The header `struct i915_perf_record_header` (`type`, `pad`, `size`; 8 bytes,
`size` is a `__u16`). -/
structure RecordHeader where
  type : Nat
  size : Nat

/-- Contents of one of the two read buffers: the record header found at each
byte offset. -/
abbrev Buffer := Nat → RecordHeader

/-- A pointer into the double buffer: buffer index and byte offset. -/
abbrev ReportPtr := Nat × Nat

/-- The `oa` part of a `struct gputop_perf_stream`, with a log of the calls of
the `sample` callback of `gputop_perf_current_user`. -/
structure OaStream where
  /-- Contents of `oa.bufs[0]` and `oa.bufs[1]`. -/
  bufs : Nat → Buffer
  /-- Pointer `oa.last` (`none` for `NULL`). -/
  last : Option ReportPtr
  /-- Field `oa.last_buf_idx`. -/
  last_buf_idx : Nat
  /-- Calls `sample(stream, last, report)` made so far, oldest first. -/
  samples : List (ReportPtr × ReportPtr)

/-- How a piece of code ended: it returned, the process was terminated by
`exit`, the supply of read results ran dry while the loop was still reading,
or the iteration bound of the model was hit. -/
inductive Outcome (σ : Type) where
  | returned (s : σ)
  | exited (status : Nat)
  | pending (s : σ)
  | out_of_fuel

/-- What one `read()` (or `gputop_perf_fake_read()`) call delivers: its return
value, `errno` when that is negative, and the bytes it put at the start of the
buffer. -/
structure ReadResult where
  count : Int
  errno : Nat
  data : Buffer

/-- The OA state `gputop_open_i915_perf_oa_stream` sets up: the stream comes
from `xmalloc0`, so `oa.last = NULL` and `oa.last_buf_idx = 0`, and both
buffers are zero-filled. -/
def open_oa_stream : OaStream :=
  { bufs := fun _ _ => { type := 0, size := 0 }
    last := none
    last_buf_idx := 0
    samples := [] }

/-- The buffer index the next read uses: `buf_idx = !stream->oa.last_buf_idx`. -/
def read_buf_idx (st : OaStream) : Nat := if st.last_buf_idx = 0 then 1 else 0

/-- The `switch (header->type)` of the scan for the record at byte `offset` of
buffer `buf_idx` (lines 1246-1272); the report of a sample starts 8 bytes
after its header. -/
def dispatch_record (buf_idx offset : Nat) (header : RecordHeader) (st : OaStream) : OaStream :=
  if header.type = DRM_I915_PERF_RECORD_OA_BUFFER_LOST then st
  else if header.type = DRM_I915_PERF_RECORD_OA_REPORT_LOST then st
  else if header.type = DRM_I915_PERF_RECORD_SAMPLE then
    let report : ReportPtr := (buf_idx, offset + 8)
    { st with
      samples := match st.last with
        | some last => st.samples ++ [(last, report)]
        | none => st.samples
      last := some report
      last_buf_idx := buf_idx }
  else st

/-- The scan `while (offset < count)` over one chunk (lines 1234-1273); a header
of size 0 ends in `exit(1)`. -/
def scan_records (buf : Buffer) (count buf_idx : Nat) : Nat → Nat → OaStream → Outcome OaStream
  | 0, offset, st => if offset < count then .out_of_fuel else .returned st
  | fuel + 1, offset, st =>
    if offset < count then
      let header := buf offset
      if header.size % U16 = 0 then .exited 1
      else
        scan_records buf count buf_idx fuel (offset + header.size % U16)
          (dispatch_record buf_idx offset header st)
    else .returned st

/-- The effect of a read on the buffers: a read that returns `count > 0` puts
`count` bytes at the start of `bufs[buf_idx]`, any other read leaves the
buffers alone. -/
def fill_buffer (st : OaStream) (r : ReadResult) : OaStream :=
  if 0 < r.count then
    { st with bufs := fun i =>
        if i = read_buf_idx st then
          fun off => if off < r.count.toNat then r.data off else st.bufs i off
        else st.bufs i }
  else st

/-- One read that returned `count > 0` followed by the scan of its chunk. -/
def read_and_scan (st : OaStream) (r : ReadResult) : Outcome OaStream :=
  let buf_idx := read_buf_idx st
  let st1 := fill_buffer st r
  scan_records (st1.bufs buf_idx) r.count.toNat buf_idx r.count.toNat 0 st1

/-- The function `read_i915_perf_samples`, run against the results of the
successive reads.  `returned (st, rest)` gives the stream state at the return
and the read results that were not consumed. -/
def read_i915_perf_samples : OaStream → List ReadResult → Outcome (OaStream × List ReadResult)
  | st, [] => .pending (st, [])
  | st, r :: rest =>
    if r.count < 0 then
      if r.errno = EINTR then read_i915_perf_samples st rest
      else if r.errno = EAGAIN then .returned (st, rest)
      else .returned (st, rest)
    else if r.count = 0 then .returned (st, rest)
    else
      match read_and_scan st r with
      | .returned st2 => read_i915_perf_samples st2 rest
      | .exited status => .exited status
      | .pending _ => .out_of_fuel
      | .out_of_fuel => .out_of_fuel

/-! ### Reference description of a chunk and of the reader's bookkeeping -/

/-- The buffer holds the records `recs` one after the other from byte
`offset` on. -/
def records_at (buf : Buffer) : Nat → List RecordHeader → Prop
  | _, [] => True
  | offset, h :: hs => buf offset = h ∧ records_at buf (offset + h.size) hs

/-- Total size in bytes of a list of records. -/
def chunk_size (recs : List RecordHeader) : Nat := (recs.map (fun h => h.size)).sum

/-- Pointers to the reports of the Sample records of a chunk that starts at
byte `offset` of buffer `buf_idx`, in chunk order. -/
def sample_ptrs (buf_idx : Nat) : Nat → List RecordHeader → List ReportPtr
  | _, [] => []
  | offset, h :: hs =>
    if h.type = DRM_I915_PERF_RECORD_SAMPLE then
      (buf_idx, offset + 8) :: sample_ptrs buf_idx (offset + h.size) hs
    else sample_ptrs buf_idx (offset + h.size) hs

/-- Each element of a list paired with its successor. -/
def consecutive_pairs (l : List ReportPtr) : List (ReportPtr × ReportPtr) := l.zip l.tail

/-- Record by record effect of the scan on a chunk known to hold `recs`. -/
def scan_spec (buf_idx : Nat) : Nat → List RecordHeader → OaStream → OaStream
  | _, [], st => st
  | offset, h :: hs, st =>
    scan_spec buf_idx (offset + h.size) hs (dispatch_record buf_idx offset h st)

/-- The double-buffer invariant: `oa.last_buf_idx` is 0 or 1 and `oa.last`,
when set, points into `oa.bufs[oa.last_buf_idx]`. -/
def oa_last_in_buf (st : OaStream) : Prop :=
  st.last_buf_idx ≤ 1 ∧ ∀ p, st.last = some p → p.1 = st.last_buf_idx

/-- The scans of a list of chunks one after the other, each read filling the
buffer first; stops at the first scan that does not return. -/
def scan_chunks : OaStream → List ReadResult → Outcome OaStream
  | st, [] => .returned st
  | st, r :: rs =>
    match read_and_scan st r with
    | .returned st2 => scan_chunks st2 rs
    | .exited status => .exited status
    | .pending _ => .out_of_fuel
    | .out_of_fuel => .out_of_fuel

/-- A chunk of 24 bytes: a 16-byte Sample record followed by a header that
declares size 0. -/
def chunk_with_zero_size_header : ReadResult :=
  { count := 24
    errno := 0
    data := fun off =>
      if off = 0 then { type := DRM_I915_PERF_RECORD_SAMPLE, size := 16 }
      else { type := DRM_I915_PERF_RECORD_SAMPLE, size := 0 } }

/-- A read that fails with `EAGAIN`. -/
def read_eagain : ReadResult :=
  { count := -1, errno := EAGAIN, data := fun _ => { type := 0, size := 0 } }

/-- A read that fails with `EINTR`. -/
def read_eintr : ReadResult :=
  { count := -1, errno := EINTR, data := fun _ => { type := 0, size := 0 } }

/-- A chunk of `16 * n` bytes made of 16-byte records: Sample records except
at the offsets listed in `lost`, which hold ReportLost records. -/
def chunk_of_samples (n : Nat) (lost : List Nat) : ReadResult :=
  { count := 16 * n
    errno := 0
    data := fun off =>
      if off ∈ lost then { type := DRM_I915_PERF_RECORD_OA_REPORT_LOST, size := 16 }
      else { type := DRM_I915_PERF_RECORD_SAMPLE, size := 16 } }

/-- A 128-byte ring after a first call consumed 48 bytes (two records tracked
at offsets 0 and 32), now holding a 24-byte record at offset 48 and an 80-byte
record at offset 72 that wraps past the end of the ring; `data_head = 152`. -/
def wrapping_record_stream : PerfStream :=
  { buffer_size := 128
    data_head := 152
    data_tail := 48
    header_size := two_records 48 24 72 80
    header_buf :=
      { offsets := fun i => if i = 1 then 32 else 0
        len := 4
        head := 2
        tail := 0
        full := false } }

/-! ## Stream lifecycle (gputop-perf.c, lines 230-356) -/

/-- The stream variants `enum gputop_perf_stream_type`. -/
inductive StreamType where
  | GPUTOP_STREAM_PERF
  | GPUTOP_STREAM_I915_PERF
  | GPUTOP_STREAM_CPU
  deriving DecidableEq

/-- Calls the lifecycle code makes on the reactor, the C library and the
caller, in the order they are made. -/
inductive Effect where
  /-- Call `uv_close(&stream->fd_poll, stream_handle_closed_cb)`. -/
  | uv_close_fd_poll
  /-- Call `uv_close(&stream->fd_timer, stream_handle_closed_cb)`. -/
  | uv_close_fd_timer
  /-- Call `munmap(stream->perf.mmap_page, ...)`. -/
  | munmap
  /-- Call `free(stream->perf.header_buf.offsets)`. -/
  | free_offsets
  /-- Call `free(stream->oa.bufs[i])`. -/
  | free_oa_buf (i : Nat)
  /-- Call `close(stream->fd)`. -/
  | close_fd (fd : Int)
  /-- Call `free(stream->cpu.stats_buf)`. -/
  | free_stats_buf
  /-- Call `uv_timer_stop(&stream->cpu.sample_timer)`. -/
  | uv_timer_stop
  /-- Call `stream->on_close_cb(stream)`. -/
  | on_close_cb
  /-- Call `stream->user.destroy_cb(stream)`. -/
  | destroy_cb
  /-- Call `free(stream)`. -/
  | free_stream
  deriving DecidableEq

/-- The fields of `struct gputop_perf_stream` that the close and reference
count code reads or writes; a pointer is kept as "is it non-NULL", and
`effects` logs the outside calls made so far. -/
structure Stream where
  type : StreamType
  fd : Int
  ref_count : Int
  n_closing_uv_handles : Int
  closed : Bool
  /-- Pointer `perf.mmap_page`. -/
  mmap_page : Bool
  /-- Pointer `perf.header_buf.offsets`. -/
  offsets : Bool
  /-- Pointer `oa.bufs[0]`. -/
  oa_bufs0 : Bool
  /-- Pointer `oa.bufs[1]`. -/
  oa_bufs1 : Bool
  /-- Pointer `cpu.stats_buf`. -/
  stats_buf : Bool
  /-- Pointer `user.destroy_cb`. -/
  destroy_cb : Bool
  effects : List Effect
  deriving DecidableEq

/-- Result of code that contains an `assert`: it ran through, or the assertion
failed (the process is aborted); either way the state reached is kept. -/
inductive Checked (σ : Type) where
  | ok (s : σ)
  | assert_failed (s : σ)

/-- The function `gputop_perf_stream_ref`. -/
def gputop_perf_stream_ref (stream : Stream) : Stream :=
  { stream with ref_count := stream.ref_count + 1 }

/-- The function `finish_stream_close`. -/
def finish_stream_close (stream : Stream) : Stream :=
  let stream :=
    match stream.type with
    | .GPUTOP_STREAM_PERF =>
      if 0 < stream.fd then
        let stream :=
          if stream.mmap_page then
            { stream with mmap_page := false, effects := stream.effects ++ [Effect.munmap] }
          else stream
        let stream :=
          if stream.offsets then
            { stream with offsets := false, effects := stream.effects ++ [Effect.free_offsets] }
          else stream
        { stream with fd := -1, effects := stream.effects ++ [Effect.close_fd stream.fd] }
      else stream
    | .GPUTOP_STREAM_I915_PERF =>
      let stream :=
        if stream.fd = -1 then
          let stream :=
            if stream.oa_bufs0 then
              { stream with effects := stream.effects ++ [Effect.free_oa_buf 0] }
            else stream
          if stream.oa_bufs1 then
            { stream with effects := stream.effects ++ [Effect.free_oa_buf 1] }
          else stream
        else stream
      if 0 < stream.fd then
        let stream :=
          if stream.oa_bufs0 then
            { stream with effects := stream.effects ++ [Effect.free_oa_buf 0] }
          else stream
        let stream :=
          if stream.oa_bufs1 then
            { stream with effects := stream.effects ++ [Effect.free_oa_buf 1] }
          else stream
        { stream with fd := -1, effects := stream.effects ++ [Effect.close_fd stream.fd] }
      else stream
    | .GPUTOP_STREAM_CPU =>
      { stream with
        stats_buf := false
        effects := stream.effects ++ [Effect.free_stats_buf, Effect.uv_timer_stop] }
  { stream with closed := true, effects := stream.effects ++ [Effect.on_close_cb] }

/-- The function `stream_handle_closed_cb`: one handle-close confirmation from
the reactor. -/
def stream_handle_closed_cb (stream : Stream) : Stream :=
  let stream := { stream with n_closing_uv_handles := stream.n_closing_uv_handles - 1 }
  if stream.n_closing_uv_handles = 0 then finish_stream_close stream else stream

/-- The function `gputop_perf_stream_close` (the callback it is given is the
one `finish_stream_close` later calls). -/
def gputop_perf_stream_close (stream : Stream) : Stream :=
  let stream :=
    match stream.type with
    | .GPUTOP_STREAM_PERF =>
      if 0 ≤ stream.fd then
        { stream with
          effects := stream.effects ++ [Effect.uv_close_fd_poll]
          n_closing_uv_handles := stream.n_closing_uv_handles + 1 }
      else stream
    | .GPUTOP_STREAM_I915_PERF =>
      let stream :=
        if stream.fd = -1 then
          { stream with
            effects := stream.effects ++ [Effect.uv_close_fd_timer]
            n_closing_uv_handles := stream.n_closing_uv_handles + 1 }
        else stream
      if 0 ≤ stream.fd then
        { stream with
          effects := stream.effects ++ [Effect.uv_close_fd_poll]
          n_closing_uv_handles := stream.n_closing_uv_handles + 1 }
      else stream
    | .GPUTOP_STREAM_CPU => stream
  if stream.n_closing_uv_handles = 0 then finish_stream_close stream else stream

/-- The function `gputop_perf_stream_unref`. -/
def gputop_perf_stream_unref (stream : Stream) : Checked Stream :=
  let stream := { stream with ref_count := stream.ref_count - 1 }
  if stream.ref_count = 0 then
    if stream.closed then
      let stream :=
        if stream.destroy_cb then
          { stream with effects := stream.effects ++ [Effect.destroy_cb] }
        else stream
      .ok { stream with effects := stream.effects ++ [Effect.free_stream] }
    else .assert_failed stream
  else .ok stream

/-- The stream after `k` handle-close confirmations. -/
def confirmations : Nat → Stream → Stream
  | 0, stream => stream
  | k + 1, stream => confirmations k (stream_handle_closed_cb stream)

/-- Number of calls of the caller's on-close callback logged so far. -/
def on_close_calls (stream : Stream) : Nat := stream.effects.count Effect.on_close_cb

/-- A simulated OA stream right after `gputop_open_i915_perf_oa_stream` in fake
mode: `fd = -1`, one reference, both read buffers allocated. -/
def fake_oa_stream_opened : Stream :=
  { type := StreamType.GPUTOP_STREAM_I915_PERF
    fd := -1
    ref_count := 1
    n_closing_uv_handles := 0
    closed := false
    mmap_page := false
    offsets := false
    oa_bufs0 := true
    oa_bufs1 := true
    stats_buf := false
    destroy_cb := true
    effects := [] }

/-! ### Reactor handles registered when a stream is opened -/

/-- The reactor handles embedded in a `struct gputop_perf_stream`: `fd_poll`,
`fd_timer` and `cpu.sample_timer`. -/
inductive UvHandle where
  | fd_poll
  | fd_timer
  | cpu_sample_timer
  deriving DecidableEq

/-- A stream as an open function returns it, with the handles that function
registered with the reactor (`uv_poll_init` or `uv_timer_init`, then started). -/
structure Opened where
  stream : Stream
  registered : List UvHandle
  deriving DecidableEq

/-- Lifecycle view of `gputop_open_i915_perf_oa_stream` (lines 359-463) for
`overwrite = false`: `ioctl_fd` is what `perf_ioctl` returns when it is called
(not in fake mode, where `stream_fd` keeps its initial -1); `none` stands for
the `return NULL` on error. -/
def gputop_open_i915_perf_oa_stream (gputop_fake_mode : Bool) (ioctl_fd : Int) :
    Option Opened :=
  let stream_fd : Int := if gputop_fake_mode then -1 else ioctl_fd
  if gputop_fake_mode = false ∧ stream_fd = -1 then none
  else
    some
      { stream :=
          { type := StreamType.GPUTOP_STREAM_I915_PERF
            fd := stream_fd
            ref_count := 1
            n_closing_uv_handles := 0
            closed := false
            mmap_page := false
            offsets := false
            oa_bufs0 := true
            oa_bufs1 := true
            stats_buf := false
            destroy_cb := false
            effects := [] }
        registered := if gputop_fake_mode then [UvHandle.fd_timer] else [UvHandle.fd_poll] }

/-- Lifecycle view of `gputop_perf_open_generic_counter` (lines 576-651;
`gputop_perf_open_trace` ends the same way): `event_fd` is what
`perf_event_open` returns and `mmap_ok` whether `mmap` succeeded; `none` stands
for the `return NULL` on error. -/
def gputop_perf_open_generic_counter (event_fd : Int) (mmap_ok : Bool) (overwrite : Bool) :
    Option Opened :=
  if event_fd = -1 then none
  else if mmap_ok = false then none
  else
    some
      { stream :=
          { type := StreamType.GPUTOP_STREAM_PERF
            fd := event_fd
            ref_count := 1
            n_closing_uv_handles := 0
            closed := false
            mmap_page := true
            offsets := overwrite
            oa_bufs0 := false
            oa_bufs1 := false
            stats_buf := false
            destroy_cb := false
            effects := [] }
        registered := [UvHandle.fd_poll] }

/-- Lifecycle view of `gputop_perf_open_cpu_stats` (lines 674-700): the stream
is zero-allocated (`fd = 0`), gets its `stats_buf`, and its `cpu.sample_timer`
is initialised and started. -/
def gputop_perf_open_cpu_stats_stream : Opened :=
  { stream :=
      { type := StreamType.GPUTOP_STREAM_CPU
        fd := 0
        ref_count := 1
        n_closing_uv_handles := 0
        closed := false
        mmap_page := false
        offsets := false
        oa_bufs0 := false
        oa_bufs1 := false
        stats_buf := true
        destroy_cb := false
        effects := [] }
    registered := [UvHandle.cpu_sample_timer] }

/-- The handles the lifecycle code has asked the reactor to close so far (its
`uv_close` calls), in call order. -/
def closing_handles (stream : Stream) : List UvHandle :=
  stream.effects.filterMap fun e =>
    match e with
    | .uv_close_fd_poll => some UvHandle.fd_poll
    | .uv_close_fd_timer => some UvHandle.fd_timer
    | _ => none

/-! ## Simulated OA reads (gputop-perf.c, lines 427-432 and 1117-1199) -/

/-- What the simulated-read code takes from declarations outside the source
files at hand (`gputop-perf.h`, `gputop_devinfo`). -/
structure FakeDecls where
  /-- Number of values of the integer type of the field `gen_so_far`. -/
  gen_so_far_mod : Nat
  /-- The product `elapsed_clocks * gputop_devinfo.n_eus` as stored in the
  `uint64_t counter`. -/
  eu_counter : Nat → Nat

/-- The fields of `struct gputop_perf_stream` "used for fake data".  The fields
`prev_clocks`, `prev_timestamp` and `period` are taken to hold at least 32
bits. -/
structure FakeStream where
  start_time : Nat
  gen_so_far : Nat
  prev_clocks : Nat
  period : Nat
  prev_timestamp : Nat

/-- The fields of `struct report_layout` that the generator writes; the three
counter arrays are filled with one value each (`context_id` is not written). -/
structure report_layout where
  header : RecordHeader
  rep_id : Nat
  timest : Nat
  clock_ticks : Nat
  counter_40_lsb : Nat
  agg_counter : Nat
  counter_40_msb : Nat
  bool_custom_counters : Nat

/-- The size `sizeof(struct report_layout)`: an 8-byte header, 4 + 32 + 4 + 16
words of 4 bytes and 32 single bytes. -/
def REPORT_LAYOUT_SIZE : Nat := 8 + 4 * 4 + 32 * 4 + 4 * 4 + 32 + 16 * 4

/-- The period `80 * (2 << period_exponent)` that
`gputop_open_i915_perf_oa_stream` stores in fake mode (line 430).  The product
is computed in `int`; the exponent ranges over 0..23, the values for which it
stays below `2 ^ 31` (from 24 on the `int` product overflows, which C leaves
undefined). -/
def fake_period (period_exponent : Fin 24) : Nat := 80 * (2 <<< period_exponent.val)

/-- The fake-mode part of `gputop_open_i915_perf_oa_stream`; `t0`, `t1`, `t2`
are the results of its three calls of `gputop_get_time()`. -/
def open_fake_stream (period_exponent : Fin 24) (t0 t1 t2 : Nat) : FakeStream :=
  { start_time := t0
    gen_so_far := 0
    prev_clocks := t1
    period := fake_period period_exponent
    prev_timestamp := t2 }

/-- The count `records_to_gen` of `gputop_perf_fake_read` (lines 1149-1152):
the comparison is made on 64-bit unsigned values, the result is a
`uint32_t`. -/
def records_to_gen (now : Nat) (stream : FakeStream) (buf_length : Int) : Nat :=
  let elapsed_time := sub64 now stream.start_time
  let wanted := sub64 (elapsed_time / stream.period) stream.gen_so_far
  let fit : Int := Int.tdiv buf_length (REPORT_LAYOUT_SIZE : Int)
  if wanted < (fit % (U64 : Int)).toNat then wanted % U32
  else (fit % (U32 : Int)).toNat

/-- The loop `for (i = 0; i < records_to_gen; i++)` of `gputop_perf_fake_read`
(lines 1154-1197): the stream after `n` iterations and the reports written, in
buffer order. -/
def fake_generate (d : FakeDecls) : Nat → FakeStream → FakeStream × List report_layout
  | 0, stream => (stream, [])
  | n + 1, stream =>
    let timestamp := (stream.period / 80 + stream.prev_timestamp) % U32
    let elapsed_clocks := (stream.period / 2 + stream.prev_clocks) % U32
    let counter := d.eu_counter elapsed_clocks % U64
    let counter_msb := (counter >>> 32) &&& 0xFF
    let counter_lsb := counter % U32
    let report : report_layout :=
      { header := { type := DRM_I915_PERF_RECORD_SAMPLE, size := REPORT_LAYOUT_SIZE }
        rep_id := 1 <<< 19
        timest := timestamp
        clock_ticks := elapsed_clocks
        counter_40_lsb := counter_lsb
        agg_counter := counter_lsb
        counter_40_msb := counter_msb
        bool_custom_counters := (elapsed_clocks * 2) % U32 }
    let rest := fake_generate d n
      { stream with
        prev_timestamp := timestamp
        prev_clocks := elapsed_clocks
        gen_so_far := (stream.gen_so_far + 1) % d.gen_so_far_mod }
    (rest.1, report :: rest.2)

/-- The function `gputop_perf_fake_read`, `now` being the result of
`gputop_get_time()`: the stream afterwards, the reports written to `buf` and
the `int` returned (`header.size * records_to_gen`, computed on 32-bit
unsigned values). -/
def gputop_perf_fake_read (d : FakeDecls) (now : Nat) (stream : FakeStream)
    (buf_length : Int) : FakeStream × List report_layout × Int :=
  let n := records_to_gen now stream buf_length
  let out := fake_generate d n stream
  let bytes := (REPORT_LAYOUT_SIZE * n) % U32
  (out.1, out.2, if bytes < 2 ^ 31 then (bytes : Int) else (bytes : Int) - (U32 : Int))

/-- A sequence of calls of `gputop_perf_fake_read` on one stream, each given
the time of the call and a buffer length: the stream afterwards and all the
reports generated, in order. -/
def fake_reads (d : FakeDecls) : FakeStream → List (Nat × Int) → FakeStream × List report_layout
  | stream, [] => (stream, [])
  | stream, c :: cs =>
    let out := gputop_perf_fake_read d c.1 stream c.2
    let rest := fake_reads d out.1 cs
    (rest.1, out.2.1 ++ rest.2)

/-- Declarations with a 32-bit `gen_so_far` and 8 execution units. -/
def fake_decls_u32 : FakeDecls :=
  { gen_so_far_mod := 2 ^ 32, eu_counter := fun c => c * 8 }

/-- A simulated stream with period exponent 0 (period 160) whose clock value
is 100 ticks below `2 ^ 32`. -/
def fake_stream_near_wrap : FakeStream :=
  { open_fake_stream 0 0 4294967196 0 with prev_clocks := 4294967196 }

/-- The last element of `a :: l`. -/
def last_or {α : Type} : α → List α → α
  | a, [] => a
  | _, b :: l => last_or b l

/-! ## CPU-stats stream and "data pending" (gputop-perf.c, lines 654-700, 833-881) -/

/-- The `cpu` part of a `struct gputop_perf_stream` with its `overwrite` flag.
`alloc_entries` is the number of `struct cpu_stat` entries `stats_buf` was
allocated for and `writes` logs each call `gputop_cpu_read_stats(stats,
n_cpus)` as (position written at, number of entries). -/
structure CpuStream where
  stats_buf_len : Int
  stats_buf_pos : Int
  stats_buf_full : Bool
  overwrite : Bool
  alloc_entries : Int
  writes : List (Int × Int)

/-- The function `gputop_perf_open_cpu_stats`, `n_cpus` being the result of
`gputop_cpu_count()` (for `sample_period_ms = 0` the C code divides by
zero). -/
def gputop_perf_open_cpu_stats (n_cpus : Int) (overwrite : Bool) (sample_period_ms : Nat) :
    CpuStream :=
  { stats_buf_len := ((max 10 (1000 / sample_period_ms) : Nat) : Int)
    stats_buf_pos := 0
    stats_buf_full := false
    overwrite := overwrite
    alloc_entries := ((max 10 (1000 / sample_period_ms) : Nat) : Int) * n_cpus
    writes := [] }

/-- The timer callback `log_cpu_stats_cb`, `n_cpus` being the result of
`gputop_cpu_count()` at this tick. -/
def log_cpu_stats_cb (n_cpus : Int) (stream : CpuStream) : CpuStream :=
  let stream :=
    if stream.stats_buf_pos < stream.stats_buf_len then
      { stream with
        writes := stream.writes ++ [(stream.stats_buf_pos, n_cpus)]
        stats_buf_pos := stream.stats_buf_pos + n_cpus }
    else stream
  if stream.stats_buf_len ≤ stream.stats_buf_pos then
    let stream := { stream with stats_buf_full := true }
    if stream.overwrite then { stream with stats_buf_pos := 0 } else stream
  else stream

/-- A run of timer ticks, one CPU count per tick. -/
def cpu_ticks : List Int → CpuStream → CpuStream
  | [], stream => stream
  | n :: ns, stream => cpu_ticks ns (log_cpu_stats_cb n stream)

/-- The function `perf_stream_data_pending`. -/
def perf_stream_data_pending (s : PerfStream) : Bool :=
  decide (TAKEN (read_perf_head s.data_head) s.data_tail s.buffer_size ≠ 0)

/-- The function `i915_perf_stream_data_pending`: in fake mode the test
`elapsed_time / period - gen_so_far > 0` on 64-bit unsigned values, `now` being
the result of `gputop_get_time()`; otherwise `poll_in`, whether `poll()`
reported `POLLIN` on the descriptor. -/
def i915_perf_stream_data_pending (gputop_fake_mode : Bool) (now : Nat) (poll_in : Bool)
    (s : FakeStream) : Bool :=
  if gputop_fake_mode then
    decide (0 < sub64 (sub64 now s.start_time / s.period) s.gen_so_far)
  else poll_in

/-- A stream of one of the three variants, with the part of its state that
"data pending" looks at. -/
inductive AnyStream where
  | perf (s : PerfStream)
  | i915_perf (s : FakeStream)
  | cpu (s : CpuStream)

/-- The function `gputop_stream_data_pending`. -/
def gputop_stream_data_pending (gputop_fake_mode : Bool) (now : Nat) (poll_in : Bool) :
    AnyStream → Bool
  | .perf s => perf_stream_data_pending s
  | .i915_perf s => i915_perf_stream_data_pending gputop_fake_mode now poll_in s
  | .cpu s => if s.stats_buf_pos = 0 ∧ ¬ s.stats_buf_full then false else true

/-! ## Web bridge: forwarding updates and parsing messages (gputop-web.c) -/

/-- The constant `JS_MAX_SAFE_INTEGER`: `(((uint64_t)1<<53) - 1)`. -/
def JS_MAX_SAFE_INTEGER : Nat := sub64 (1 <<< 53) 1

/-- Value of `UPDATE_REASON_PERIOD`. -/
def UPDATE_REASON_PERIOD : Nat := 1

/-- Value of `UPDATE_REASON_CTX_SWITCH_TO`. -/
def UPDATE_REASON_CTX_SWITCH_TO : Nat := 2

/-- Value of `UPDATE_REASON_CTX_SWITCH_AWAY`. -/
def UPDATE_REASON_CTX_SWITCH_AWAY : Nat := 4

/-- The data type tags `GPUTOP_PERFQUERY_COUNTER_DATA_*` of a counter. -/
inductive CounterDataType where
  | GPUTOP_PERFQUERY_COUNTER_DATA_UINT64
  | GPUTOP_PERFQUERY_COUNTER_DATA_UINT32
  | GPUTOP_PERFQUERY_COUNTER_DATA_DOUBLE
  | GPUTOP_PERFQUERY_COUNTER_DATA_BOOL32
  | GPUTOP_PERFQUERY_COUNTER_DATA_FLOAT
  deriving DecidableEq

/-- A C `float`, kept as its bit pattern. -/
structure CFloat where
  bits : Nat
  deriving DecidableEq

/-- A `double` handed to the update sink, named by what it was converted from:
an unsigned integer or a `float`. -/
inductive SinkValue where
  | of_uint (n : Nat)
  | of_float (f : CFloat)
  deriving DecidableEq

/-- A raw report seen through a pointer: the byte at each index from the
pointer on. -/
abbrev Report := Nat → Nat

/-- The fields of `struct gputop_oa_accumulator` that gputop-web.c reads or
writes. -/
structure Accumulator where
  first_timestamp : Nat
  last_timestamp : Nat
  flags : Nat
  deltas : Nat → Nat
  clock_initialized : Bool

/-- One entry of `metric_set->counters[]`: the read functions are closed over
`gputop_devinfo` and the metric set and take the accumulator's deltas. -/
structure MetricSetCounter where
  symbol_name : String
  data_type : CounterDataType
  /-- Function pointer `max` (`none` for `NULL`). -/
  max : Option ((Nat → Nat) → Nat)
  oa_counter_read_uint64 : (Nat → Nat) → Nat
  oa_counter_read_float : (Nat → Nat) → CFloat

/-- The fields of `struct gputop_metric_set` used by gputop-web.c. -/
structure MetricSet where
  n_counters : Int
  counters : Nat → MetricSetCounter
  perf_raw_size : Nat

/-- The accumulator code of `gputop-oa-counters`, which is outside the source
files at hand: the two functions gputop-web.c calls and the two flag masks it
tests. -/
structure AccumulatorApi where
  gputop_oa_accumulate_reports : Accumulator → Report → Report → Bool → Bool × Accumulator
  gputop_oa_accumulator_clear : Accumulator → Accumulator
  GPUTOP_ACCUMULATOR_CTX_SW_TO_SEEN : Nat
  GPUTOP_ACCUMULATOR_CTX_SW_FROM_SEEN : Nat

/-- Calls made on the update sink: `_gputop_stream_start_update`,
`_gputop_stream_update_counter`, `_gputop_stream_end_update`.  Integer
arguments are given as they are before their conversion to `double`. -/
inductive SinkEvent where
  | start_update (start_timestamp end_timestamp reason : Nat)
  | update_counter (counter : Nat) (max : Nat) (value : SinkValue)
  | end_update
  deriving DecidableEq

/-- Calls made on the console: `gputop_web_console_log`,
`gputop_web_console_error` (with the counter's name) and a
`gputop_web_console_assert` whose condition is false. -/
inductive ConsoleEvent where
  | log
  | error (symbol_name : String)
  | assert_false
  deriving DecidableEq

/-- The structure `struct gputop_webc_stream`, with the calls made so far on
the sink and on the console. -/
structure WebcStream where
  aggregation_period : Nat
  per_ctx_mode : Bool
  oa_metric_set : MetricSet
  oa_accumulator : Accumulator
  /-- Pointer `continuation_report` (`none` for `NULL`) with the bytes it holds. -/
  continuation_report : Option (List Nat)
  sink : List SinkEvent
  console : List ConsoleEvent

/-- One iteration of the counter loop of `forward_stream_update` (lines
124-157) for counter index `i`. -/
def forward_counter (i : Nat) (stream : WebcStream) : WebcStream :=
  let counter := stream.oa_metric_set.counters i
  let deltas := stream.oa_accumulator.deltas
  let max : Nat :=
    match counter.max with
    | some f => f deltas % U64
    | none => 0
  match counter.data_type with
  | .GPUTOP_PERFQUERY_COUNTER_DATA_UINT64 =>
    let u53_check := counter.oa_counter_read_uint64 deltas % U64
    if JS_MAX_SAFE_INTEGER < u53_check then
      { stream with
        console := stream.console ++ [ConsoleEvent.error counter.symbol_name]
        sink := stream.sink ++
          [SinkEvent.update_counter i max (SinkValue.of_uint JS_MAX_SAFE_INTEGER)] }
    else
      { stream with
        sink := stream.sink ++ [SinkEvent.update_counter i max (SinkValue.of_uint u53_check)] }
  | .GPUTOP_PERFQUERY_COUNTER_DATA_FLOAT =>
    { stream with
      sink := stream.sink ++
        [SinkEvent.update_counter i max (SinkValue.of_float (counter.oa_counter_read_float deltas))] }
  | _ =>
    { stream with
      console := stream.console ++ [ConsoleEvent.assert_false]
      sink := stream.sink ++ [SinkEvent.update_counter i max (SinkValue.of_uint 0)] }

/-- The loop `for (i = 0; i < n_counters; i++)` of `forward_stream_update`,
run over the indices still to do. -/
def forward_counters : List Nat → WebcStream → WebcStream
  | [], stream => stream
  | i :: is, stream => forward_counters is (forward_counter i stream)

/-- The function `forward_stream_update`. -/
def forward_stream_update (stream : WebcStream) (reason : Nat) : WebcStream :=
  let stream :=
    { stream with
      sink := stream.sink ++
        [SinkEvent.start_update stream.oa_accumulator.first_timestamp
          stream.oa_accumulator.last_timestamp reason] }
  let stream := forward_counters (List.range stream.oa_metric_set.n_counters.toNat) stream
  { stream with sink := stream.sink ++ [SinkEvent.end_update] }

/-- A perf data message: the record header and the byte found at each offset
of `data`, and `len`. -/
structure Message where
  header : Nat → RecordHeader
  byte : Nat → Nat
  len : Int

/-- The report `sample->oa_report` of the sample whose header is at `offset`. -/
def oa_report (msg : Message) (offset : Nat) : Report := fun i => msg.byte (offset + 8 + i)

/-- The `DRM_I915_PERF_RECORD_SAMPLE` case of the message loop (lines 218-247)
for the report `report`, `last` being the previous report if any; returns the
stream, the new `last` being `report`. -/
def handle_sample (api : AccumulatorApi) (stream : WebcStream) (last : Option Report)
    (report : Report) : WebcStream :=
  match last with
  | none => stream
  | some last =>
    let res := api.gputop_oa_accumulate_reports stream.oa_accumulator last report
      stream.per_ctx_mode
    let stream := { stream with oa_accumulator := res.2 }
    if res.1 then
      let elapsed := sub64 stream.oa_accumulator.last_timestamp
        stream.oa_accumulator.first_timestamp
      let reason := 0
      let reason := if stream.aggregation_period < elapsed then UPDATE_REASON_PERIOD else reason
      let reason :=
        if stream.oa_accumulator.flags &&& api.GPUTOP_ACCUMULATOR_CTX_SW_TO_SEEN ≠ 0 then
          UPDATE_REASON_CTX_SWITCH_TO
        else reason
      let reason :=
        if stream.oa_accumulator.flags &&& api.GPUTOP_ACCUMULATOR_CTX_SW_FROM_SEEN ≠ 0 then
          UPDATE_REASON_CTX_SWITCH_AWAY
        else reason
      if reason ≠ 0 then
        let stream := forward_stream_update stream reason
        { stream with
          oa_accumulator := api.gputop_oa_accumulator_clear stream.oa_accumulator }
      else stream
    else stream

/-- How the message loop ended: it ran to the end of the message, it hit a
record of unknown type (the function returns at once), or the iteration bound
of the model was reached. -/
inductive LoopEnd where
  | done (stream : WebcStream) (last : Option Report)
  | spurious (stream : WebcStream)
  | out_of_fuel

/-- The loop `for (header = data; header < data + len; header += header->size)`
of `gputop_webc_handle_i915_perf_message` (lines 195-253), from the header at
`offset` on. -/
def message_loop (api : AccumulatorApi) (msg : Message) :
    Nat → Nat → WebcStream → Option Report → LoopEnd
  | 0, offset, stream, last =>
    if (offset : Int) < msg.len then .out_of_fuel else .done stream last
  | fuel + 1, offset, stream, last =>
    if (offset : Int) < msg.len then
      let header := msg.header offset
      let next := offset + header.size % U16
      if header.type = DRM_I915_PERF_RECORD_OA_BUFFER_LOST then
        message_loop api msg fuel next
          { stream with console := stream.console ++ [ConsoleEvent.log] } last
      else if header.type = DRM_I915_PERF_RECORD_OA_REPORT_LOST then
        message_loop api msg fuel next
          { stream with console := stream.console ++ [ConsoleEvent.log] } last
      else if header.type = DRM_I915_PERF_RECORD_SAMPLE then
        message_loop api msg fuel next
          (handle_sample api stream last (oa_report msg offset))
          (some (oa_report msg offset))
      else .spurious { stream with console := stream.console ++ [ConsoleEvent.log] }
    else .done stream last

/-- The function `gputop_webc_handle_i915_perf_message`; `fuel` bounds the
number of loop iterations. -/
def gputop_webc_handle_i915_perf_message (api : AccumulatorApi) (fuel : Nat)
    (stream : WebcStream) (msg : Message) : Outcome WebcStream :=
  let start : WebcStream × Option Report :=
    match stream.continuation_report with
    | some bytes => (stream, some (fun i => bytes.getD i 0))
    | none =>
      ({ stream with
          oa_accumulator := api.gputop_oa_accumulator_clear stream.oa_accumulator }, none)
  match message_loop api msg fuel 0 start.1 start.2 with
  | .out_of_fuel => .out_of_fuel
  | .spurious stream => .returned stream
  | .done stream none => .returned stream
  | .done stream (some last) =>
    .returned
      { stream with
        continuation_report :=
          some ((List.range stream.oa_metric_set.perf_raw_size).map last) }

/-! ### Reference description of a forwarded update -/

/-- The `max` argument `forward_stream_update` hands over for counter `i`. -/
def counter_max (stream : WebcStream) (i : Nat) : Nat :=
  match (stream.oa_metric_set.counters i).max with
  | some f => f stream.oa_accumulator.deltas % U64
  | none => 0

/-- The value `forward_stream_update` is meant to hand over for counter `i`: an
unsigned 64-bit reading capped at `2 ^ 53 - 1`, a float reading as it is, and 0
for the data types it does not expect. -/
def counter_value (stream : WebcStream) (i : Nat) : SinkValue :=
  match (stream.oa_metric_set.counters i).data_type with
  | .GPUTOP_PERFQUERY_COUNTER_DATA_UINT64 =>
    SinkValue.of_uint
      (min ((stream.oa_metric_set.counters i).oa_counter_read_uint64
        stream.oa_accumulator.deltas % U64) (2 ^ 53 - 1))
  | .GPUTOP_PERFQUERY_COUNTER_DATA_FLOAT =>
    SinkValue.of_float
      ((stream.oa_metric_set.counters i).oa_counter_read_float stream.oa_accumulator.deltas)
  | _ => SinkValue.of_uint 0

/-- The sink call expected for counter `i`. -/
def counter_event (stream : WebcStream) (i : Nat) : SinkEvent :=
  SinkEvent.update_counter i (counter_max stream i) (counter_value stream i)

/-- Number of failed console assertions logged so far. -/
def console_asserts (stream : WebcStream) : Nat := stream.console.count ConsoleEvent.assert_false

/-- A message of 32 bytes: a 16-byte Sample record followed, at offset 16, by a
ReportLost header that declares size 0. -/
def message_with_zero_size_header : Message :=
  { header := fun off =>
      if off = 0 then { type := DRM_I915_PERF_RECORD_SAMPLE, size := 16 }
      else { type := DRM_I915_PERF_RECORD_OA_REPORT_LOST, size := 0 }
    byte := fun _ => 0
    len := 32 }

/-- A counter of data type UINT64 named `name` whose read function returns
`v`. -/
def uint64_counter (name : String) (v : Nat) : MetricSetCounter :=
  { symbol_name := name
    data_type := CounterDataType.GPUTOP_PERFQUERY_COUNTER_DATA_UINT64
    max := none
    oa_counter_read_uint64 := fun _ => v
    oa_counter_read_float := fun _ => { bits := 0 } }

/-- A counter of data type FLOAT named `name` whose read function returns the
float with bit pattern `bits`. -/
def float_counter (name : String) (bits : Nat) : MetricSetCounter :=
  { symbol_name := name
    data_type := CounterDataType.GPUTOP_PERFQUERY_COUNTER_DATA_FLOAT
    max := some (fun _ => 100)
    oa_counter_read_uint64 := fun _ => 0
    oa_counter_read_float := fun _ => { bits := bits } }

/-- A metric set with three counters: a small UINT64 reading (5), a UINT64
reading above the safe range (`2 ^ 60`), and a FLOAT reading. -/
def three_counter_set : MetricSet :=
  { n_counters := 3
    counters := fun i =>
      if i = 0 then uint64_counter "A" 5
      else if i = 1 then uint64_counter "B" (2 ^ 60)
      else float_counter "C" 1065353216
    perf_raw_size := 256 }

/-- A web stream over `three_counter_set` with aggregation period 1000 and the
accumulator `acc`; nothing forwarded yet. -/
def three_counter_stream (acc : Accumulator) : WebcStream :=
  { aggregation_period := 1000
    per_ctx_mode := false
    oa_metric_set := three_counter_set
    oa_accumulator := acc
    continuation_report := none
    sink := []
    console := [] }

/-- An accumulator with the given window and flags, and zero deltas. -/
def accumulator_with (first last flags : Nat) : Accumulator :=
  { first_timestamp := first
    last_timestamp := last
    flags := flags
    deltas := fun _ => 0
    clock_initialized := true }

/-- A stand-in for the accumulator code: a pairing is accepted when the first
byte of the new report is nonzero and then ends the window at the report's
first byte with the flags of its second byte; `clear` resets the window; the
flag masks are 1 and 2. -/
def test_api : AccumulatorApi :=
  { gputop_oa_accumulate_reports := fun acc _ report _ =>
      if report 0 = 0 then (false, acc)
      else (true, { acc with last_timestamp := report 0, flags := report 1 })
    gputop_oa_accumulator_clear := fun acc =>
      { acc with first_timestamp := 0, last_timestamp := 0, flags := 0 }
    GPUTOP_ACCUMULATOR_CTX_SW_TO_SEEN := 1
    GPUTOP_ACCUMULATOR_CTX_SW_FROM_SEEN := 2 }

/-! ### Counter lookup (gputop-web.c, lines 76-88) -/

/-- The loop `for (int t=0; t<metric_set->n_counters; t++)` of
`gputop_webc_get_counter_id` from index `t` on: the value returned, or `none`
when `fuel` iterations did not reach a `return`. -/
def get_counter_id_loop (metric_set : MetricSet) (counter_symbol_name : String) :
    Nat → Nat → Option Int
  | 0, t => if (t : Int) < metric_set.n_counters then none else some (-1)
  | fuel + 1, t =>
    if (t : Int) < metric_set.n_counters then
      if (metric_set.counters t).symbol_name = counter_symbol_name then some (t : Int)
      else get_counter_id_loop metric_set counter_symbol_name fuel (t + 1)
    else some (-1)

/-- The function `gputop_webc_get_counter_id`, `metric_set` being what
`gputop_web_lookup_metric_set(guid)` returned; `strcmp(...) == 0` is equality of
the two names. -/
def gputop_webc_get_counter_id (fuel : Nat) (metric_set : MetricSet)
    (counter_symbol_name : String) : Option Int :=
  get_counter_id_loop metric_set counter_symbol_name fuel 0

/-- Two wake-ups of a 128-byte ring: the kernel first writes three 48-byte
records at offsets 0, 48 and 96 (the third wraps and ends at offset 16), then a
32-byte record at offset 16, which ends at offset 48 where the second record
begins. -/
def wakeups_record_ends_at_tracked : List KernelWrite :=
  [ { data_head := 144, header_size := fun o => if o = 0 ∨ o = 48 ∨ o = 96 then 48 else 0 },
    { data_head := 176, header_size := one_record 16 32 } ]

/-- The tracked offset `o` as the eviction loop compares it with the end of the
new record at offset `p`: `o + buffer_size` when `o < p`, else `o`. -/
def normalised_offset (buffer_size p o : Nat) : Nat :=
  if o < p then o + buffer_size else o

/-- The tracker array after the first of the two wake-ups of
`wakeups_record_ends_at_tracked`: offsets 0, 48, 96 in slots 0, 1, 2. -/
def offsets_after_first_wakeup : Nat → Nat :=
  fun i => if i = 1 then 48 else if i = 2 then 96 else 0

/-! ### Reference description of a message as a list of records -/

/-- The value `last` has when the message loop starts (lines 187-190): the
carried-over report if there is one. -/
def carried_report (stream : WebcStream) : Option Report :=
  match stream.continuation_report with
  | some bytes => some (fun i => bytes.getD i 0)
  | none => none

/-- The records `recs` lie one after the other in the message from byte
`offset` on, each starting before `data + len`. -/
def records_laid_from (msg : Message) : Nat → List RecordHeader → Bool
  | _, [] => true
  | offset, r :: rs =>
    decide ((offset : Int) < msg.len) && decide ((msg.header offset).type = r.type) &&
      decide ((msg.header offset).size = r.size) && records_laid_from msg (offset + r.size) rs

/-- The byte offset right after the records `recs` laid from `offset`. -/
def records_end : Nat → List RecordHeader → Nat
  | offset, [] => offset
  | offset, r :: rs => records_end (offset + r.size) rs

/-- The byte offset of the last Sample record among `recs` laid from `offset`,
if there is one. -/
def last_sample_offset : Nat → List RecordHeader → Option Nat
  | _, [] => none
  | offset, r :: rs =>
    match last_sample_offset (offset + r.size) rs with
    | some o => some o
    | none => if r.type = DRM_I915_PERF_RECORD_SAMPLE then some offset else none

/-- Whether a record type is one of the three the message loop knows. -/
def known_record_type (type : Nat) : Prop :=
  type = DRM_I915_PERF_RECORD_OA_BUFFER_LOST ∨ type = DRM_I915_PERF_RECORD_OA_REPORT_LOST ∨
    type = DRM_I915_PERF_RECORD_SAMPLE

/-- A 40-byte message: a ReportLost record (8 bytes) and two Sample records of
16 bytes at offsets 8 and 24; byte `i` of the message holds `i`. -/
def message_two_samples : Message :=
  { header := fun off =>
      if off = 0 then { type := DRM_I915_PERF_RECORD_OA_REPORT_LOST, size := 8 }
      else { type := DRM_I915_PERF_RECORD_SAMPLE, size := 16 }
    byte := fun i => i
    len := 40 }

/-- A 40-byte message: a Sample record of 16 bytes, then at offset 16 a record
of the unknown type 9, then another Sample; byte `i` of the message holds
`i`. -/
def message_with_unknown_type : Message :=
  { header := fun off =>
      if off = 16 then { type := 9, size := 8 }
      else { type := DRM_I915_PERF_RECORD_SAMPLE, size := 16 }
    byte := fun i => i
    len := 40 }

/-- A web stream over a metric set with no counters and 4-byte raw reports,
carrying over `continuation`. -/
def plain_stream (continuation : Option (List Nat)) : WebcStream :=
  { aggregation_period := 1000
    per_ctx_mode := false
    oa_metric_set := { n_counters := 0, counters := fun _ => uint64_counter "A" 0,
                       perf_raw_size := 4 }
    oa_accumulator := accumulator_with 0 0 0
    continuation_report := continuation
    sink := []
    console := [] }

/-- A fresh 16-byte ring in overwrite mode with a `len`-entry tracker whose
array holds `offsets`: the kernel has written an 8-byte record at offset 0 and a
12-byte record at offset 8, which wraps and ends at offset 4
(`data_tail = 0`, `data_head = 20`). -/
def first_wrap_stream (len : Nat) (offsets : Nat → Nat) : PerfStream :=
  { open_perf_stream 16 len offsets with
    data_head := 20
    header_size := two_records 0 8 8 12 }

/-- A 4096-byte ring on the call where the producer cursor passes `2 ^ 32`: the
previous call left `data_tail = 2 ^ 32 - 96`, the kernel has since written 112
bytes (`data_head = 2 ^ 32 + 16`): a 96-byte record at offset 4000 and, at
offset 0, a header that declares 24 bytes although only 16 bytes are left up to
the head; fresh 4-entry tracker. -/
def stream_straddling_u32 : PerfStream :=
  { open_perf_stream 4096 4 (fun _ => 0) with
    data_tail := 2 ^ 32 - 96
    data_head := 2 ^ 32 + 16
    header_size := two_records 4000 96 0 24 }

/-- The same ring contents and the same 112 unread bytes as
`stream_straddling_u32`, with both cursors below `2 ^ 32`
(`data_tail = 4000`, `data_head = 4112`). -/
def stream_same_records_below_u32 : PerfStream :=
  { open_perf_stream 4096 4 (fun _ => 0) with
    data_tail := 4000
    data_head := 4112
    header_size := two_records 4000 96 0 24 }

/-! ## Helper lemmas on the fixed-width operations -/

theorem sub64_lt (a b : Nat) : sub64 a b < U64 :=
  Nat.mod_lt _ (by unfold U64; positivity)

theorem sub64_pow_one (k : Nat) (hk : k < 64) : sub64 (2 ^ k) 1 = 2 ^ k - 1 := by
  have h1 : 2 ^ k < 2 ^ 64 := Nat.pow_lt_pow_right (by decide) hk
  have h2 : 0 < 2 ^ k := by positivity
  unfold sub64 U64
  rw [Nat.mod_eq_of_lt (show 1 < 2 ^ 64 by decide)]
  have h3 : 2 ^ k + 2 ^ 64 - 1 = (2 ^ k - 1) + 2 ^ 64 := by omega
  rw [h3, Nat.add_mod_right]
  exact Nat.mod_eq_of_lt (by omega)

/-- On a power-of-two size the mask is a remainder. -/
theorem TAKEN_eq_mod (head tail k : Nat) (hk : k < 64) :
    TAKEN head tail (2 ^ k) = sub64 head tail % 2 ^ k := by
  unfold TAKEN
  rw [sub64_pow_one k hk, Nat.and_pow_two_sub_one_eq_mod]

theorem TAKEN_lt (head tail k : Nat) (hk : k < 64) :
    TAKEN head tail (2 ^ k) < 2 ^ k := by
  rw [TAKEN_eq_mod head tail k hk]
  exact Nat.mod_lt _ (by positivity)

theorem REMAINING_eq (head tail k : Nat) (hk : k < 64) :
    REMAINING head tail (2 ^ k) = 2 ^ k - TAKEN head tail (2 ^ k) := by
  have h1 : 2 ^ k < 2 ^ 64 := Nat.pow_lt_pow_right (by decide) hk
  have h2 := TAKEN_lt head tail k hk
  unfold REMAINING sub64 U64
  rw [Nat.mod_eq_of_lt (show TAKEN head tail (2 ^ k) < 2 ^ 64 by omega)]
  have h3 : 2 ^ k + 2 ^ 64 - TAKEN head tail (2 ^ k)
      = (2 ^ k - TAKEN head tail (2 ^ k)) + 2 ^ 64 := by omega
  rw [h3, Nat.add_mod_right]
  exact Nat.mod_eq_of_lt (by omega)

/-! ## Lemmas on the record walk -/

theorem sub64_add64 (h t sz : Nat) (hsz : sz ≤ sub64 h t) :
    sub64 h (add64 t sz) = sub64 h t - sz := by
  unfold sub64 add64 U64 at *
  omega

theorem walk_spec (ev bs len : Nat) (hdr : Nat → Nat) (head : Nat) :
    ∀ (fuel : Nat) (st st' : WalkState),
      walk ev bs len hdr head fuel st = some st' →
      st'.buf_head = advance_head st.buf_head (walked bs hdr head fuel st.perf_tail).length ∧
      st'.offsets = store_all len st.offsets st.buf_head (walked bs hdr head fuel st.perf_tail) ∧
      st'.full = (st.full || (walked bs hdr head fuel st.perf_tail).any (crosses_end bs)) := by
  intro fuel
  induction fuel with
  | zero => intro st st' h; simp [walk] at h
  | succ n ih =>
    intro st st' h
    unfold walk at h
    unfold walked
    by_cases h0 : TAKEN head st.perf_tail bs = 0
    · simp only [h0, if_true] at h
      cases h
      simp [h0, advance_head, store_all]
    · simp only [h0, if_false] at h ⊢
      by_cases h1 : hdr (st.perf_tail &&& sub64 bs 1) % U16 = 0
      · simp only [h1, if_true] at h
        cases h
        simp [h1, advance_head, store_all]
      · simp only [h1, if_false] at h ⊢
        by_cases h2 : sub64 head st.perf_tail < hdr (st.perf_tail &&& sub64 bs 1) % U16
        · simp only [h2, if_true] at h
          cases h
          simp [h2, advance_head, store_all]
        · simp only [h2, if_false] at h ⊢
          split at h
          · cases h
          · rename_i bt hbt
            obtain ⟨e1, e2, e3⟩ := ih _ _ h
            refine ⟨?_, ?_, ?_⟩
            · simpa [advance_head] using e1
            · simpa [store_all] using e2
            · rw [e3]
              simp [crosses_end, Bool.or_assoc]

theorem advance_head_eq (n : Nat) : ∀ h : Nat, h < U32 → advance_head h n = (h + n) % U32 := by
  induction n with
  | zero => intro h hh; simp [advance_head, Nat.mod_eq_of_lt hh]
  | succ n ih =>
    intro h hh
    have hlt : add32 h 1 < U32 := Nat.mod_lt _ (by unfold U32; positivity)
    rw [advance_head, ih _ hlt]
    unfold add32 U32
    omega

theorem walked_stable (bs : Nat) (hdr : Nat → Nat) (head : Nat) :
    ∀ (N t k : Nat), sub64 head t < N →
      walked bs hdr head (N + k) t = walked bs hdr head N t := by
  intro N
  induction N with
  | zero => intro t k h; omega
  | succ n ih =>
    intro t k h
    rw [show n + 1 + k = (n + k) + 1 by omega]
    unfold walked
    by_cases h0 : TAKEN head t bs = 0
    · simp [h0]
    · simp only [h0, if_false]
      by_cases h1 : hdr (t &&& sub64 bs 1) % U16 = 0
      · simp [h1]
      · simp only [h1, if_false]
        by_cases h2 : sub64 head t < hdr (t &&& sub64 bs 1) % U16
        · simp [h2]
        · simp only [h2, if_false]
          have h3 := sub64_add64 head t _ (Nat.le_of_not_lt h2)
          rw [ih _ k (by omega)]

theorem walked_of_walk (ev bs len : Nat) (hdr : Nat → Nat) (head : Nat) :
    ∀ (fuel : Nat) (st st' : WalkState) (k : Nat),
      walk ev bs len hdr head fuel st = some st' →
      walked bs hdr head (fuel + k) st.perf_tail = walked bs hdr head fuel st.perf_tail := by
  intro fuel
  induction fuel with
  | zero => intro st st' k h; simp [walk] at h
  | succ n ih =>
    intro st st' k h
    rw [show n + 1 + k = (n + k) + 1 by omega]
    unfold walk at h
    unfold walked
    by_cases h0 : TAKEN head st.perf_tail bs = 0
    · simp [h0]
    · simp only [h0, if_false] at h ⊢
      by_cases h1 : hdr (st.perf_tail &&& sub64 bs 1) % U16 = 0
      · simp [h1]
      · simp only [h1, if_false] at h ⊢
        by_cases h2 : sub64 head st.perf_tail < hdr (st.perf_tail &&& sub64 bs 1) % U16
        · simp [h2]
        · simp only [h2, if_false] at h ⊢
          split at h
          · cases h
          · have := ih _ _ k h
            simp only at this
            rw [this]

theorem walk_total (ev bs len : Nat) (hdr : Nat → Nat) (head : Nat) :
    ∀ (fuel : Nat) (st : WalkState), st.full = false →
      (∀ r ∈ walked bs hdr head fuel st.perf_tail, crosses_end bs r = false) →
      sub64 head st.perf_tail < fuel →
      ∃ st', walk ev bs len hdr head fuel st = some st' := by
  intro fuel
  induction fuel with
  | zero => intro st _ _ h; omega
  | succ n ih =>
    intro st hf hc hd
    unfold walked at hc
    unfold walk
    by_cases h0 : TAKEN head st.perf_tail bs = 0
    · exact ⟨st, by simp [h0]⟩
    · simp only [h0, if_false] at hc ⊢
      by_cases h1 : hdr (st.perf_tail &&& sub64 bs 1) % U16 = 0
      · simp [h1]
      · simp only [h1, if_false] at hc ⊢
        by_cases h2 : sub64 head st.perf_tail < hdr (st.perf_tail &&& sub64 bs 1) % U16
        · simp [h2]
        · simp only [h2, if_false] at hc ⊢
          have h3 := sub64_add64 head st.perf_tail _ (Nat.le_of_not_lt h2)
          have hc0 := hc _ (List.mem_cons_self _ _)
          have hc0' : decide (bs < (st.perf_tail &&& sub64 bs 1) +
              hdr (st.perf_tail &&& sub64 bs 1) % U16) = false := by
            simpa [crosses_end] using hc0
          simp only [hf, hc0', Bool.or_false, Bool.false_eq_true, if_false]
          apply ih
          · rfl
          · intro r hr
            exact hc r (List.mem_cons_of_mem _ hr)
          · simp only
            omega

theorem sub64_self (x : Nat) : sub64 x x = 0 := by
  unfold sub64 U64
  omega

theorem TAKEN_self (x bs : Nat) : TAKEN x x bs = 0 := by
  unfold TAKEN
  rw [sub64_self]
  exact Nat.zero_and _

theorem walked_self (bs : Nat) (hdr : Nat → Nat) (x fuel : Nat) :
    walked bs hdr x fuel x = [] := by
  cases fuel with
  | zero => rfl
  | succ n => simp [walked, TAKEN_self]

/-- A successful walk accepted exactly the records of the reference list. -/
theorem walked_eq_of_walk (ev bs len : Nat) (hdr : Nat → Nat) (head fuel : Nat)
    (st st' : WalkState) (h : walk ev bs len hdr head fuel st = some st') :
    walked bs hdr head fuel st.perf_tail =
      walked bs hdr head (sub64 head st.perf_tail + 1) st.perf_tail := by
  rw [← walked_of_walk ev bs len hdr head fuel st st' (sub64 head st.perf_tail + 1) h,
    Nat.add_comm, walked_stable bs hdr head _ _ fuel (Nat.lt_succ_self _)]

/-- What a returning call of `gputop_perf_update_header_offsets` leaves behind,
in terms of the records it accepted. -/
theorem update_spec (fuel : Nat) (s s' : PerfStream)
    (h : gputop_perf_update_header_offsets fuel s = some s') :
    s'.data_tail = read_perf_head s.data_head ∧
    s'.header_buf.head = advance_head s.header_buf.head (walked_records s).length ∧
    s'.header_buf.offsets =
      store_all s.header_buf.len s.header_buf.offsets s.header_buf.head (walked_records s) ∧
    s'.header_buf.full = (s.header_buf.full || (walked_records s).any (crosses_end s.buffer_size)) ∧
    s'.header_buf.len = s.header_buf.len ∧ s'.buffer_size = s.buffer_size := by
  unfold gputop_perf_update_header_offsets at h
  by_cases h0 : read_perf_head s.data_head = s.data_tail
  · simp only [h0, if_true] at h
    cases h
    simp [walked_records, h0, walked_self, advance_head, store_all]
  · simp only [h0, if_false] at h
    split at h
    · cases h
    · rename_i st hst
      cases h
      obtain ⟨e1, e2, e3⟩ := walk_spec _ _ _ _ _ _ _ _ hst
      have e4 := walked_eq_of_walk _ _ _ _ _ _ _ _ hst
      simp only at e1 e2 e3 e4
      rw [e4] at e1 e2 e3
      exact ⟨Nat.mod_mod _ _, e1, e2, e3, rfl, rfl⟩

/-- A call returns as soon as the tracker is not full and no accepted record
crosses the end of the ring (the eviction loop is then never entered). -/
theorem update_total (fuel : Nat) (s : PerfStream) (hf : s.header_buf.full = false)
    (hc : ∀ r ∈ walked_records s, crosses_end s.buffer_size r = false)
    (hfuel : sub64 (read_perf_head s.data_head) s.data_tail < fuel) :
    ∃ s', gputop_perf_update_header_offsets fuel s = some s' := by
  unfold gputop_perf_update_header_offsets
  by_cases h0 : read_perf_head s.data_head = s.data_tail
  · exact ⟨s, by simp [h0]⟩
  · simp only [h0, if_false]
    have hw : walked s.buffer_size s.header_size (read_perf_head s.data_head) fuel s.data_tail
        = walked_records s := by
      obtain ⟨k, rfl⟩ : ∃ k, fuel = (sub64 (read_perf_head s.data_head) s.data_tail + 1) + k :=
        ⟨fuel - (sub64 (read_perf_head s.data_head) s.data_tail + 1), by omega⟩
      exact walked_stable _ _ _ _ _ k (Nat.lt_succ_self _)
    obtain ⟨st, hst⟩ := walk_total fuel s.buffer_size s.header_buf.len s.header_size
      (read_perf_head s.data_head) fuel
      { perf_tail := s.data_tail, buf_head := s.header_buf.head, buf_tail := s.header_buf.tail,
        full := s.header_buf.full, offsets := s.header_buf.offsets, n_new := 0 }
      hf (by rw [hw]; exact hc) hfuel
    rw [hst]
    exact ⟨_, rfl⟩

/-! ## Lemmas on runs of records -/

theorem mask_eq_mod (m x : Nat) (hm : m < 64) : x &&& sub64 (2 ^ m) 1 = x % 2 ^ m := by
  rw [sub64_pow_one m hm, Nat.and_pow_two_sub_one_eq_mod]

theorem sub64_mod_right (a b : Nat) : sub64 a (b % U64) = sub64 a b := by
  unfold sub64
  rw [Nat.mod_mod]

theorem sub64_add_right (h t sz : Nat) (hsz : sz ≤ sub64 h t) :
    sub64 h (t + sz) = sub64 h t - sz := by
  unfold sub64 U64 at *
  omega

theorem pow_dvd_U64 (m : Nat) (hm : m < 64) : 2 ^ m ∣ U64 :=
  Nat.pow_dvd_pow 2 (Nat.le_of_lt hm)

theorem walked_mod (m : Nat) (hm : m < 64) (hdr : Nat → Nat) (head fuel t : Nat) :
    walked (2 ^ m) hdr head fuel (t % U64) = walked (2 ^ m) hdr head fuel t := by
  cases fuel with
  | zero => rfl
  | succ n =>
    have e1 : TAKEN head (t % U64) (2 ^ m) = TAKEN head t (2 ^ m) := by
      unfold TAKEN; rw [sub64_mod_right]
    have e2 : (t % U64) &&& sub64 (2 ^ m) 1 = t &&& sub64 (2 ^ m) 1 := by
      rw [mask_eq_mod m _ hm, mask_eq_mod m _ hm, Nat.mod_mod_of_dvd _ (pow_dvd_U64 m hm)]
    have e3 : ∀ sz, add64 (t % U64) sz = add64 t sz := by
      intro sz; unfold add64; rw [Nat.mod_add_mod]
    unfold walked
    simp only [e1, e2, e3, sub64_mod_right]

theorem record_start_cons (t r : Nat) (rs : List Nat) (i : Nat) :
    record_start t (r :: rs) (i + 1) = record_start (t + r) rs i := by
  simp [record_start, List.take_succ_cons, Nat.add_assoc]

/-- Walking through a run of good records: they are accepted one after the
other, and the walk goes on from the byte position after the run. -/
theorem walked_run (m : Nat) (hm : m < 64) (hdr : Nat → Nat) (head : Nat) :
    ∀ (rs : List Nat) (t fuel : Nat),
      (∀ r ∈ rs, 0 < r ∧ r < 2 ^ 16) →
      laid_out (2 ^ m) hdr t rs →
      rs.sum ≤ sub64 head t →
      (∀ i, i < rs.length → TAKEN head (record_start t rs i) (2 ^ m) ≠ 0) →
      walked (2 ^ m) hdr head (rs.length + fuel) t =
        run_records (2 ^ m) t rs ++ walked (2 ^ m) hdr head fuel (t + rs.sum) := by
  intro rs
  induction rs with
  | nil => intro t fuel _ _ _ _; simp [run_records]
  | cons r rest ih =>
    intro t fuel hgood hlaid hsum hreach
    have hr := hgood r (List.mem_cons_self _ _)
    have h0 : TAKEN head t (2 ^ m) ≠ 0 := by
      have := hreach 0 (by simp)
      simpa [record_start] using this
    have hsz : hdr (t % 2 ^ m) = r := by
      have := hlaid 0 (by simp)
      simpa [record_start] using this
    have hu16 : r % U16 = r := Nat.mod_eq_of_lt (by unfold U16; exact hr.2)
    have hle : r ≤ sub64 head t := by
      simp only [List.sum_cons] at hsum; omega
    rw [show (r :: rest).length + fuel = (rest.length + fuel) + 1 by simp; omega]
    conv_lhs => unfold walked
    simp only [h0, if_false, mask_eq_mod m _ hm, hsz, hu16]
    have hr0 : r ≠ 0 := by omega
    simp only [hr0, if_false, Nat.not_lt.mpr hle, run_records, List.cons_append]
    have e : add64 t r = (t + r) % U64 := rfl
    rw [e, walked_mod m hm, ih (t + r) fuel]
    · simp [List.sum_cons, Nat.add_assoc]
    · intro x hx; exact hgood x (List.mem_cons_of_mem _ hx)
    · intro i hi
      have := hlaid (i + 1) (by simpa using hi)
      rw [record_start_cons] at this
      simpa using this
    · rw [sub64_add_right head t r hle]
      simp only [List.sum_cons] at hsum; omega
    · intro i hi
      have := hreach (i + 1) (by simpa using hi)
      rwa [record_start_cons] at this

theorem run_records_length (bs : Nat) : ∀ (rs : List Nat) (t : Nat),
    (run_records bs t rs).length = rs.length := by
  intro rs
  induction rs with
  | nil => intro t; rfl
  | cons r rest ih => intro t; simp [run_records, ih]

theorem run_records_getElem (bs : Nat) : ∀ (rs : List Nat) (t i : Nat), i < rs.length →
    (run_records bs t rs)[i]? = some (record_start t rs i % bs, rs.getD i 0) := by
  intro rs
  induction rs with
  | nil => intro t i hi; simp at hi
  | cons r rest ih =>
    intro t i hi
    cases i with
    | zero => simp [run_records, record_start]
    | succ j =>
      have hj : j < rest.length := by simpa using hi
      simp only [run_records, List.getElem?_cons_succ, record_start_cons, List.getD_cons_succ]
      exact ih (t + r) j hj

theorem length_le_sum (rs : List Nat) (h : ∀ r ∈ rs, 0 < r) : rs.length ≤ rs.sum := by
  induction rs with
  | nil => simp
  | cons r rest ih =>
    have h1 := h r (List.mem_cons_self _ _)
    have h2 := ih (fun x hx => h x (List.mem_cons_of_mem _ hx))
    simp only [List.length_cons, List.sum_cons]
    omega

theorem take_sum_lt (rs : List Nat) (h : ∀ r ∈ rs, 0 < r) :
    ∀ i, i < rs.length → (rs.take i).sum < rs.sum := by
  induction rs with
  | nil => intro i hi; simp at hi
  | cons r rest ih =>
    intro i hi
    have h1 := h r (List.mem_cons_self _ _)
    cases i with
    | zero => simp only [List.take_zero, List.sum_nil, List.sum_cons]; omega
    | succ j =>
      have := ih (fun x hx => h x (List.mem_cons_of_mem _ hx)) j (by simpa using hi)
      simp only [List.take_succ_cons, List.sum_cons]
      omega

theorem add_mod_ne (len h d : Nat) (hd : 0 < d) (hlt : d < len) :
    (h + d) % len ≠ h % len := by
  intro he
  have h1 := Nat.sub_mod_eq_zero_of_mod_eq he
  rw [Nat.add_sub_cancel_left, Nat.mod_eq_of_lt hlt] at h1
  omega

theorem add32_one (h : Nat) (hh : h + 1 < U32) : add32 h 1 = h + 1 :=
  Nat.mod_eq_of_lt hh

theorem store_all_untouched (len : Nat) : ∀ (recs : List (Nat × Nat)) (offs : Nat → Nat)
    (h idx : Nat), h + recs.length < U32 →
    (∀ j, j < recs.length → (h + j) % len ≠ idx) →
    store_all len offs h recs idx = offs idx := by
  intro recs
  induction recs with
  | nil => intro offs h idx _ _; rfl
  | cons r rest ih =>
    intro offs h idx hh hne
    simp only [List.length_cons] at hh
    rw [store_all, add32_one h (by omega), ih _ _ _ (by omega)]
    · have := hne 0 (by simp)
      simp only [Nat.add_zero] at this
      simp [store32, Ne.symm this]
    · intro j hj
      have := hne (j + 1) (by simpa using hj)
      rwa [show h + (j + 1) = h + 1 + j by omega] at this

/-- Reading back the array after a run of appends: each of the last `len`
appended offsets is found at its head index modulo `len`. -/
theorem store_all_get (len : Nat) : ∀ (recs : List (Nat × Nat)) (offs : Nat → Nat)
    (h i : Nat) (r : Nat × Nat), h + recs.length < U32 →
    recs[i]? = some r → recs.length - i ≤ len →
    store_all len offs h recs ((h + i) % len) = r.1 % U32 := by
  intro recs
  induction recs with
  | nil => intro offs h i r _ hr _; simp at hr
  | cons r0 rest ih =>
    intro offs h i r hh hr hl
    simp only [List.length_cons] at hh hl
    rw [store_all, add32_one h (by omega)]
    cases i with
    | zero =>
      simp only [List.getElem?_cons_zero, Option.some.injEq] at hr
      subst hr
      rw [Nat.add_zero, store_all_untouched len rest _ _ _ (by omega)]
      · simp [store32]
      · intro j hj
        rw [Nat.add_assoc]
        exact add_mod_ne len h (1 + j) (by omega) (by omega)
    | succ j =>
      simp only [List.getElem?_cons_succ] at hr
      rw [show h + (j + 1) = h + 1 + j by omega]
      exact ih _ (h + 1) j r (by omega) hr (by omega)

theorem walked_stop_eq_nil (bs : Nat) (hdr : Nat → Nat) (head fuel t : Nat)
    (h : TAKEN head t bs = 0 ∨ hdr (t &&& sub64 bs 1) % U16 = 0 ∨
      sub64 head t < hdr (t &&& sub64 bs 1) % U16) :
    walked bs hdr head fuel t = [] := by
  cases fuel with
  | zero => rfl
  | succ n =>
    unfold walked
    by_cases h0 : TAKEN head t bs = 0
    · simp [h0]
    · by_cases h1 : hdr (t &&& sub64 bs 1) % U16 = 0
      · simp [h0, h1]
      · have h2 : sub64 head t < hdr (t &&& sub64 bs 1) % U16 := by
          rcases h with h | h | h
          · exact absurd h h0
          · exact absurd h h1
          · exact h
        simp [h0, h1, h2]

/-- The records accepted by a call are exactly a run of good records when the
walk stops right after the run. -/
theorem walked_records_of_run (m : Nat) (hm : m < 64) (s : PerfStream) (rs : List Nat)
    (hbs : s.buffer_size = 2 ^ m)
    (hgood : ∀ r ∈ rs, 0 < r ∧ r < 2 ^ 16)
    (hlaid : laid_out s.buffer_size s.header_size s.data_tail rs)
    (hsum : rs.sum ≤ sub64 (read_perf_head s.data_head) s.data_tail)
    (hreach : ∀ i, i < rs.length →
      TAKEN (read_perf_head s.data_head) (record_start s.data_tail rs i) s.buffer_size ≠ 0)
    (hstop : ∀ fuel, walked s.buffer_size s.header_size (read_perf_head s.data_head) fuel
      (s.data_tail + rs.sum) = []) :
    walked_records s = run_records s.buffer_size s.data_tail rs := by
  have hl := length_le_sum rs (fun r hr => (hgood r hr).1)
  unfold walked_records
  rw [show sub64 (read_perf_head s.data_head) s.data_tail + 1
      = rs.length + (sub64 (read_perf_head s.data_head) s.data_tail + 1 - rs.length) by omega]
  rw [hbs] at hlaid hreach hstop ⊢
  rw [walked_run m hm _ _ rs _ _ hgood hlaid hsum hreach, hstop, List.append_nil]

/-- Head index and array contents after a returning call that accepted the run
`rs`. -/
theorem update_run_spec (s : PerfStream) (rs : List Nat)
    (hw : walked_records s = run_records s.buffer_size s.data_tail rs)
    (hhead : s.header_buf.head + rs.length < 2 ^ 32)
    (fuel : Nat) (s' : PerfStream)
    (h : gputop_perf_update_header_offsets fuel s = some s') :
    s'.header_buf.head = s.header_buf.head + rs.length ∧
    s'.header_buf.offsets = store_all s.header_buf.len s.header_buf.offsets s.header_buf.head
      (run_records s.buffer_size s.data_tail rs) ∧
    ∀ i, i < rs.length → rs.length - i ≤ s.header_buf.len →
      s'.header_buf.offsets ((s.header_buf.head + i) % s.header_buf.len) =
        record_start s.data_tail rs i % s.buffer_size % 2 ^ 32 := by
  obtain ⟨_, e1, e2, _, _, _⟩ := update_spec fuel s s' h
  rw [hw] at e1 e2
  rw [run_records_length] at e1
  have hU : U32 = 2 ^ 32 := rfl
  refine ⟨?_, e2, ?_⟩
  · rw [e1, advance_head_eq _ _ (by rw [hU]; omega), hU]
    exact Nat.mod_eq_of_lt hhead
  · intro i hi hl
    rw [e2]
    have := store_all_get s.header_buf.len (run_records s.buffer_size s.data_tail rs)
      s.header_buf.offsets s.header_buf.head i _
      (by rw [run_records_length, hU]; exact hhead)
      (run_records_getElem s.buffer_size rs s.data_tail i hi)
      (by rw [run_records_length]; exact hl)
    rw [this]
    rfl

theorem sub_mod_ne_zero (D p B : Nat) (hp : p < D % B) : (D - p) % B ≠ 0 := by
  rcases Nat.eq_zero_or_pos B with h | hB
  · subst h
    simp only [Nat.mod_zero] at hp ⊢
    omega
  · have h1 := Nat.div_add_mod D B
    have h2 : D % B < B := Nat.mod_lt _ hB
    have h3 : D - p = B * (D / B) + (D % B - p) := by omega
    rw [h3, Nat.mul_add_mod, Nat.mod_eq_of_lt (by omega)]
    omega

theorem sub_mod_self_mod (D B : Nat) : (D - D % B) % B = 0 := by
  have h1 := Nat.div_add_mod D B
  have h3 : D - D % B = B * (D / B) := by omega
  rw [h3, Nat.mul_mod_right]

theorem TAKEN_add (m : Nat) (hm : m < 64) (head t p : Nat) (hp : p ≤ sub64 head t) :
    TAKEN head (t + p) (2 ^ m) = (sub64 head t - p) % 2 ^ m := by
  rw [TAKEN_eq_mod _ _ m hm, sub64_add_right head t p hp]

/-! ## Lemmas on the OA reader -/

theorem scan_records_eq (buf : Buffer) (count buf_idx : Nat) :
    ∀ (recs : List RecordHeader) (offset fuel : Nat) (st : OaStream),
      (∀ h ∈ recs, 0 < h.size ∧ h.size < 2 ^ 16) →
      records_at buf offset recs →
      offset + chunk_size recs = count →
      recs.length ≤ fuel →
      scan_records buf count buf_idx fuel offset st
        = Outcome.returned (scan_spec buf_idx offset recs st) := by
  intro recs
  induction recs with
  | nil =>
    intro offset fuel st _ _ hc _
    have : ¬ offset < count := by simp [chunk_size] at hc; omega
    cases fuel <;> simp [scan_records, scan_spec, this]
  | cons h hs ih =>
    intro offset fuel st hsz hrec hc hf
    have hh := hsz h (List.mem_cons_self _ _)
    obtain ⟨hb, hrest⟩ := hrec
    have hcs : chunk_size (h :: hs) = h.size + chunk_size hs := by simp [chunk_size]
    have hlt : offset < count := by omega
    have hmod : h.size % U16 = h.size := Nat.mod_eq_of_lt hh.2
    cases fuel with
    | zero => simp at hf
    | succ n =>
      have hne : h.size ≠ 0 := by omega
      simp only [scan_records, hlt, if_true, hb, hmod, hne, if_false, scan_spec]
      exact ih _ n _ (fun x hx => hsz x (List.mem_cons_of_mem _ hx)) hrest (by omega)
        (by simpa using hf)

theorem scan_records_terminates (buf : Buffer) (count buf_idx : Nat) :
    ∀ (fuel offset : Nat) (st : OaStream), count ≤ offset + fuel →
      (∃ st', scan_records buf count buf_idx fuel offset st = Outcome.returned st') ∨
      scan_records buf count buf_idx fuel offset st = Outcome.exited 1 := by
  intro fuel
  induction fuel with
  | zero =>
    intro offset st h
    left
    exact ⟨st, by simp [scan_records, Nat.not_lt.mpr (by omega : count ≤ offset)]⟩
  | succ n ih =>
    intro offset st h
    unfold scan_records
    by_cases hlt : offset < count
    · simp only [hlt, if_true]
      by_cases hz : (buf offset).size % U16 = 0
      · right; simp [hz]
      · simp only [hz, if_false]
        exact ih _ _ (by omega)
    · left
      exact ⟨st, by simp [hlt]⟩

theorem consecutive_pairs_cons_cons (a b : ReportPtr) (l : List ReportPtr) :
    consecutive_pairs (a :: b :: l) = (a, b) :: consecutive_pairs (b :: l) := by
  simp [consecutive_pairs]

theorem dispatch_record_sample (buf_idx offset : Nat) (h : RecordHeader) (st : OaStream)
    (hs : h.type = DRM_I915_PERF_RECORD_SAMPLE) :
    dispatch_record buf_idx offset h st =
      { st with
        samples := match st.last with
          | some last => st.samples ++ [(last, (buf_idx, offset + 8))]
          | none => st.samples
        last := some (buf_idx, offset + 8)
        last_buf_idx := buf_idx } := by
  unfold dispatch_record
  rw [hs]
  rfl

/-- What the record-by-record effect of a scan amounts to: the callback log
grows by the consecutive pairs of "carried-over last, then the chunk's
samples", and `oa.last` ends on the last of them. -/
theorem scan_spec_eq (buf_idx : Nat) :
    ∀ (recs : List RecordHeader) (offset : Nat) (st : OaStream),
      (scan_spec buf_idx offset recs st).samples =
        st.samples ++ consecutive_pairs (st.last.toList ++ sample_ptrs buf_idx offset recs) ∧
      (scan_spec buf_idx offset recs st).last =
        (st.last.toList ++ sample_ptrs buf_idx offset recs).getLast? ∧
      (scan_spec buf_idx offset recs st).last_buf_idx =
        (if sample_ptrs buf_idx offset recs = [] then st.last_buf_idx else buf_idx) ∧
      (scan_spec buf_idx offset recs st).bufs = st.bufs := by
  intro recs
  induction recs with
  | nil =>
    intro offset st
    cases hl : st.last <;> simp [scan_spec, sample_ptrs, consecutive_pairs, hl]
  | cons h hs ih =>
    intro offset st
    obtain ⟨e1, e2, e3, e4⟩ := ih (offset + h.size) (dispatch_record buf_idx offset h st)
    simp only [scan_spec]
    rw [e1, e2, e3, e4]
    by_cases hs3 : h.type = DRM_I915_PERF_RECORD_SAMPLE
    · rw [dispatch_record_sample buf_idx offset h st hs3]
      cases hl : st.last with
      | none =>
        simp [sample_ptrs, hs3]
      | some l =>
        simp [sample_ptrs, hs3, consecutive_pairs_cons_cons]
    · have hd : dispatch_record buf_idx offset h st = st := by
        unfold dispatch_record
        simp only [hs3, if_false, ite_self]
      rw [hd]
      simp [sample_ptrs, hs3]

theorem records_at_fill (st : OaStream) (r : ReadResult) (hpos : 0 < r.count) :
    ∀ (recs : List RecordHeader) (offset : Nat),
      (∀ h ∈ recs, 0 < h.size) →
      records_at r.data offset recs →
      offset + chunk_size recs ≤ r.count.toNat →
      records_at ((fill_buffer st r).bufs (read_buf_idx st)) offset recs := by
  intro recs
  induction recs with
  | nil => intro offset _ _ _; trivial
  | cons h hs ih =>
    intro offset hsz hrec hc
    obtain ⟨hb, hrest⟩ := hrec
    have hh := hsz h (List.mem_cons_self _ _)
    have hcs : chunk_size (h :: hs) = h.size + chunk_size hs := by simp [chunk_size]
    refine ⟨?_, ih _ (fun x hx => hsz x (List.mem_cons_of_mem _ hx)) hrest (by omega)⟩
    have hlt : offset < r.count.toNat := by omega
    simp only [fill_buffer, hpos, hlt, if_true, hb]

theorem chunk_length_le_size (recs : List RecordHeader) (h : ∀ x ∈ recs, 0 < x.size) :
    recs.length ≤ chunk_size recs := by
  have := length_le_sum (recs.map (fun h => h.size)) (by
    intro r hr
    obtain ⟨x, hx, rfl⟩ := List.mem_map.mp hr
    exact h x hx)
  simpa [chunk_size] using this

theorem sample_ptrs_eq_nil (buf_idx : Nat) : ∀ (recs : List RecordHeader) (offset : Nat),
    (∀ h ∈ recs, h.type ≠ DRM_I915_PERF_RECORD_SAMPLE) → sample_ptrs buf_idx offset recs = [] := by
  intro recs
  induction recs with
  | nil => intro _ _; rfl
  | cons h hs ih =>
    intro offset hall
    simp only [sample_ptrs, hall h (List.mem_cons_self _ _), if_false]
    exact ih _ (fun x hx => hall x (List.mem_cons_of_mem _ hx))

theorem fill_buffer_last (st : OaStream) (r : ReadResult) :
    (fill_buffer st r).last = st.last ∧ (fill_buffer st r).last_buf_idx = st.last_buf_idx ∧
    (fill_buffer st r).samples = st.samples := by
  unfold fill_buffer
  split <;> exact ⟨rfl, rfl, rfl⟩

theorem read_buf_idx_le (st : OaStream) : read_buf_idx st ≤ 1 := by
  unfold read_buf_idx
  split <;> omega

theorem read_buf_idx_ne (st : OaStream) : st.last_buf_idx ≠ read_buf_idx st := by
  unfold read_buf_idx
  split <;> omega

theorem read_buf_idx_eq (st : OaStream) (h : st.last_buf_idx ≤ 1) :
    read_buf_idx st = 1 - st.last_buf_idx := by
  unfold read_buf_idx
  split <;> omega

theorem fill_buffer_other (st : OaStream) (r : ReadResult) (i : Nat) (h : i ≠ read_buf_idx st) :
    (fill_buffer st r).bufs i = st.bufs i := by
  unfold fill_buffer
  split
  · simp only [h, if_false]
  · rfl

theorem dispatch_record_inv (buf_idx offset : Nat) (h : RecordHeader) (st : OaStream)
    (hb : buf_idx ≤ 1) (hinv : oa_last_in_buf st) :
    oa_last_in_buf (dispatch_record buf_idx offset h st) := by
  by_cases hs : h.type = DRM_I915_PERF_RECORD_SAMPLE
  · rw [dispatch_record_sample buf_idx offset h st hs]
    refine ⟨hb, ?_⟩
    intro p hp
    simp only [Option.some.injEq] at hp
    rw [← hp]
  · have hd : dispatch_record buf_idx offset h st = st := by
      unfold dispatch_record
      simp only [hs, if_false, ite_self]
    rw [hd]
    exact hinv

theorem scan_records_inv (buf : Buffer) (count buf_idx : Nat) (hb : buf_idx ≤ 1) :
    ∀ (fuel offset : Nat) (st st' : OaStream), oa_last_in_buf st →
      scan_records buf count buf_idx fuel offset st = Outcome.returned st' →
      oa_last_in_buf st' := by
  intro fuel
  induction fuel with
  | zero =>
    intro offset st st' hinv h
    unfold scan_records at h
    split at h
    · cases h
    · cases h; exact hinv
  | succ n ih =>
    intro offset st st' hinv h
    unfold scan_records at h
    by_cases hlt : offset < count
    · simp only [hlt, if_true] at h
      by_cases hz : (buf offset).size % U16 = 0
      · simp only [hz, if_true] at h
        cases h
      · simp only [hz, if_false] at h
        exact ih _ _ _ (dispatch_record_inv buf_idx offset _ st hb hinv) h
    · simp only [hlt, if_false, Outcome.returned.injEq] at h
      rw [← h]; exact hinv

theorem fill_buffer_inv (st : OaStream) (r : ReadResult) (hinv : oa_last_in_buf st) :
    oa_last_in_buf (fill_buffer st r) := by
  obtain ⟨e1, e2, _⟩ := fill_buffer_last st r
  unfold oa_last_in_buf
  rw [e1, e2]
  exact hinv

theorem read_and_scan_inv (st st' : OaStream) (r : ReadResult) (hinv : oa_last_in_buf st)
    (h : read_and_scan st r = Outcome.returned st') : oa_last_in_buf st' :=
  scan_records_inv _ _ _ (read_buf_idx_le st) _ _ _ _ (fill_buffer_inv st r hinv) h

theorem read_i915_perf_samples_inv : ∀ (reads : List ReadResult) (st st' : OaStream)
    (rest : List ReadResult), oa_last_in_buf st →
    (read_i915_perf_samples st reads = Outcome.returned (st', rest) ∨
      read_i915_perf_samples st reads = Outcome.pending (st', rest)) →
    oa_last_in_buf st' := by
  intro reads
  induction reads with
  | nil =>
    intro st st' rest hinv h
    rcases h with h | h
    · cases h
    · simp only [read_i915_perf_samples, Outcome.pending.injEq, Prod.mk.injEq] at h
      rw [← h.1]; exact hinv
  | cons r rs ih =>
    intro st st' rest hinv h
    unfold read_i915_perf_samples at h
    by_cases h1 : r.count < 0
    · simp only [h1, if_true] at h
      by_cases h2 : r.errno = EINTR
      · simp only [h2, if_true] at h
        exact ih st st' rest hinv h
      · simp only [h2, if_false, ite_self] at h
        rcases h with h | h
        · simp only [Outcome.returned.injEq, Prod.mk.injEq] at h
          rw [← h.1]; exact hinv
        · cases h
    · simp only [h1, if_false] at h
      by_cases h3 : r.count = 0
      · simp only [h3, if_true] at h
        rcases h with h | h
        · simp only [Outcome.returned.injEq, Prod.mk.injEq] at h
          rw [← h.1]; exact hinv
        · cases h
      · simp only [h3, if_false] at h
        cases hrs : read_and_scan st r with
        | returned st2 =>
          rw [hrs] at h
          exact ih st2 st' rest (read_and_scan_inv st st2 r hinv hrs) h
        | exited c => rw [hrs] at h; rcases h with h | h <;> cases h
        | pending s => rw [hrs] at h; rcases h with h | h <;> cases h
        | out_of_fuel => rw [hrs] at h; rcases h with h | h <;> cases h

theorem read_and_scan_terminates (st : OaStream) (r : ReadResult) :
    (∃ st', read_and_scan st r = Outcome.returned st') ∨
    read_and_scan st r = Outcome.exited 1 :=
  scan_records_terminates _ _ _ _ _ _ (by omega)

theorem scan_chunks_terminates : ∀ (rs : List ReadResult) (st : OaStream),
    (∃ st', scan_chunks st rs = Outcome.returned st') ∨ scan_chunks st rs = Outcome.exited 1 := by
  intro rs
  induction rs with
  | nil => intro st; exact Or.inl ⟨st, rfl⟩
  | cons r rs ih =>
    intro st
    unfold scan_chunks
    rcases read_and_scan_terminates st r with ⟨st2, h2⟩ | h2
    · rw [h2]; exact ih st2
    · rw [h2]; exact Or.inr rfl

/-! ## Lemmas on the stream lifecycle -/

theorem finish_stream_close_closed (s : Stream) : (finish_stream_close s).closed = true := by
  unfold finish_stream_close
  cases s.type <;> simp only []

theorem finish_stream_close_count (s : Stream) :
    List.count Effect.on_close_cb (finish_stream_close s).effects =
      List.count Effect.on_close_cb s.effects + 1 := by
  unfold finish_stream_close
  cases s.type <;> simp only [] <;> (try split_ifs) <;>
    simp [List.count_append, List.count_cons]

theorem finish_stream_close_handles (s : Stream) :
    (finish_stream_close s).n_closing_uv_handles = s.n_closing_uv_handles := by
  unfold finish_stream_close
  cases s.type <;> simp only [] <;> (try split_ifs) <;> simp

theorem close_request_spec (s : Stream) :
    (s.n_closing_uv_handles ≤ (gputop_perf_stream_close s).n_closing_uv_handles) ∧
    ((gputop_perf_stream_close s).n_closing_uv_handles = 0 →
      (gputop_perf_stream_close s).closed = true ∧
      on_close_calls (gputop_perf_stream_close s) = on_close_calls s + 1) ∧
    ((gputop_perf_stream_close s).n_closing_uv_handles ≠ 0 →
      (gputop_perf_stream_close s).closed = s.closed ∧
      on_close_calls (gputop_perf_stream_close s) = on_close_calls s) := by
  unfold gputop_perf_stream_close on_close_calls
  cases hty : s.type <;> simp only [] <;> split_ifs <;>
    simp_all [finish_stream_close_closed, finish_stream_close_count,
      finish_stream_close_handles, List.count_append, List.count_cons] <;>
    omega

theorem confirmations_before (k : Nat) : ∀ (s : Stream) (j : Nat),
    s.n_closing_uv_handles = (j : Int) → k < j →
    (confirmations k s).closed = s.closed ∧
    on_close_calls (confirmations k s) = on_close_calls s ∧
    (confirmations k s).n_closing_uv_handles = ((j - k : Nat) : Int) := by
  induction k with
  | zero => intro s j hj _; exact ⟨rfl, rfl, by simpa using hj⟩
  | succ k ih =>
    intro s j hj hk
    have hne : s.n_closing_uv_handles - 1 ≠ 0 := by omega
    have hstep : stream_handle_closed_cb s =
        { s with n_closing_uv_handles := s.n_closing_uv_handles - 1 } := by
      unfold stream_handle_closed_cb
      simp only [hne, if_false]
    obtain ⟨e1, e2, e3⟩ := ih { s with n_closing_uv_handles := s.n_closing_uv_handles - 1 }
      (j - 1) (by simp only []; omega) (by omega)
    simp only [confirmations, hstep]
    refine ⟨e1, e2, ?_⟩
    rw [e3]
    congr 1
    omega

theorem confirmations_last (k : Nat) : ∀ (s : Stream),
    s.n_closing_uv_handles = ((k + 1 : Nat) : Int) →
    (confirmations (k + 1) s).closed = true ∧
    on_close_calls (confirmations (k + 1) s) = on_close_calls s + 1 := by
  induction k with
  | zero =>
    intro s hj
    have h0 : s.n_closing_uv_handles - 1 = 0 := by omega
    have hstep : stream_handle_closed_cb s =
        finish_stream_close { s with n_closing_uv_handles := s.n_closing_uv_handles - 1 } := by
      unfold stream_handle_closed_cb
      simp only [h0, if_true]
    simp only [confirmations, hstep, on_close_calls]
    exact ⟨finish_stream_close_closed _, finish_stream_close_count _⟩
  | succ k ih =>
    intro s hj
    have hne : s.n_closing_uv_handles - 1 ≠ 0 := by omega
    have hstep : stream_handle_closed_cb s =
        { s with n_closing_uv_handles := s.n_closing_uv_handles - 1 } := by
      unfold stream_handle_closed_cb
      simp only [hne, if_false]
    obtain ⟨e1, e2⟩ := ih { s with n_closing_uv_handles := s.n_closing_uv_handles - 1 }
      (by simp only []; omega)
    rw [confirmations, hstep]
    exact ⟨e1, e2⟩

/-! ## Lemmas on the simulated reads -/

theorem fake_generate_length (d : FakeDecls) : ∀ (n : Nat) (s : FakeStream),
    (fake_generate d n s).2.length = n := by
  intro n
  induction n with
  | zero => intro s; rfl
  | succ n ih => intro s; simp [fake_generate, ih]

theorem fake_generate_gen_so_far (d : FakeDecls) : ∀ (n : Nat) (s : FakeStream),
    s.gen_so_far + n < d.gen_so_far_mod →
    (fake_generate d n s).1.gen_so_far = s.gen_so_far + n := by
  intro n
  induction n with
  | zero => intro s _; rfl
  | succ n ih =>
    intro s h
    have h1 : (s.gen_so_far + 1) % d.gen_so_far_mod = s.gen_so_far + 1 :=
      Nat.mod_eq_of_lt (by omega)
    simp only [fake_generate]
    rw [ih _ (by simp only [h1]; omega)]
    simp only [h1]
    omega

theorem fake_generate_frame (d : FakeDecls) : ∀ (n : Nat) (s : FakeStream),
    (fake_generate d n s).1.period = s.period ∧
    (fake_generate d n s).1.start_time = s.start_time := by
  intro n
  induction n with
  | zero => intro s; exact ⟨rfl, rfl⟩
  | succ n ih =>
    intro s
    simp only [fake_generate]
    exact ih _

theorem records_to_gen_eq (now : Nat) (s : FakeStream) (L : Nat) (hL : L < 2 ^ 31)
    (hgen : s.gen_so_far ≤ sub64 now s.start_time / s.period) :
    records_to_gen now s (L : Int) =
      min (sub64 now s.start_time / s.period - s.gen_so_far) (L / 264) := by
  have hT : sub64 now s.start_time < U64 := sub64_lt _ _
  have hq : sub64 now s.start_time / s.period ≤ sub64 now s.start_time := Nat.div_le_self _ _
  have hw : sub64 (sub64 now s.start_time / s.period) s.gen_so_far =
      sub64 now s.start_time / s.period - s.gen_so_far := by
    generalize sub64 now s.start_time / s.period = q at *
    generalize sub64 now s.start_time = T at *
    unfold sub64 U64 at *
    omega
  have hfit : Int.tdiv (L : Int) (REPORT_LAYOUT_SIZE : Int) = ((L / 264 : Nat) : Int) := by
    rw [Int.ofNat_tdiv]; rfl
  have hlt : L / 264 < 2 ^ 31 := lt_of_le_of_lt (Nat.div_le_self _ _) hL
  have h64 : ((((L / 264 : Nat) : Int)) % (U64 : Int)).toNat = L / 264 := by
    unfold U64; omega
  have h32 : ((((L / 264 : Nat) : Int)) % (U32 : Int)).toNat = L / 264 := by
    unfold U32; omega
  unfold records_to_gen
  simp only [hw, hfit, h64, h32]
  split
  · rename_i h
    rw [Nat.mod_eq_of_lt (by unfold U32; omega)]
    omega
  · omega

theorem chain_append_of {α : Type} (R : α → α → Prop) : ∀ (l1 : List α) (a : α) (l2 : List α),
    List.Chain R a l1 → List.Chain R (last_or a l1) l2 → List.Chain R a (l1 ++ l2) := by
  intro l1
  induction l1 with
  | nil => intro a l2 _ h; exact h
  | cons b l ih =>
    intro a l2 h1 h2
    rw [List.chain_cons] at h1
    rw [List.cons_append, List.chain_cons]
    exact ⟨h1.1, ih b l2 h1.2 h2⟩

theorem last_or_append {α : Type} : ∀ (l1 l2 : List α) (a : α),
    last_or a (l1 ++ l2) = last_or (last_or a l1) l2 := by
  intro l1
  induction l1 with
  | nil => intro l2 a; rfl
  | cons b l ih => intro l2 a; exact ih l2 b

/-- Clock values written by the generator loop: each is the previous one plus
`period / 2`, reduced to 32 bits, and the stream keeps the last one. -/
theorem fake_generate_clock_chain (d : FakeDecls) : ∀ (n : Nat) (s : FakeStream),
    List.Chain (fun a b => b = (s.period / 2 + a) % U32) s.prev_clocks
      ((fake_generate d n s).2.map (fun r => r.clock_ticks)) ∧
    (fake_generate d n s).1.prev_clocks =
      last_or s.prev_clocks ((fake_generate d n s).2.map (fun r => r.clock_ticks)) := by
  intro n
  induction n with
  | zero => intro s; exact ⟨List.Chain.nil, rfl⟩
  | succ n ih =>
    intro s
    obtain ⟨e1, e2⟩ := ih
      { s with
        prev_timestamp := (s.period / 80 + s.prev_timestamp) % U32
        prev_clocks := (s.period / 2 + s.prev_clocks) % U32
        gen_so_far := (s.gen_so_far + 1) % d.gen_so_far_mod }
    simp only [fake_generate, List.map_cons]
    constructor
    · rw [List.chain_cons]
      exact ⟨rfl, e1⟩
    · exact e2

theorem fake_reads_clock_chain (d : FakeDecls) : ∀ (calls : List (Nat × Int)) (s : FakeStream),
    List.Chain (fun a b => b = (s.period / 2 + a) % U32) s.prev_clocks
      ((fake_reads d s calls).2.map (fun r => r.clock_ticks)) ∧
    (fake_reads d s calls).1.prev_clocks =
      last_or s.prev_clocks ((fake_reads d s calls).2.map (fun r => r.clock_ticks)) ∧
    (fake_reads d s calls).1.period = s.period := by
  intro calls
  induction calls with
  | nil => intro s; exact ⟨List.Chain.nil, rfl, rfl⟩
  | cons c cs ih =>
    intro s
    obtain ⟨g1, g2⟩ := fake_generate_clock_chain d (records_to_gen c.1 s c.2) s
    have gp := (fake_generate_frame d (records_to_gen c.1 s c.2) s).1
    obtain ⟨e1, e2, e3⟩ := ih (fake_generate d (records_to_gen c.1 s c.2) s).1
    rw [gp] at e1
    simp only [fake_reads, gputop_perf_fake_read, List.map_append]
    refine ⟨chain_append_of _ _ _ _ g1 ?_, ?_, ?_⟩
    · rw [← g2]; exact e1
    · rw [e2, last_or_append, g2]
    · rw [e3, gp]

theorem sub64_of_le (q g : Nat) (hq : q < U64) (hg : g ≤ q) : sub64 q g = q - g := by
  unfold sub64 U64 at *
  omega

theorem fake_read_outcome (d : FakeDecls) (now : Nat) (s : FakeStream) (L : Nat)
    (hL : L < 2 ^ 31) (hgen : s.gen_so_far ≤ sub64 now s.start_time / s.period)
    (hwidth : s.gen_so_far +
      min (sub64 now s.start_time / s.period - s.gen_so_far) (L / 264) < d.gen_so_far_mod) :
    (gputop_perf_fake_read d now s (L : Int)).2.1.length =
      min (sub64 now s.start_time / s.period - s.gen_so_far) (L / 264) ∧
    (gputop_perf_fake_read d now s (L : Int)).2.2 =
      ((264 * min (sub64 now s.start_time / s.period - s.gen_so_far) (L / 264) : Nat) : Int) ∧
    (gputop_perf_fake_read d now s (L : Int)).1.gen_so_far =
      s.gen_so_far + min (sub64 now s.start_time / s.period - s.gen_so_far) (L / 264) ∧
    (gputop_perf_fake_read d now s (L : Int)).1.period = s.period ∧
    (gputop_perf_fake_read d now s (L : Int)).1.start_time = s.start_time := by
  have hn := records_to_gen_eq now s L hL hgen
  have hg := fake_generate_gen_so_far d (records_to_gen now s (L : Int)) s
    (by rw [hn]; exact hwidth)
  have hlen := fake_generate_length d (records_to_gen now s (L : Int)) s
  have hfr := fake_generate_frame d (records_to_gen now s (L : Int)) s
  have hle : 264 * (L / 264) ≤ L := Nat.mul_div_le L 264
  simp only [gputop_perf_fake_read]
  rw [hn] at hg hlen hfr ⊢
  have hsz : REPORT_LAYOUT_SIZE = 264 := rfl
  have hb : (REPORT_LAYOUT_SIZE *
      min (sub64 now s.start_time / s.period - s.gen_so_far) (L / 264)) % U32 =
      264 * min (sub64 now s.start_time / s.period - s.gen_so_far) (L / 264) := by
    rw [hsz]
    apply Nat.mod_eq_of_lt
    unfold U32
    omega
  refine ⟨hlen, ?_, hg, hfr.1, hfr.2⟩
  rw [hb, if_pos (by omega)]

theorem fake_period_lt (period_exponent : Fin 24) : fake_period period_exponent < 2 ^ 31 := by
  revert period_exponent
  decide

/-! ## Lemmas on the CPU-stats stream -/

theorem log_cpu_stats_cb_stopped (n : Int) (s : CpuStream) (hov : s.overwrite = false)
    (hfull : s.stats_buf_len ≤ s.stats_buf_pos) :
    log_cpu_stats_cb n s = { s with stats_buf_full := true } := by
  unfold log_cpu_stats_cb
  have h1 : ¬ s.stats_buf_pos < s.stats_buf_len := by omega
  simp [h1, hfull, hov]

theorem cpu_ticks_stopped : ∀ (ns : List Int) (s : CpuStream), s.overwrite = false →
    s.stats_buf_len ≤ s.stats_buf_pos →
    (cpu_ticks ns s).stats_buf_pos = s.stats_buf_pos ∧ (cpu_ticks ns s).writes = s.writes := by
  intro ns
  induction ns with
  | nil => intro s _ _; exact ⟨rfl, rfl⟩
  | cons n ns ih =>
    intro s hov hfull
    rw [cpu_ticks, log_cpu_stats_cb_stopped n s hov hfull]
    exact ih _ hov hfull

/-- After a tick with at least one CPU, a position that was not negative is
positive or the `full` flag is set; the position stays non-negative. -/
theorem log_cpu_stats_cb_pending (n : Int) (s : CpuStream) (hn : 1 ≤ n)
    (hpos : 0 ≤ s.stats_buf_pos) :
    0 ≤ (log_cpu_stats_cb n s).stats_buf_pos ∧
    (0 < (log_cpu_stats_cb n s).stats_buf_pos ∨ (log_cpu_stats_cb n s).stats_buf_full = true) := by
  unfold log_cpu_stats_cb
  by_cases h1 : s.stats_buf_pos < s.stats_buf_len
  · by_cases h2 : s.stats_buf_len ≤ s.stats_buf_pos + n
    · cases hov : s.overwrite <;> simp [h1, h2, hov] <;> omega
    · simp [h1, h2]; omega
  · have h2 : s.stats_buf_len ≤ s.stats_buf_pos := by omega
    cases hov : s.overwrite <;> simp [h1, h2, hov]
    exact hpos

theorem cpu_ticks_pending : ∀ (ns : List Int) (s : CpuStream), (∀ n ∈ ns, 1 ≤ n) →
    0 ≤ s.stats_buf_pos → (0 < s.stats_buf_pos ∨ s.stats_buf_full = true) →
    0 ≤ (cpu_ticks ns s).stats_buf_pos ∧
    (0 < (cpu_ticks ns s).stats_buf_pos ∨ (cpu_ticks ns s).stats_buf_full = true) := by
  intro ns
  induction ns with
  | nil => intro s _ h0 h; exact ⟨h0, h⟩
  | cons n ns ih =>
    intro s hall h0 _
    obtain ⟨a, b⟩ := log_cpu_stats_cb_pending n s (hall n (List.mem_cons_self _ _)) h0
    exact ih _ (fun x hx => hall x (List.mem_cons_of_mem _ hx)) a b

theorem log_cpu_stats_cb_writes (n : Int) (s : CpuStream) :
    (log_cpu_stats_cb n s).stats_buf_len = s.stats_buf_len ∧
    (log_cpu_stats_cb n s).alloc_entries = s.alloc_entries ∧
    ((log_cpu_stats_cb n s).writes = s.writes ∨
      (s.stats_buf_pos < s.stats_buf_len ∧
        (log_cpu_stats_cb n s).writes = s.writes ++ [(s.stats_buf_pos, n)])) := by
  unfold log_cpu_stats_cb
  by_cases h1 : s.stats_buf_pos < s.stats_buf_len
  · by_cases h2 : s.stats_buf_len ≤ s.stats_buf_pos + n
    · cases hov : s.overwrite <;> simp [h1, h2, hov]
    · simp [h1, h2]
  · by_cases h2 : s.stats_buf_len ≤ s.stats_buf_pos
    · cases hov : s.overwrite <;> simp [h1, h2, hov]
    · simp [h1, h2]

theorem cpu_ticks_writes_bounded (c : Int) (hc : 1 ≤ c) :
    ∀ (ns : List Int) (s : CpuStream), (∀ n ∈ ns, n = c) → 0 ≤ s.stats_buf_pos →
      (∀ w ∈ s.writes, 0 ≤ w.1 ∧ w.1 < s.stats_buf_len ∧ w.2 = c) →
      (cpu_ticks ns s).stats_buf_len = s.stats_buf_len ∧
      (cpu_ticks ns s).alloc_entries = s.alloc_entries ∧
      ∀ w ∈ (cpu_ticks ns s).writes, 0 ≤ w.1 ∧ w.1 < s.stats_buf_len ∧ w.2 = c := by
  intro ns
  induction ns with
  | nil => intro s _ _ hw; exact ⟨rfl, rfl, hw⟩
  | cons n ns ih =>
    intro s hall hpos hw
    have hn : n = c := hall n (List.mem_cons_self _ _)
    obtain ⟨e1, e2, e3⟩ := log_cpu_stats_cb_writes n s
    obtain ⟨p1, _⟩ := log_cpu_stats_cb_pending n s (by omega) hpos
    have hw' : ∀ w ∈ (log_cpu_stats_cb n s).writes,
        0 ≤ w.1 ∧ w.1 < (log_cpu_stats_cb n s).stats_buf_len ∧ w.2 = c := by
      intro w hmem
      rw [e1]
      rcases e3 with h | ⟨hlt, h⟩
      · rw [h] at hmem; exact hw w hmem
      · rw [h] at hmem
        rcases List.mem_append.mp hmem with h' | h'
        · exact hw w h'
        · rw [List.mem_singleton.mp h']
          exact ⟨hpos, hlt, hn⟩
    obtain ⟨a, b, d⟩ := ih (log_cpu_stats_cb n s)
      (fun x hx => hall x (List.mem_cons_of_mem _ hx)) p1 hw'
    rw [cpu_ticks]
    refine ⟨a.trans e1, b.trans e2, ?_⟩
    intro w hmem
    have := d w hmem
    rw [e1] at this
    exact this

/-! ## Lemmas on the web bridge -/

theorem JS_MAX_SAFE_INTEGER_eq : JS_MAX_SAFE_INTEGER = 2 ^ 53 - 1 := by decide

theorem forward_counter_frame (i : Nat) (s : WebcStream) :
    (forward_counter i s).oa_metric_set = s.oa_metric_set ∧
    (forward_counter i s).oa_accumulator = s.oa_accumulator ∧
    (forward_counter i s).continuation_report = s.continuation_report ∧
    (forward_counter i s).aggregation_period = s.aggregation_period ∧
    (forward_counter i s).per_ctx_mode = s.per_ctx_mode := by
  simp only [forward_counter]
  split <;> (try split_ifs) <;> exact ⟨rfl, rfl, rfl, rfl, rfl⟩

/-- The sink call `forward_stream_update` makes for counter `i` is the expected
one. -/
theorem forward_counter_sink (i : Nat) (s : WebcStream) :
    (forward_counter i s).sink = s.sink ++ [counter_event s i] := by
  simp only [forward_counter, counter_event, counter_value, counter_max, JS_MAX_SAFE_INTEGER_eq]
  cases hdt : (s.oa_metric_set.counters i).data_type <;> simp only [hdt]
  split_ifs with h
  · rw [Nat.min_eq_right (by omega)]
  · rw [Nat.min_eq_left (by omega)]

theorem counter_event_congr (s t : WebcStream) (i : Nat)
    (hm : t.oa_metric_set = s.oa_metric_set) (ha : t.oa_accumulator = s.oa_accumulator) :
    counter_event t i = counter_event s i := by
  unfold counter_event counter_value counter_max
  rw [hm, ha]

theorem forward_counters_spec : ∀ (is : List Nat) (s : WebcStream),
    (forward_counters is s).sink = s.sink ++ is.map (counter_event s) ∧
    (forward_counters is s).oa_metric_set = s.oa_metric_set ∧
    (forward_counters is s).oa_accumulator = s.oa_accumulator ∧
    (forward_counters is s).continuation_report = s.continuation_report ∧
    (forward_counters is s).aggregation_period = s.aggregation_period ∧
    (forward_counters is s).per_ctx_mode = s.per_ctx_mode := by
  intro is
  induction is with
  | nil => intro s; simp [forward_counters]
  | cons i is ih =>
    intro s
    obtain ⟨f1, f2, f3, f4, f5⟩ := forward_counter_frame i s
    obtain ⟨e1, e2, e3, e4, e5, e6⟩ := ih (forward_counter i s)
    have hc : List.map (counter_event (forward_counter i s)) is = List.map (counter_event s) is :=
      List.map_congr_left (fun j _ => counter_event_congr s _ j f1 f2)
    simp only [forward_counters]
    refine ⟨?_, by rw [e2, f1], by rw [e3, f2], by rw [e4, f3], by rw [e5, f4], by rw [e6, f5]⟩
    rw [e1, forward_counter_sink, hc]
    simp

theorem forward_counter_console (i : Nat) (s : WebcStream)
    (h : (s.oa_metric_set.counters i).data_type = .GPUTOP_PERFQUERY_COUNTER_DATA_UINT64 ∨
      (s.oa_metric_set.counters i).data_type = .GPUTOP_PERFQUERY_COUNTER_DATA_FLOAT) :
    console_asserts (forward_counter i s) = console_asserts s := by
  simp only [forward_counter, console_asserts]
  rcases h with h | h <;> simp only [h] <;> (try split_ifs) <;>
    simp [List.count_append, List.count_cons]

theorem forward_counters_console : ∀ (is : List Nat) (s : WebcStream),
    (∀ i ∈ is,
      (s.oa_metric_set.counters i).data_type = .GPUTOP_PERFQUERY_COUNTER_DATA_UINT64 ∨
      (s.oa_metric_set.counters i).data_type = .GPUTOP_PERFQUERY_COUNTER_DATA_FLOAT) →
    console_asserts (forward_counters is s) = console_asserts s := by
  intro is
  induction is with
  | nil => intro s _; rfl
  | cons i is ih =>
    intro s h
    simp only [forward_counters]
    rw [ih (forward_counter i s), forward_counter_console i s (h i (List.mem_cons_self _ _))]
    intro j hj
    rw [(forward_counter_frame i s).1]
    exact h j (List.mem_cons_of_mem _ hj)

/-- The sink calls of a forwarded update: begin, one call per counter index in
increasing order, end. -/
theorem forward_stream_update_sink (s : WebcStream) (reason : Nat) :
    (forward_stream_update s reason).sink =
      s.sink ++ SinkEvent.start_update s.oa_accumulator.first_timestamp
        s.oa_accumulator.last_timestamp reason ::
        ((List.range s.oa_metric_set.n_counters.toNat).map (counter_event s) ++
          [SinkEvent.end_update]) ∧
    (forward_stream_update s reason).oa_accumulator = s.oa_accumulator ∧
    (forward_stream_update s reason).continuation_report = s.continuation_report ∧
    (forward_stream_update s reason).oa_metric_set = s.oa_metric_set := by
  unfold forward_stream_update
  simp only []
  obtain ⟨e1, e2, e3, e4, _, _⟩ := forward_counters_spec
    (List.range s.oa_metric_set.n_counters.toNat)
    { s with sink := s.sink ++ [SinkEvent.start_update s.oa_accumulator.first_timestamp
        s.oa_accumulator.last_timestamp reason] }
  refine ⟨?_, e3, e4, e2⟩
  rw [e1]
  have hc : List.map (counter_event { s with sink := s.sink ++
      [SinkEvent.start_update s.oa_accumulator.first_timestamp
        s.oa_accumulator.last_timestamp reason] })
      (List.range s.oa_metric_set.n_counters.toNat) =
      List.map (counter_event s) (List.range s.oa_metric_set.n_counters.toNat) :=
    List.map_congr_left (fun j _ => counter_event_congr s _ j rfl rfl)
  rw [hc]
  simp

theorem forward_stream_update_console (s : WebcStream) (reason : Nat)
    (h : ∀ i, i < s.oa_metric_set.n_counters.toNat →
      (s.oa_metric_set.counters i).data_type = .GPUTOP_PERFQUERY_COUNTER_DATA_UINT64 ∨
      (s.oa_metric_set.counters i).data_type = .GPUTOP_PERFQUERY_COUNTER_DATA_FLOAT) :
    console_asserts (forward_stream_update s reason) = console_asserts s := by
  unfold forward_stream_update
  simp only []
  have := forward_counters_console (List.range s.oa_metric_set.n_counters.toNat)
    { s with sink := s.sink ++ [SinkEvent.start_update s.oa_accumulator.first_timestamp
        s.oa_accumulator.last_timestamp reason] }
    (fun i hi => h i (List.mem_range.mp hi))
  exact this

theorem message_loop_stuck (api : AccumulatorApi) (fuel : Nat) (stream : WebcStream)
    (last : Option Report) :
    message_loop api message_with_zero_size_header fuel 16 stream last = LoopEnd.out_of_fuel := by
  induction fuel generalizing stream last with
  | zero => simp [message_loop, message_with_zero_size_header]
  | succ n ih =>
    rw [message_loop]
    simp only [message_with_zero_size_header, DRM_I915_PERF_RECORD_OA_BUFFER_LOST,
      DRM_I915_PERF_RECORD_OA_REPORT_LOST, U16]
    norm_num
    exact ih _ _


/-! ## Lemmas on the counter lookup -/

theorem get_counter_id_loop_spec (ms : MetricSet) (name : String) (fuel t : Nat)
    (hfuel : ms.n_counters.toNat ≤ fuel + t)
    (hbefore : ∀ u, u < t → (ms.counters u).symbol_name ≠ name) :
    ∃ r : Int, get_counter_id_loop ms name fuel t = some r ∧
      (r = -1 ↔ ∀ u : Nat, (u : Int) < ms.n_counters → (ms.counters u).symbol_name ≠ name) ∧
      (r ≠ -1 → ∃ u : Nat, r = (u : Int) ∧ (u : Int) < ms.n_counters ∧
        (ms.counters u).symbol_name = name ∧
        ∀ v, v < u → (ms.counters v).symbol_name ≠ name) := by
  induction fuel generalizing t with
  | zero =>
    have hge : ¬ (t : Int) < ms.n_counters := by omega
    refine ⟨-1, by simp [get_counter_id_loop, hge], ?_, fun h => absurd rfl h⟩
    refine ⟨fun _ u hu => hbefore u (by omega), fun _ => rfl⟩
  | succ n ih =>
    by_cases hlt : (t : Int) < ms.n_counters
    · by_cases hname : (ms.counters t).symbol_name = name
      · refine ⟨(t : Int), by simp [get_counter_id_loop, hlt, hname], ?_, ?_⟩
        · constructor
          · intro h; omega
          · intro h; exact absurd hname (h t hlt)
        · intro _
          exact ⟨t, rfl, hlt, hname, hbefore⟩
      · have hnext : ∀ u, u < t + 1 → (ms.counters u).symbol_name ≠ name := by
          intro u hu
          rcases Nat.lt_succ_iff_lt_or_eq.mp hu with h | h
          · exact hbefore u h
          · rw [h]; exact hname
        obtain ⟨r, hr, h1, h2⟩ := ih (t + 1) (by omega) hnext
        exact ⟨r, by simp [get_counter_id_loop, hlt, hname, hr], h1, h2⟩
    · refine ⟨-1, by simp [get_counter_id_loop, hlt], ?_, fun h => absurd rfl h⟩
      refine ⟨fun _ u hu => hbefore u (by omega), fun _ => rfl⟩

/-! ## Lemmas on the eviction loop -/

theorem nothing_eaten_iff (offsets : Nat → Nat) (len buffer_size p r : Nat)
    (hoff : ∀ i, offsets i < buffer_size) (hbs : 2 * buffer_size ≤ 2 ^ 32)
    (hp : p < buffer_size) (hr : r < 2 ^ 16) (t : Nat) :
    nothing_eaten offsets len buffer_size p r t = true ↔
      p + r < normalised_offset buffer_size p (offsets (t % len)) := by
  have ho := hoff (t % len)
  have h1 : offsets (t % len) % U32 = offsets (t % len) :=
    Nat.mod_eq_of_lt (by unfold U32; omega)
  have h2 : (p + r) % U64 = p + r := Nat.mod_eq_of_lt (by unfold U64; omega)
  have h3 : (offsets (t % len) + buffer_size) % U32 = offsets (t % len) + buffer_size :=
    Nat.mod_eq_of_lt (by unfold U32; omega)
  simp only [nothing_eaten, normalised_offset, add32, add64, h1, h2, h3, decide_eq_true_eq]

theorem evict_loop_sound (offsets : Nat → Nat) (len buffer_size p r : Nat)
    (hoff : ∀ i, offsets i < buffer_size) (hbs : 2 * buffer_size ≤ 2 ^ 32)
    (hp : p < buffer_size) (hr : r < 2 ^ 16) (fuel t t' : Nat)
    (h : evict_loop offsets len buffer_size p r fuel t = some t') :
    ∃ k, k < fuel ∧ t' = advance_head t k ∧
      (∀ j, j < k →
        normalised_offset buffer_size p (offsets (advance_head t j % len)) ≤ p + r) ∧
      p + r < normalised_offset buffer_size p (offsets (t' % len)) := by
  induction fuel generalizing t with
  | zero => simp [evict_loop] at h
  | succ n ih =>
    rw [evict_loop] at h
    by_cases hne : nothing_eaten offsets len buffer_size p r t = true
    · rw [if_pos hne] at h
      have ht : t = t' := by injection h
      subst ht
      exact ⟨0, Nat.succ_pos n, rfl, fun j hj => absurd hj (Nat.not_lt_zero j),
        (nothing_eaten_iff offsets len buffer_size p r hoff hbs hp hr t).mp hne⟩
    · rw [if_neg hne] at h
      obtain ⟨k, hk, ht', hall, hlast⟩ := ih (add32 t 1) h
      refine ⟨k + 1, by omega, ht', ?_, hlast⟩
      intro j hj
      cases j with
      | zero =>
        have := (nothing_eaten_iff offsets len buffer_size p r hoff hbs hp hr t).not.mp hne
        simpa [advance_head] using Nat.le_of_not_lt this
      | succ i => exact hall i (by omega)

theorem evict_loop_returns (offsets : Nat → Nat) (len buffer_size p r : Nat)
    (hoff : ∀ i, offsets i < buffer_size) (hbs : 2 * buffer_size ≤ 2 ^ 32)
    (hp : p < buffer_size) (hr : r < 2 ^ 16) (k t : Nat)
    (h : p + r < normalised_offset buffer_size p (offsets (advance_head t k % len))) :
    ∃ t', evict_loop offsets len buffer_size p r (k + 1) t = some t' := by
  induction k generalizing t with
  | zero =>
    have hne := (nothing_eaten_iff offsets len buffer_size p r hoff hbs hp hr t).mpr h
    exact ⟨t, by rw [evict_loop, if_pos hne]⟩
  | succ n ih =>
    by_cases hne : nothing_eaten offsets len buffer_size p r t = true
    · exact ⟨t, by rw [evict_loop, if_pos hne]⟩
    · obtain ⟨t', ht'⟩ := ih (add32 t 1) h
      exact ⟨t', by rw [evict_loop, if_neg hne]; exact ht'⟩

theorem evict_loop_never (offsets : Nat → Nat) (len buffer_size p r : Nat)
    (h : ∀ t, nothing_eaten offsets len buffer_size p r t = false) :
    ∀ ev t, evict_loop offsets len buffer_size p r ev t = none := by
  intro ev
  induction ev with
  | zero => intro t; rfl
  | succ n ih =>
    intro t
    rw [evict_loop, h t]
    exact ih _

theorem walk_second_record_stuck (ev len : Nat) (offs : Nat → Nat) (bt nn fuel : Nat)
    (h : ∀ t, nothing_eaten offs len 16 8 12 t = false) :
    walk ev 16 len (two_records 0 8 8 12) 20 fuel
      { perf_tail := 8, buf_head := 1, buf_tail := bt, full := false,
        offsets := offs, n_new := nn } = none := by
  cases fuel with
  | zero => rfl
  | succ m =>
    have e2 : TAKEN 20 8 16 = 12 := by decide
    have e4 : (8 : Nat) &&& sub64 16 1 = 8 := by decide
    have e6 : sub64 20 8 = 12 := by decide
    have e9 : two_records 0 8 8 12 8 % U16 = 12 := by decide
    rw [walk]
    dsimp only
    rw [e2, if_neg (by decide), e4, e9, if_neg (by decide), e6, if_neg (by decide),
      if_pos (by decide), evict_loop_never offs len 16 8 12 h]

theorem walk_first_wrap_stuck (ev len : Nat) (offsets : Nat → Nat) (fuel : Nat)
    (h : ∀ t, nothing_eaten (store32 offsets (0 % len) 0) len 16 8 12 t = false) :
    walk ev 16 len (two_records 0 8 8 12) 20 fuel
      { perf_tail := 0, buf_head := 0, buf_tail := 0, full := false,
        offsets := offsets, n_new := 0 } = none := by
  cases fuel with
  | zero => rfl
  | succ n =>
    have e1 : TAKEN 20 0 16 = 4 := by decide
    have e3 : (0 : Nat) &&& sub64 16 1 = 0 := by decide
    have e5 : sub64 20 0 = 20 := by decide
    have e7 : add64 0 8 = 8 := by decide
    have e8 : two_records 0 8 8 12 0 % U16 = 8 := by decide
    have e11 : add32 0 1 = 1 := by decide
    have e13 : (false || decide (16 < 0 + 8)) = false := by decide
    rw [walk]
    dsimp only
    rw [e1, if_neg (by decide), e3, e8, if_neg (by decide), e5, if_neg (by decide), e13,
      if_neg (by decide)]
    dsimp only
    rw [e7, e11]
    exact walk_second_record_stuck ev len _ _ _ n h

theorem first_wrap_never_returns (len : Nat) (offsets : Nat → Nat)
    (h : ∀ t, nothing_eaten (store32 offsets (0 % len) 0) len 16 8 12 t = false) (fuel : Nat) :
    gputop_perf_update_header_offsets fuel (first_wrap_stream len offsets) = none := by
  have e10 : read_perf_head 20 = 20 := by decide
  unfold gputop_perf_update_header_offsets first_wrap_stream open_perf_stream
  dsimp only
  rw [e10, if_neg (by decide), walk_first_wrap_stuck fuel len offsets fuel h]

/-! ## Lemmas on the message loop -/

theorem forward_stream_update_continuation (s : WebcStream) (reason : Nat) :
    (forward_stream_update s reason).continuation_report = s.continuation_report :=
  (forward_stream_update_sink s reason).2.2.1

theorem forward_stream_update_metric_set (s : WebcStream) (reason : Nat) :
    (forward_stream_update s reason).oa_metric_set = s.oa_metric_set :=
  (forward_stream_update_sink s reason).2.2.2

theorem handle_sample_frame (api : AccumulatorApi) (s : WebcStream) (last : Option Report)
    (report : Report) :
    (handle_sample api s last report).continuation_report = s.continuation_report ∧
    (handle_sample api s last report).oa_metric_set = s.oa_metric_set := by
  cases last with
  | none => exact ⟨rfl, rfl⟩
  | some l =>
    simp only [handle_sample]
    split_ifs <;>
      simp only [forward_stream_update_continuation, forward_stream_update_metric_set, and_self]

theorem message_loop_over_records (api : AccumulatorApi) (msg : Message) (recs : List RecordHeader) :
    ∀ (off fuel : Nat) (s : WebcStream) (last : Option Report),
      records_laid_from msg off recs = true →
      (∀ r ∈ recs, known_record_type r.type ∧ r.size < 2 ^ 16) →
      ∃ s', message_loop api msg (recs.length + fuel) off s last =
          message_loop api msg fuel (records_end off recs) s'
            (match last_sample_offset off recs with
              | some o => some (oa_report msg o)
              | none => last) ∧
        s'.continuation_report = s.continuation_report ∧
        s'.oa_metric_set = s.oa_metric_set := by
  induction recs with
  | nil =>
    intro off fuel s last _ _
    exact ⟨s, by simp [records_end, last_sample_offset], rfl, rfl⟩
  | cons r rs ih =>
    intro off fuel s last hp hk
    simp only [records_laid_from, Bool.and_eq_true, decide_eq_true_eq] at hp
    obtain ⟨⟨⟨hlt, hty⟩, hsz⟩, hrest⟩ := hp
    obtain ⟨hknown, hsize⟩ := hk r (List.mem_cons_self r rs)
    have hk' : ∀ r' ∈ rs, known_record_type r'.type ∧ r'.size < 2 ^ 16 :=
      fun r' hr' => hk r' (List.mem_cons_of_mem r hr')
    have hmod : r.size % U16 = r.size := Nat.mod_eq_of_lt (by unfold U16; exact hsize)
    have hlen : (r :: rs).length + fuel = (rs.length + fuel) + 1 := by
      simp only [List.length_cons]; omega
    rw [hlen, message_loop, if_pos hlt]
    simp only [hty, hsz, hmod, records_end, last_sample_offset]
    rcases hknown with h3 | h2 | h1
    · obtain ⟨s', hs', hc, hm⟩ := ih (off + r.size) fuel
        { s with console := s.console ++ [ConsoleEvent.log] } last hrest hk'
      refine ⟨s', ?_, hc, hm⟩
      rw [if_pos h3, hs']
      have hns : ¬ r.type = DRM_I915_PERF_RECORD_SAMPLE := by
        rw [h3]; decide
      cases last_sample_offset (off + r.size) rs <;> simp [hns]
    · obtain ⟨s', hs', hc, hm⟩ := ih (off + r.size) fuel
        { s with console := s.console ++ [ConsoleEvent.log] } last hrest hk'
      refine ⟨s', ?_, hc, hm⟩
      have hn3 : ¬ r.type = DRM_I915_PERF_RECORD_OA_BUFFER_LOST := by
        rw [h2]; decide
      rw [if_neg hn3, if_pos h2, hs']
      have hns : ¬ r.type = DRM_I915_PERF_RECORD_SAMPLE := by
        rw [h2]; decide
      cases last_sample_offset (off + r.size) rs <;> simp [hns]
    · obtain ⟨s', hs', hc, hm⟩ := ih (off + r.size) fuel
        (handle_sample api s last (oa_report msg off)) (some (oa_report msg off)) hrest hk'
      obtain ⟨f1, f2⟩ := handle_sample_frame api s last (oa_report msg off)
      refine ⟨s', ?_, hc.trans f1, hm.trans f2⟩
      have hn3 : ¬ r.type = DRM_I915_PERF_RECORD_OA_BUFFER_LOST := by
        rw [h1]; decide
      have hn2 : ¬ r.type = DRM_I915_PERF_RECORD_OA_REPORT_LOST := by
        rw [h1]; decide
      rw [if_neg hn3, if_neg hn2, if_pos h1, hs']
      cases last_sample_offset (off + r.size) rs <;> simp [h1]

theorem map_getD_range (bytes : List Nat) :
    (List.range bytes.length).map (fun i => bytes.getD i 0) = bytes := by
  apply List.ext_getElem
  · simp
  · intro i h1 h2
    simp [List.getD_eq_getElem?_getD, List.getElem?_eq_getElem h2]

theorem handle_message_start (api : AccumulatorApi) (fuel : Nat) (stream : WebcStream)
    (msg : Message) :
    ∃ st : WebcStream, st.continuation_report = stream.continuation_report ∧
      st.oa_metric_set = stream.oa_metric_set ∧
      gputop_webc_handle_i915_perf_message api fuel stream msg =
        match message_loop api msg fuel 0 st (carried_report stream) with
        | .out_of_fuel => .out_of_fuel
        | .spurious stream => .returned stream
        | .done stream none => .returned stream
        | .done stream (some last) =>
          .returned
            { stream with
              continuation_report :=
                some ((List.range stream.oa_metric_set.perf_raw_size).map last) } := by
  cases h : stream.continuation_report with
  | none =>
    refine ⟨{ stream with
      oa_accumulator := api.gputop_oa_accumulator_clear stream.oa_accumulator }, h, rfl, ?_⟩
    unfold gputop_webc_handle_i915_perf_message carried_report
    simp only [h]
  | some bytes =>
    refine ⟨stream, h, rfl, ?_⟩
    unfold gputop_webc_handle_i915_perf_message carried_report
    simp only [h]

theorem message_loop_past_end (api : AccumulatorApi) (msg : Message) (fuel off : Nat)
    (s : WebcStream) (last : Option Report) (h : ¬ (off : Int) < msg.len) :
    message_loop api msg fuel off s last = LoopEnd.done s last := by
  cases fuel <;> simp [message_loop, h]

theorem last_sample_offset_some (recs : List RecordHeader) :
    ∀ off, (∃ r ∈ recs, r.type = DRM_I915_PERF_RECORD_SAMPLE) →
      ∃ o, last_sample_offset off recs = some o := by
  induction recs with
  | nil => intro off h; simp at h
  | cons r rs ih =>
    intro off h
    simp only [last_sample_offset]
    cases hl : last_sample_offset (off + r.size) rs with
    | some o => exact ⟨o, rfl⟩
    | none =>
      by_cases hr : r.type = DRM_I915_PERF_RECORD_SAMPLE
      · exact ⟨off, by simp [hr]⟩
      · obtain ⟨r', hr', ht⟩ := h
        rcases List.mem_cons.mp hr' with h1 | h1
        · rw [h1] at ht; exact absurd ht hr
        · obtain ⟨o, ho⟩ := ih (off + r.size) ⟨r', h1, ht⟩
          rw [ho] at hl; cases hl

theorem last_sample_offset_none (recs : List RecordHeader) :
    ∀ off, (∀ r ∈ recs, r.type ≠ DRM_I915_PERF_RECORD_SAMPLE) →
      last_sample_offset off recs = none := by
  induction recs with
  | nil => intro off _; rfl
  | cons r rs ih =>
    intro off h
    simp only [last_sample_offset, ih (off + r.size) (fun r' hr' => h r' (List.mem_cons_of_mem r hr')),
      if_neg (h r (List.mem_cons_self r rs))]

theorem last_sample_offset_is_sample (msg : Message) (recs : List RecordHeader) :
    ∀ off o, records_laid_from msg off recs = true → last_sample_offset off recs = some o →
      (msg.header o).type = DRM_I915_PERF_RECORD_SAMPLE := by
  induction recs with
  | nil => intro off o _ h; simp [last_sample_offset] at h
  | cons r rs ih =>
    intro off o hp h
    simp only [records_laid_from, Bool.and_eq_true, decide_eq_true_eq] at hp
    obtain ⟨⟨⟨_, hty⟩, _⟩, hrest⟩ := hp
    simp only [last_sample_offset] at h
    cases hl : last_sample_offset (off + r.size) rs with
    | some o' =>
      rw [hl] at h
      have : o' = o := by injection h
      rw [← this]
      exact ih (off + r.size) o' hrest hl
    | none =>
      rw [hl] at h
      by_cases hr : r.type = DRM_I915_PERF_RECORD_SAMPLE
      · simp only [hr, if_true] at h
        have : off = o := by injection h
        rw [← this, hty, hr]
      · simp [hr] at h

/-! ## Theorems -/

/-- C1: for every power-of-two size `2 ^ k` representable in 64 bits and every
`head`, `tail` in `[0, 2 ^ 64)`, `TAKEN + REMAINING = size`, both as a 64-bit
unsigned sum and as an exact sum (the addition does not wrap). -/
theorem TAKEN_add_REMAINING (k head tail : Nat) (hk : k < 64)
    (hh : head < 2 ^ 64) (ht : tail < 2 ^ 64) :
    add64 (TAKEN head tail (2 ^ k)) (REMAINING head tail (2 ^ k)) = 2 ^ k ∧
    TAKEN head tail (2 ^ k) + REMAINING head tail (2 ^ k) = 2 ^ k := by
  have h1 : 2 ^ k < 2 ^ 64 := Nat.pow_lt_pow_right (by decide) hk
  have h2 := TAKEN_lt head tail k hk
  have h3 := REMAINING_eq head tail k hk
  have h4 : TAKEN head tail (2 ^ k) + REMAINING head tail (2 ^ k) = 2 ^ k := by omega
  refine ⟨?_, h4⟩
  unfold add64 U64
  rw [h4]
  exact Nat.mod_eq_of_lt h1

/-- Witness for C1: a 4096-byte ring with the producer 100 bytes ahead of a
consumer cursor that has not wrapped yet. -/
theorem TAKEN_add_REMAINING_witness :
    (12 < 64 ∧ 4196 < 2 ^ 64 ∧ 4096 < 2 ^ 64) ∧
    add64 (TAKEN 4196 4096 (2 ^ 12)) (REMAINING 4196 4096 (2 ^ 12)) = 2 ^ 12 ∧
    TAKEN 4196 4096 (2 ^ 12) + REMAINING 4196 4096 (2 ^ 12) = 2 ^ 12 :=
  ⟨by decide, TAKEN_add_REMAINING 12 4196 4096 (by decide) (by decide) (by decide)⟩

/-- C2 (code defect): the eviction loop has no test against the tracker head.
On a fresh 4-entry tracker over a 128-byte ring, four calls that find six
contiguous well-formed records (32 and 16, 24 and 80, 64, 96 bytes) end with
tracker head 6 and tracker tail 7: the tail has overtaken the head and the
32-bit count of live entries `head - tail` is `2 ^ 32 - 1`, far above
`len = 4`.  The outcome is the same whether the array started zeroed or filled
with `0xffffffff`; after the first three calls the invariant still held
(head 5, tail 4). -/
theorem update_header_offsets_tail_overtakes_head :
    (run_updates 8 (open_perf_stream 128 4 (fun _ => 0)) four_wakeups).map
      (fun s => (s.header_buf.head, s.header_buf.tail, s.header_buf.len,
        sub32 s.header_buf.head s.header_buf.tail, s.header_buf.full))
      = some (6, 7, 4, 4294967295, true) ∧
    (run_updates 8 (open_perf_stream 128 4 (fun _ => 4294967295)) four_wakeups).map
      (fun s => (s.header_buf.head, s.header_buf.tail, s.header_buf.len,
        sub32 s.header_buf.head s.header_buf.tail, s.header_buf.full))
      = some (6, 7, 4, 4294967295, true) ∧
    (run_updates 8 (open_perf_stream 128 4 (fun _ => 0)) (four_wakeups.take 3)).map
      (fun s => (s.header_buf.head, s.header_buf.tail, s.header_buf.len,
        sub32 s.header_buf.head s.header_buf.tail, s.header_buf.full))
      = some (5, 4, 4, 1, true) := by
  refine ⟨?_, ?_, ?_⟩ <;> decide

/-- C5 (counterexample): with `data_head = 2 ^ 32 + 16` and `data_tail = 0` the
call returns with `data_tail = 16`, which is not the producer head. -/
theorem update_header_offsets_data_tail_truncated :
    (gputop_perf_update_header_offsets 4 stream_head_above_u32).map
      (fun s' => (s'.data_tail, decide (s'.data_tail = stream_head_above_u32.data_head)))
      = some (16, false) := by
  decide

/-- C5 (amended): every call that returns leaves `data_tail` equal to the value
`read_perf_head` delivered, `data_head mod 2 ^ 32`, which is `data_head` itself
when `data_head < 2 ^ 32`; this covers walks aborted by a corrupt record.  The
call does return when the tracker is not full and no accepted record crosses
the end of the ring. -/
theorem update_header_offsets_data_tail (s : PerfStream) (hlen : 0 < s.header_buf.len) :
    (∀ fuel s', gputop_perf_update_header_offsets fuel s = some s' →
      s'.data_tail = s.data_head % 2 ^ 32 ∧
      (s.data_head < 2 ^ 32 → s'.data_tail = s.data_head)) ∧
    (s.header_buf.full = false →
      (∀ r ∈ walked_records s, crosses_end s.buffer_size r = false) →
      ∀ fuel, sub64 (read_perf_head s.data_head) s.data_tail < fuel →
        ∃ s', gputop_perf_update_header_offsets fuel s = some s') := by
  refine ⟨?_, fun hf hc fuel hfuel => update_total fuel s hf hc hfuel⟩
  intro fuel s' h
  have h1 := (update_spec fuel s s' h).1
  unfold read_perf_head U32 at h1
  exact ⟨h1, fun hlt => by rw [h1, Nat.mod_eq_of_lt hlt]⟩

/-- C6: after a call, the tracker's `full` flag is its value before the call
or-ed with "some record accepted by the walk has `offset + size > buffer_size`"
(the record at which a walk aborts is not processed and does not count); so
over any sequence of calls a set flag stays set.  The call does return when the
tracker is not full and no accepted record crosses the end of the ring. -/
theorem update_header_offsets_full_flag (s : PerfStream) (hlen : 0 < s.header_buf.len) :
    (∀ fuel s', gputop_perf_update_header_offsets fuel s = some s' →
      s'.header_buf.full =
        (s.header_buf.full || (walked_records s).any (fun r => decide (s.buffer_size < r.1 + r.2)))) ∧
    (∀ fuel ws s', run_updates fuel s ws = some s' →
      s.header_buf.full = true → s'.header_buf.full = true) ∧
    (s.header_buf.full = false →
      (∀ r ∈ walked_records s, crosses_end s.buffer_size r = false) →
      ∀ fuel, sub64 (read_perf_head s.data_head) s.data_tail < fuel →
        ∃ s', gputop_perf_update_header_offsets fuel s = some s') := by
  refine ⟨?_, ?_, fun hf hc fuel hfuel => update_total fuel s hf hc hfuel⟩
  · intro fuel s' h
    exact (update_spec fuel s s' h).2.2.2.1
  · intro fuel ws
    induction ws generalizing s with
    | nil => intro s' h hf; simp only [run_updates, Option.some.injEq] at h; rw [← h]; exact hf
    | cons w ws ih =>
      intro s' h hf
      unfold run_updates at h
      split at h
      · cases h
      · rename_i s1 hs1
        have hl1 : s1.header_buf.len = s.header_buf.len := (update_spec fuel _ s1 hs1).2.2.2.2.1
        refine ih s1 (by rw [hl1]; exact hlen) s' h ?_
        rw [(update_spec fuel _ s1 hs1).2.2.2.1]
        simp [hf]

/-- C3 (counterexample): on a ring that is exactly full (`head - tail = 128 =
buffer_size`, two well-formed 64-byte records) the loop condition
`TAKEN(...)` is 0, no record is walked and the tracker head stays 0 instead of
advancing by `k = 2`; the call still sets `data_tail` to 128. -/
theorem update_header_offsets_exactly_full_walks_nothing :
    ([64, 64].sum = exactly_full_stream.data_head - exactly_full_stream.data_tail ∧
      exactly_full_stream.data_head - exactly_full_stream.data_tail
        ≤ exactly_full_stream.buffer_size ∧
      exactly_full_stream.header_size 0 = 64 ∧ exactly_full_stream.header_size 64 = 64) ∧
    (gputop_perf_update_header_offsets 8 exactly_full_stream).map
      (fun s' => (s'.header_buf.head, s'.data_tail)) = some (0, 128) := by
  decide

/-- C3 (amended): let `sizes` be a run of `k` records laid contiguously from
`data_tail` in a power-of-two ring, each size in `(0, 2 ^ 16)`, the sizes
summing to `TAKEN(head, tail, buffer_size)` for the head that `read_perf_head`
delivers (this is `head - tail` when `0 < head - tail < buffer_size`), and let
the 32-bit head index not wrap (`head + k < 2 ^ 32`).  Then a call that returns
has advanced the tracker head by exactly `k`, and for each of the last
`min k len` records the array holds its start offset
`(tail + earlier sizes) mod buffer_size` at `offsets[(old_head + i) mod len]`.
The call does return when the tracker is not full and no record of the run
crosses the end of the ring. -/
theorem update_header_offsets_walks_run (m : Nat) (s : PerfStream) (sizes : List Nat)
    (hm : m < 64) (hbs : s.buffer_size = 2 ^ m) (hlen : 0 < s.header_buf.len)
    (hgood : ∀ r ∈ sizes, 0 < r ∧ r < 2 ^ 16)
    (hlaid : laid_out s.buffer_size s.header_size s.data_tail sizes)
    (hsum : sizes.sum = TAKEN (read_perf_head s.data_head) s.data_tail s.buffer_size)
    (hhead : s.header_buf.head + sizes.length < 2 ^ 32) :
    (∀ fuel s', gputop_perf_update_header_offsets fuel s = some s' →
      s'.header_buf.head = s.header_buf.head + sizes.length ∧
      ∀ i, i < sizes.length → sizes.length - i ≤ s.header_buf.len →
        s'.header_buf.offsets ((s.header_buf.head + i) % s.header_buf.len) =
          record_start s.data_tail sizes i % s.buffer_size % 2 ^ 32) ∧
    (s.header_buf.full = false →
      (∀ r ∈ run_records s.buffer_size s.data_tail sizes, r.1 + r.2 ≤ s.buffer_size) →
      ∀ fuel, sub64 (read_perf_head s.data_head) s.data_tail < fuel →
        ∃ s', gputop_perf_update_header_offsets fuel s = some s') := by
  have hT : sizes.sum = sub64 (read_perf_head s.data_head) s.data_tail % 2 ^ m := by
    rw [hsum, hbs, TAKEN_eq_mod _ _ m hm]
  have hle : sizes.sum ≤ sub64 (read_perf_head s.data_head) s.data_tail := by
    rw [hT]; exact Nat.mod_le _ _
  have hw : walked_records s = run_records s.buffer_size s.data_tail sizes := by
    apply walked_records_of_run m hm s sizes hbs hgood hlaid hle
    · intro i hi
      have hlt := take_sum_lt sizes (fun r hr => (hgood r hr).1) i hi
      rw [hbs]
      unfold record_start
      rw [TAKEN_add m hm _ _ _ (by omega)]
      exact sub_mod_ne_zero _ _ _ (by rw [← hT]; exact hlt)
    · intro fuel
      apply walked_stop_eq_nil
      left
      rw [hbs, TAKEN_add m hm _ _ _ hle, hT]
      exact sub_mod_self_mod _ _
  refine ⟨?_, ?_⟩
  · intro fuel s' h
    obtain ⟨e1, _, e3⟩ := update_run_spec s sizes hw hhead fuel s' h
    exact ⟨e1, e3⟩
  · intro hf hc fuel hfuel
    apply update_total fuel s hf _ hfuel
    intro r hr
    rw [hw] at hr
    have := hc r hr
    simp only [crosses_end, decide_eq_false_iff_not, Nat.not_lt]
    exact this

/-- Witness for C3: a 40-byte and an 8-byte record in a 128-byte ring; the
call returns with tracker head 2 and offsets 0 and 40 stored at indices 0
and 1. -/
theorem update_header_offsets_walks_run_witness :
    ∃ s', gputop_perf_update_header_offsets 49 two_record_stream = some s' ∧
      s'.header_buf.head = 2 ∧ s'.header_buf.offsets 0 = 0 ∧ s'.header_buf.offsets 1 = 40 := by
  have hthm := update_header_offsets_walks_run 7 two_record_stream [40, 8]
    (by decide) (by decide) (by decide) (by decide)
    (by intro i hi
        have : i = 0 ∨ i = 1 := by simp at hi; omega
        rcases this with rfl | rfl <;> decide)
    (by decide) (by decide)
  obtain ⟨s', hs'⟩ := hthm.2 (by decide) (by decide) 49 (by decide)
  obtain ⟨e1, e2⟩ := hthm.1 49 s' hs'
  refine ⟨s', hs', e1, ?_, ?_⟩
  · exact e2 0 (by decide) (by decide)
  · exact e2 1 (by decide) (by decide)

/-- The two size checks of the walk (lines 995-1006), with the bytes left up to
the head measured as the code measures them, `perf_head - perf_tail` on the
head `read_perf_head` returned: let `rs` be a run of good records laid
contiguously from `data_tail` in a power-of-two ring (each one met by the walk
and no larger than that difference), followed by a header that declares size 0
or more than that difference.  Then a call that returns has stopped at that
header: the tracker head advanced by exactly the number of good records, the
array is the old array with exactly their offsets appended in order (nothing is
appended for the bad record), and each of them that the capacity `len` still
allows is found at `offsets[(old_head + i) mod len]`.  The call does return
when the tracker is not full and no good record crosses the end of the ring. -/
theorem update_header_offsets_stops_at_bad_record (m : Nat) (s : PerfStream) (rs : List Nat)
    (hm : m < 64) (hbs : s.buffer_size = 2 ^ m) (hlen : 0 < s.header_buf.len)
    (hgood : ∀ r ∈ rs, 0 < r ∧ r < 2 ^ 16)
    (hlaid : laid_out s.buffer_size s.header_size s.data_tail rs)
    (hsum : rs.sum ≤ sub64 (read_perf_head s.data_head) s.data_tail)
    (hreach : ∀ i, i < rs.length →
      TAKEN (read_perf_head s.data_head) (record_start s.data_tail rs i) s.buffer_size ≠ 0)
    (hbad : s.header_size ((s.data_tail + rs.sum) % s.buffer_size) % 2 ^ 16 = 0 ∨
      sub64 (read_perf_head s.data_head) s.data_tail - rs.sum <
        s.header_size ((s.data_tail + rs.sum) % s.buffer_size) % 2 ^ 16)
    (hhead : s.header_buf.head + rs.length < 2 ^ 32) :
    (∀ fuel s', gputop_perf_update_header_offsets fuel s = some s' →
      s'.header_buf.head = s.header_buf.head + rs.length ∧
      s'.header_buf.offsets = store_all s.header_buf.len s.header_buf.offsets s.header_buf.head
        (run_records s.buffer_size s.data_tail rs) ∧
      ∀ i, i < rs.length → rs.length - i ≤ s.header_buf.len →
        s'.header_buf.offsets ((s.header_buf.head + i) % s.header_buf.len) =
          record_start s.data_tail rs i % s.buffer_size % 2 ^ 32) ∧
    (s.header_buf.full = false →
      (∀ r ∈ run_records s.buffer_size s.data_tail rs, r.1 + r.2 ≤ s.buffer_size) →
      ∀ fuel, sub64 (read_perf_head s.data_head) s.data_tail < fuel →
        ∃ s', gputop_perf_update_header_offsets fuel s = some s') := by
  have hw : walked_records s = run_records s.buffer_size s.data_tail rs := by
    apply walked_records_of_run m hm s rs hbs hgood hlaid hsum hreach
    intro fuel
    apply walked_stop_eq_nil
    right
    rw [hbs, mask_eq_mod m _ hm, sub64_add_right _ _ _ hsum]
    rw [hbs] at hbad
    exact hbad
  refine ⟨fun fuel s' h => update_run_spec s rs hw hhead fuel s' h, ?_⟩
  intro hf hc fuel hfuel
  apply update_total fuel s hf _ hfuel
  intro r hr
  rw [hw] at hr
  have := hc r hr
  simp only [crosses_end, decide_eq_false_iff_not, Nat.not_lt]
  exact this

/-- An instance of the size checks: a 40-byte record followed by a header of
size 0 at offset 40, with 48 unread bytes; the call returns with tracker head 1
and offset 0 stored at index 0. -/
theorem update_header_offsets_stops_at_bad_record_witness :
    ∃ s', gputop_perf_update_header_offsets 49 corrupt_second_record_stream = some s' ∧
      s'.header_buf.head = 1 ∧ s'.header_buf.offsets 0 = 0 := by
  have hthm := update_header_offsets_stops_at_bad_record 7 corrupt_second_record_stream [40]
    (by decide) (by decide) (by decide) (by decide)
    (by intro i hi
        have : i = 0 := by simp at hi; omega
        subst this; decide)
    (by decide)
    (by intro i hi
        have : i = 0 := by simp at hi; omega
        subst this; decide)
    (by decide) (by decide)
  obtain ⟨s', hs'⟩ := hthm.2 (by decide) (by decide) 49 (by decide)
  obtain ⟨e1, _, e3⟩ := hthm.1 49 s' hs'
  exact ⟨s', hs', e1, e3 0 (by decide) (by decide)⟩

/-- Witness for C5: on the stream whose producer cursor is `2 ^ 32 + 16` the
call returns and leaves `data_tail = 16 = (2 ^ 32 + 16) mod 2 ^ 32`. -/
theorem update_header_offsets_data_tail_witness :
    ∃ s', gputop_perf_update_header_offsets 17 stream_head_above_u32 = some s' ∧
      s'.data_tail = 16 := by
  have hthm := update_header_offsets_data_tail stream_head_above_u32 (by decide)
  obtain ⟨s', hs'⟩ := hthm.2 (by decide) (by decide) 17 (by decide)
  exact ⟨s', hs', (hthm.1 17 s' hs').1⟩

/-- Witness for C6: a call on a ring whose two records stay inside the ring
returns and leaves the `full` flag clear; a call that accepts an 80-byte record
at offset 72 of a 128-byte ring returns with the flag set. -/
theorem update_header_offsets_full_flag_witness :
    (∃ s', gputop_perf_update_header_offsets 49 two_record_stream = some s' ∧
      s'.header_buf.full = false) ∧
    (∃ s', gputop_perf_update_header_offsets 8 wrapping_record_stream = some s' ∧
      s'.header_buf.full = true) := by
  constructor
  · have hthm := update_header_offsets_full_flag two_record_stream (by decide)
    obtain ⟨s', hs'⟩ := hthm.2.2 (by decide) (by decide) 49 (by decide)
    refine ⟨s', hs', ?_⟩
    rw [hthm.1 49 s' hs']
    decide
  · have hthm := update_header_offsets_full_flag wrapping_record_stream (by decide)
    have hsome : (gputop_perf_update_header_offsets 8 wrapping_record_stream).isSome = true := by
      decide
    obtain ⟨s', hs'⟩ := Option.isSome_iff_exists.mp hsome
    refine ⟨s', hs', ?_⟩
    rw [hthm.1 8 s' hs']
    decide

/-- C8 (code defect): a chunk whose second header declares size 0 ends the
whole process through `exit(1)`; the reads that would follow (here one that
fails with `EAGAIN`) are never issued and the function does not return. -/
theorem read_i915_perf_samples_zero_size_exits :
    read_i915_perf_samples open_oa_stream [chunk_with_zero_size_header, read_eagain]
      = Outcome.exited 1 := by
  rfl

/-- C7: let a read return a chunk made of the whole records `recs`, each with a
size in `(0, 2 ^ 16)`.  The scan returns, the reader goes on with the next
read, and the `sample` callback has been called once for every Sample record
that has a predecessor, with (previous Sample's report, this Sample's report)
in chunk order, the carried-over `oa.last` being the predecessor of the first
Sample; afterwards `oa.last` is the report of the last Sample seen.  Records of
any other type call nothing and leave `oa.last` alone. -/
theorem read_i915_perf_samples_pairs_samples (st : OaStream) (r : ReadResult)
    (recs : List RecordHeader) (hne : recs ≠ [])
    (hsize : ∀ h ∈ recs, 0 < h.size ∧ h.size < 2 ^ 16)
    (hcount : r.count = (chunk_size recs : Int))
    (hrec : records_at r.data 0 recs) :
    ∃ st', read_and_scan st r = Outcome.returned st' ∧
      (∀ rest, read_i915_perf_samples st (r :: rest) = read_i915_perf_samples st' rest) ∧
      st'.samples = st.samples ++
        consecutive_pairs (st.last.toList ++ sample_ptrs (read_buf_idx st) 0 recs) ∧
      st'.last = (st.last.toList ++ sample_ptrs (read_buf_idx st) 0 recs).getLast? ∧
      ((∀ h ∈ recs, h.type ≠ DRM_I915_PERF_RECORD_SAMPLE) →
        st'.samples = st.samples ∧ st'.last = st.last) := by
  have hpos' : ∀ x ∈ recs, 0 < x.size := fun x hx => (hsize x hx).1
  have hlen := chunk_length_le_size recs hpos'
  have hlenpos : 0 < recs.length := List.length_pos.mpr hne
  have hpos : 0 < r.count := by rw [hcount]; omega
  have htn : r.count.toNat = chunk_size recs := by rw [hcount]; simp
  have hscan : read_and_scan st r = Outcome.returned
      (scan_spec (read_buf_idx st) 0 recs (fill_buffer st r)) := by
    unfold read_and_scan
    exact scan_records_eq _ _ _ recs 0 _ _ hsize
      (records_at_fill st r hpos recs 0 hpos' hrec (by omega)) (by omega) (by omega)
  obtain ⟨e1, e2, _, _⟩ := scan_spec_eq (read_buf_idx st) recs 0 (fill_buffer st r)
  obtain ⟨f1, _, f3⟩ := fill_buffer_last st r
  rw [f1, f3] at e1
  rw [f1] at e2
  refine ⟨_, hscan, ?_, e1, e2, ?_⟩
  · intro rest
    have h1 : ¬ r.count < 0 := by omega
    have h2 : ¬ r.count = 0 := by omega
    conv_lhs => unfold read_i915_perf_samples
    simp only [h1, h2, if_false, hscan]
  · intro hall
    rw [e1, e2, sample_ptrs_eq_nil _ recs 0 hall]
    cases st.last <;> simp [consecutive_pairs]

/-- Witness for C7: a fresh stream reads a chunk "Sample, ReportLost, Sample,
Sample" of four 16-byte records into buffer 1; the callback is called for the
pairs (report at 8, report at 40) and (report at 40, report at 56), and
`oa.last` ends on the report at 56. -/
theorem read_i915_perf_samples_pairs_samples_witness :
    ∃ st', read_and_scan open_oa_stream (chunk_of_samples 4 [16]) = Outcome.returned st' ∧
      st'.samples = [((1, 8), (1, 40)), ((1, 40), (1, 56))] ∧ st'.last = some (1, 56) := by
  obtain ⟨st', h1, _, h3, h4, _⟩ := read_i915_perf_samples_pairs_samples open_oa_stream
    (chunk_of_samples 4 [16])
    [ { type := DRM_I915_PERF_RECORD_SAMPLE, size := 16 },
      { type := DRM_I915_PERF_RECORD_OA_REPORT_LOST, size := 16 },
      { type := DRM_I915_PERF_RECORD_SAMPLE, size := 16 },
      { type := DRM_I915_PERF_RECORD_SAMPLE, size := 16 } ]
    (by simp) (by simp) (by decide)
    (by simp [records_at, chunk_of_samples])
  exact ⟨st', h1, h3, h4⟩

/-- C9: a freshly opened OA stream satisfies the double-buffer invariant, and
every state the reader is in when it issues a read or returns keeps it:
`oa.last_buf_idx` is 0 or 1, the next read fills
`bufs[1 - oa.last_buf_idx]`, and `oa.last`, when set, points into
`bufs[oa.last_buf_idx]`, a buffer the next read leaves untouched. -/
theorem read_i915_perf_samples_double_buffer :
    oa_last_in_buf open_oa_stream ∧
    ∀ (st : OaStream) (reads : List ReadResult) (st' : OaStream) (rest : List ReadResult),
      oa_last_in_buf st →
      (read_i915_perf_samples st reads = Outcome.returned (st', rest) ∨
        read_i915_perf_samples st reads = Outcome.pending (st', rest)) →
      oa_last_in_buf st' ∧ read_buf_idx st' = 1 - st'.last_buf_idx ∧
      (∀ (r : ReadResult) (i : Nat), i ≠ 1 - st'.last_buf_idx →
        (fill_buffer st' r).bufs i = st'.bufs i) ∧
      ∀ p, st'.last = some p → p.1 = st'.last_buf_idx ∧ p.1 ≠ read_buf_idx st' ∧
        ∀ r : ReadResult, (fill_buffer st' r).bufs p.1 = st'.bufs p.1 := by
  refine ⟨⟨Nat.zero_le _, fun p hp => by cases hp⟩, ?_⟩
  intro st reads st' rest hinv h
  have hinv' := read_i915_perf_samples_inv reads st st' rest hinv h
  have hidx := read_buf_idx_eq st' hinv'.1
  refine ⟨hinv', hidx, ?_, ?_⟩
  · intro r i hi
    exact fill_buffer_other st' r i (by rw [hidx]; exact hi)
  · intro p hp
    have hp1 := hinv'.2 p hp
    have hne : p.1 ≠ read_buf_idx st' := by rw [hp1]; exact read_buf_idx_ne st'
    exact ⟨hp1, hne, fun r => fill_buffer_other st' r p.1 hne⟩

/-- Witness for C9: after a fresh stream has read a chunk of two Samples and
then hit `EAGAIN`, `oa.last` points into buffer 1, `oa.last_buf_idx` is 1 and
the next read goes to buffer 0. -/
theorem read_i915_perf_samples_double_buffer_witness :
    ∃ st' rest, read_i915_perf_samples open_oa_stream [chunk_of_samples 2 [], read_eagain]
        = Outcome.returned (st', rest) ∧
      st'.last = some (1, 24) ∧ st'.last_buf_idx = 1 ∧ read_buf_idx st' = 0 := by
  have hrun : read_i915_perf_samples open_oa_stream [chunk_of_samples 2 [], read_eagain]
      = Outcome.returned
        (scan_spec 1 0 [ { type := DRM_I915_PERF_RECORD_SAMPLE, size := 16 },
            { type := DRM_I915_PERF_RECORD_SAMPLE, size := 16 } ]
          (fill_buffer open_oa_stream (chunk_of_samples 2 [])), []) := rfl
  have h := read_i915_perf_samples_double_buffer.2 open_oa_stream _ _ _
    read_i915_perf_samples_double_buffer.1 (Or.inl hrun)
  exact ⟨_, _, hrun, rfl, rfl, h.2.1⟩

/-- The read loop of `read_i915_perf_samples`: let the reads deliver `pre`,
made only of `EINTR` failures and chunks with a positive byte count, then a
read `stop` that returns 0 bytes or fails with `EAGAIN` or any error other than
`EINTR`, then `rest`.  The reader scans exactly the chunks of `pre`, in order,
skipping the `EINTR` reads without scanning anything; if these scans all return
it returns at `stop` with the state they left and `rest` unread; a scan that
ends in `exit` ends the reader the same way; without a stopping read it is
still reading when `pre` is used up.  The scans themselves always come to an
end. -/
theorem read_i915_perf_samples_read_loop (st : OaStream) (pre : List ReadResult)
    (stop : ReadResult) (rest : List ReadResult)
    (hpre : ∀ r ∈ pre, (r.count < 0 ∧ r.errno = EINTR) ∨ 0 < r.count)
    (hstop : stop.count = 0 ∨ (stop.count < 0 ∧ stop.errno ≠ EINTR)) :
    (∀ st', scan_chunks st (pre.filter (fun r => decide (0 < r.count))) = Outcome.returned st' →
      read_i915_perf_samples st (pre ++ stop :: rest) = Outcome.returned (st', rest) ∧
      read_i915_perf_samples st pre = Outcome.pending (st', [])) ∧
    (∀ c, scan_chunks st (pre.filter (fun r => decide (0 < r.count))) = Outcome.exited c →
      read_i915_perf_samples st (pre ++ stop :: rest) = Outcome.exited c) ∧
    ((∃ st', scan_chunks st (pre.filter (fun r => decide (0 < r.count))) = Outcome.returned st') ∨
      scan_chunks st (pre.filter (fun r => decide (0 < r.count))) = Outcome.exited 1) := by
  refine ⟨?_, ?_, scan_chunks_terminates _ st⟩
  · induction pre generalizing st with
    | nil =>
      intro st' h
      simp only [List.filter_nil, scan_chunks, Outcome.returned.injEq] at h
      subst h
      refine ⟨?_, rfl⟩
      simp only [List.nil_append]
      unfold read_i915_perf_samples
      rcases hstop with h0 | ⟨h1, h2⟩
      · simp [h0]
      · simp [h1, h2]
    | cons r rs ih =>
      intro st' h
      have hrs : ∀ x ∈ rs, (x.count < 0 ∧ x.errno = EINTR) ∨ 0 < x.count :=
        fun x hx => hpre x (List.mem_cons_of_mem _ hx)
      rcases hpre r (List.mem_cons_self _ _) with ⟨h1, h2⟩ | h3
      · have hn : ¬ 0 < r.count := by omega
        simp only [List.filter_cons, hn, decide_False, Bool.false_eq_true, if_false] at h
        obtain ⟨a, b⟩ := ih st hrs st' h
        simp only [List.cons_append]
        constructor
        · conv_lhs => unfold read_i915_perf_samples
          simp only [h1, h2, if_true]
          exact a
        · conv_lhs => unfold read_i915_perf_samples
          simp only [h1, h2, if_true]
          exact b
      · have hn1 : ¬ r.count < 0 := by omega
        have hn2 : ¬ r.count = 0 := by omega
        simp only [List.filter_cons, h3, decide_True, if_true] at h
        unfold scan_chunks at h
        cases hsc : read_and_scan st r with
        | returned st2 =>
          rw [hsc] at h
          obtain ⟨a, b⟩ := ih st2 hrs st' h
          simp only [List.cons_append]
          constructor
          · conv_lhs => unfold read_i915_perf_samples
            simp only [hn1, hn2, if_false, hsc]
            exact a
          · conv_lhs => unfold read_i915_perf_samples
            simp only [hn1, hn2, if_false, hsc]
            exact b
        | exited c => rw [hsc] at h; cases h
        | pending s => rw [hsc] at h; cases h
        | out_of_fuel => rw [hsc] at h; cases h
  · induction pre generalizing st with
    | nil =>
      intro c h
      simp only [List.filter_nil, scan_chunks] at h
      cases h
    | cons r rs ih =>
      intro c h
      have hrs : ∀ x ∈ rs, (x.count < 0 ∧ x.errno = EINTR) ∨ 0 < x.count :=
        fun x hx => hpre x (List.mem_cons_of_mem _ hx)
      rcases hpre r (List.mem_cons_self _ _) with ⟨h1, h2⟩ | h3
      · have hn : ¬ 0 < r.count := by omega
        simp only [List.filter_cons, hn, decide_False, Bool.false_eq_true, if_false] at h
        simp only [List.cons_append]
        conv_lhs => unfold read_i915_perf_samples
        simp only [h1, h2, if_true]
        exact ih st hrs c h
      · have hn1 : ¬ r.count < 0 := by omega
        have hn2 : ¬ r.count = 0 := by omega
        simp only [List.filter_cons, h3, decide_True, if_true] at h
        unfold scan_chunks at h
        simp only [List.cons_append]
        conv_lhs => unfold read_i915_perf_samples
        simp only [hn1, hn2, if_false]
        cases hsc : read_and_scan st r with
        | returned st2 =>
          rw [hsc] at h
          exact ih st2 hrs c h
        | exited c2 =>
          rw [hsc] at h
          simp only [Outcome.exited.injEq] at h
          rw [h]
        | pending s => rw [hsc] at h; cases h
        | out_of_fuel => rw [hsc] at h; cases h

/-- An instance of the read loop: the reads "EINTR, a chunk of two Samples,
EINTR, EAGAIN, one more chunk" make the reader scan the one chunk, return at
`EAGAIN` with one callback call logged, and leave the last chunk unread. -/
theorem read_i915_perf_samples_read_loop_witness :
    ∃ st', read_i915_perf_samples open_oa_stream
        ([read_eintr, chunk_of_samples 2 [], read_eintr] ++
          read_eagain :: [chunk_of_samples 1 []])
        = Outcome.returned (st', [chunk_of_samples 1 []]) ∧
      st'.samples = [((1, 8), (1, 24))] := by
  have hsc : scan_chunks open_oa_stream
      ([read_eintr, chunk_of_samples 2 [], read_eintr].filter (fun r => decide (0 < r.count)))
      = Outcome.returned
        (scan_spec 1 0 [ { type := DRM_I915_PERF_RECORD_SAMPLE, size := 16 },
            { type := DRM_I915_PERF_RECORD_SAMPLE, size := 16 } ]
          (fill_buffer open_oa_stream (chunk_of_samples 2 []))) := rfl
  have h := (read_i915_perf_samples_read_loop open_oa_stream
    [read_eintr, chunk_of_samples 2 [], read_eintr] read_eagain [chunk_of_samples 1 []]
    (by decide) (by decide)).1 _ hsc
  exact ⟨_, h.1, rfl⟩

/-- C11: take any stream that is not closed (with a non-negative count of
pending handle closures) and request its close; let `n` be
`n_closing_uv_handles` after the request.  Before the `n`-th handle-close
confirmation `closed` is still false and the on-close callback has not been
called; after the `n`-th one (right after the request when `n = 0`) `closed`
is true and the callback has been called exactly once. -/
theorem stream_close_completes (s : Stream) (hopen : s.closed = false)
    (hn : 0 ≤ s.n_closing_uv_handles) :
    (∀ k, k < (gputop_perf_stream_close s).n_closing_uv_handles.toNat →
      (confirmations k (gputop_perf_stream_close s)).closed = false ∧
      on_close_calls (confirmations k (gputop_perf_stream_close s)) = on_close_calls s) ∧
    (confirmations (gputop_perf_stream_close s).n_closing_uv_handles.toNat
      (gputop_perf_stream_close s)).closed = true ∧
    on_close_calls (confirmations (gputop_perf_stream_close s).n_closing_uv_handles.toNat
      (gputop_perf_stream_close s)) = on_close_calls s + 1 := by
  obtain ⟨h1, h2, h3⟩ := close_request_spec s
  by_cases h0 : (gputop_perf_stream_close s).n_closing_uv_handles = 0
  · obtain ⟨a, b⟩ := h2 h0
    rw [h0]
    exact ⟨fun k hk => by simp at hk, a, b⟩
  · obtain ⟨a, b⟩ := h3 h0
    have hpos : 0 < (gputop_perf_stream_close s).n_closing_uv_handles := by omega
    have hj : (gputop_perf_stream_close s).n_closing_uv_handles =
        (((gputop_perf_stream_close s).n_closing_uv_handles.toNat : Nat) : Int) :=
      (Int.toNat_of_nonneg (by omega)).symm
    have hj1 : 0 < (gputop_perf_stream_close s).n_closing_uv_handles.toNat := by omega
    refine ⟨?_, ?_⟩
    · intro k hk
      obtain ⟨e1, e2, _⟩ := confirmations_before k (gputop_perf_stream_close s) _ hj hk
      exact ⟨by rw [e1, a, hopen], by rw [e2, b]⟩
    · obtain ⟨m, hm⟩ : ∃ m, (gputop_perf_stream_close s).n_closing_uv_handles.toNat = m + 1 :=
        ⟨(gputop_perf_stream_close s).n_closing_uv_handles.toNat - 1, by omega⟩
      rw [hm]
      obtain ⟨e1, e2⟩ := confirmations_last m (gputop_perf_stream_close s) (by rw [← hm]; exact hj)
      exact ⟨e1, by rw [e2, b]⟩

/-- Witness for C11: closing a simulated OA stream asks for one handle closure;
right after the request the stream is not closed and nothing was called back,
after the one confirmation it is closed and the callback ran once. -/
theorem stream_close_completes_witness :
    (gputop_perf_stream_close fake_oa_stream_opened).n_closing_uv_handles = 1 ∧
    (gputop_perf_stream_close fake_oa_stream_opened).closed = false ∧
    on_close_calls (gputop_perf_stream_close fake_oa_stream_opened) = 0 ∧
    (confirmations 1 (gputop_perf_stream_close fake_oa_stream_opened)).closed = true ∧
    on_close_calls (confirmations 1 (gputop_perf_stream_close fake_oa_stream_opened)) = 1 := by
  have h := stream_close_completes fake_oa_stream_opened (by decide) (by decide)
  have hn : (gputop_perf_stream_close fake_oa_stream_opened).n_closing_uv_handles = 1 := by
    decide
  rw [hn] at h
  have h0 := h.1 0 (by decide)
  exact ⟨hn, h0.1, h0.2, h.2.1, h.2.2⟩

/-- C12: `gputop_perf_stream_unref` lowers the reference count by one.  When
the count reaches 0 on a stream whose `closed` flag is false the assertion
fails and nothing is freed; when it reaches 0 on a closed stream the destroy
callback is run if one is set and then the stream is freed; when it does not
reach 0 no other field changes.  `closed` is never written, and `free(stream)`
is only ever called on a stream whose `closed` flag is true. -/
theorem stream_unref_spec (s : Stream) :
    (s.ref_count - 1 = 0 → s.closed = false →
      gputop_perf_stream_unref s = Checked.assert_failed { s with ref_count := 0 }) ∧
    (s.ref_count - 1 = 0 → s.closed = true →
      gputop_perf_stream_unref s = Checked.ok
        { s with
          ref_count := 0
          effects := s.effects ++ (if s.destroy_cb then [Effect.destroy_cb] else []) ++
            [Effect.free_stream] }) ∧
    (s.ref_count - 1 ≠ 0 →
      gputop_perf_stream_unref s = Checked.ok { s with ref_count := s.ref_count - 1 }) ∧
    (∀ s', (gputop_perf_stream_unref s = Checked.ok s' ∨
        gputop_perf_stream_unref s = Checked.assert_failed s') →
      s'.ref_count = s.ref_count - 1 ∧ s'.closed = s.closed ∧
      (s'.effects ≠ s.effects → s.closed = true)) := by
  unfold gputop_perf_stream_unref
  refine ⟨?_, ?_, ?_, ?_⟩
  · intro h0 hc
    simp [h0, hc]
  · intro h0 hc
    cases hd : s.destroy_cb <;> simp [h0, hc, hd]
  · intro h0
    simp [h0]
  · intro s' h
    by_cases h0 : s.ref_count - 1 = 0
    · cases hc : s.closed
      · simp only [h0, hc, if_true, Bool.false_eq_true, if_false] at h
        rcases h with h | h
        · cases h
        · simp only [Checked.assert_failed.injEq] at h
          subst h
          simp [h0]
      · simp only [h0, hc, if_true] at h
        rcases h with h | h
        · simp only [Checked.ok.injEq] at h
          subst h
          cases hd : s.destroy_cb <;> simp [h0]
        · cases h
    · simp only [h0, if_false] at h
      rcases h with h | h
      · simp only [Checked.ok.injEq] at h
        subst h
        simp
      · cases h

/-- Witness for C12: dropping the only reference of a simulated OA stream that
was never closed fails the assertion with nothing freed; after the close has
completed the same call runs the destroy callback and frees the stream. -/
theorem stream_unref_spec_witness :
    gputop_perf_stream_unref fake_oa_stream_opened =
      Checked.assert_failed { fake_oa_stream_opened with ref_count := 0 } ∧
    gputop_perf_stream_unref (confirmations 1 (gputop_perf_stream_close fake_oa_stream_opened)) =
      Checked.ok
        { confirmations 1 (gputop_perf_stream_close fake_oa_stream_opened) with
          ref_count := 0
          effects := [Effect.uv_close_fd_timer, Effect.free_oa_buf 0, Effect.free_oa_buf 1,
            Effect.on_close_cb, Effect.destroy_cb, Effect.free_stream] } :=
  ⟨(stream_unref_spec fake_oa_stream_opened).1 (by decide) (by decide),
   (stream_unref_spec (confirmations 1 (gputop_perf_stream_close fake_oa_stream_opened))).2.1
     (by decide) (by decide)⟩

/-- C13: a call of `gputop_perf_fake_read` at elapsed time `T = now -
start_time` with a buffer of `L` bytes, on a stream with `period > 0` and
`gen_so_far <= T / period` (the count not wrapping in its field), generates
exactly `min (T / period - gen_so_far) (L / 264)` records, returns 264 times
that number and adds that number to `gen_so_far`; the new `gen_so_far` never
exceeds `T / period` and equals it when the buffer did not cap the count. -/
theorem fake_read_record_count (d : FakeDecls) (now : Nat) (s : FakeStream) (L : Nat)
    (hperiod : 0 < s.period) (hL : L < 2 ^ 31)
    (hgen : s.gen_so_far ≤ sub64 now s.start_time / s.period)
    (hwidth : s.gen_so_far +
      min (sub64 now s.start_time / s.period - s.gen_so_far) (L / 264) < d.gen_so_far_mod) :
    (gputop_perf_fake_read d now s (L : Int)).2.1.length =
      min (sub64 now s.start_time / s.period - s.gen_so_far) (L / 264) ∧
    (gputop_perf_fake_read d now s (L : Int)).2.2 =
      ((264 * min (sub64 now s.start_time / s.period - s.gen_so_far) (L / 264) : Nat) : Int) ∧
    (gputop_perf_fake_read d now s (L : Int)).1.gen_so_far =
      s.gen_so_far + min (sub64 now s.start_time / s.period - s.gen_so_far) (L / 264) ∧
    (gputop_perf_fake_read d now s (L : Int)).1.gen_so_far ≤ sub64 now s.start_time / s.period ∧
    (sub64 now s.start_time / s.period - s.gen_so_far ≤ L / 264 →
      (gputop_perf_fake_read d now s (L : Int)).1.gen_so_far =
        sub64 now s.start_time / s.period) := by
  have hn := records_to_gen_eq now s L hL hgen
  have hg := fake_generate_gen_so_far d (records_to_gen now s (L : Int)) s (by rw [hn]; exact hwidth)
  have hlen := fake_generate_length d (records_to_gen now s (L : Int)) s
  have hle : 264 * (L / 264) ≤ L := Nat.mul_div_le L 264
  simp only [gputop_perf_fake_read]
  rw [hn] at hg hlen ⊢
  have hsz : REPORT_LAYOUT_SIZE = 264 := rfl
  have hb : (REPORT_LAYOUT_SIZE *
      min (sub64 now s.start_time / s.period - s.gen_so_far) (L / 264)) % U32 =
      264 * min (sub64 now s.start_time / s.period - s.gen_so_far) (L / 264) := by
    rw [hsz]
    apply Nat.mod_eq_of_lt
    unfold U32
    omega
  refine ⟨hlen, ?_, hg, ?_, ?_⟩
  · rw [hb, if_pos (by omega)]
  · rw [hg]; omega
  · intro h; rw [hg]; omega

/-- Witness for C13: period exponent 0 gives period 160; 1000 time units after
opening, a read into the 26400-byte buffer generates 6 records, returns 1584
and leaves `gen_so_far = 6`. -/
theorem fake_read_record_count_witness :
    (open_fake_stream 0 1000 5 7).period = 160 ∧
    (gputop_perf_fake_read fake_decls_u32 2000 (open_fake_stream 0 1000 5 7) 26400).2.1.length = 6 ∧
    (gputop_perf_fake_read fake_decls_u32 2000 (open_fake_stream 0 1000 5 7) 26400).2.2 = 1584 ∧
    (gputop_perf_fake_read fake_decls_u32 2000 (open_fake_stream 0 1000 5 7) 26400).1.gen_so_far
      = 6 := by
  have h := fake_read_record_count fake_decls_u32 2000 (open_fake_stream 0 1000 5 7) 26400
    (by decide) (by decide) (by decide) (by decide)
  exact ⟨by decide, h.1, h.2.1, h.2.2.1⟩

/-- C14 (counterexample): with period 160 and the clock value 100 ticks below
`2 ^ 32`, one call generates two reports whose `clock_ticks` are
`4294967276` and `60`: the second is smaller than the first. -/
theorem fake_read_clock_ticks_wrap :
    fake_stream_near_wrap.period / 2 = 80 ∧
    (gputop_perf_fake_read fake_decls_u32 320 fake_stream_near_wrap 26400).2.1.map
      (fun r => r.clock_ticks) = [4294967276, 60] := by
  decide

/-- C14 (amended): over all the reports one simulated stream generates, within
a call and across calls, starting from the stream's `prev_clocks`, each
`clock_ticks` is the previous one plus `period / 2` reduced modulo `2 ^ 32`
(`clock_ticks` is a 32-bit field); whenever that sum stays below `2 ^ 32` it is
strictly greater than the previous one and exceeds it by exactly
`period / 2`. -/
theorem fake_reads_clock_ticks (d : FakeDecls) (s : FakeStream) (calls : List (Nat × Int))
    (hp : 2 ≤ s.period) :
    List.Chain
      (fun a b => b = (a + s.period / 2) % 2 ^ 32 ∧
        (a + s.period / 2 < 2 ^ 32 → a < b ∧ b - a = s.period / 2))
      s.prev_clocks ((fake_reads d s calls).2.map (fun r => r.clock_ticks)) := by
  refine List.Chain.imp ?_ (fake_reads_clock_chain d calls s).1
  intro a b hab
  have hU : U32 = 2 ^ 32 := rfl
  rw [hU, Nat.add_comm] at hab
  refine ⟨hab, ?_⟩
  intro hlt
  rw [Nat.mod_eq_of_lt hlt] at hab
  have : 1 ≤ s.period / 2 := Nat.div_pos hp (by decide)
  omega

/-- Witness for C14: two calls on a stream opened with period exponent 0 and
clock value 5 generate reports with `clock_ticks` 85, 165, 245 (first call) and
325 (second call). -/
theorem fake_reads_clock_ticks_witness :
    (fake_reads fake_decls_u32 (open_fake_stream 0 1000 5 7) [(1500, 26400), (1700, 26400)]).2.map
      (fun r => r.clock_ticks) = [85, 165, 245, 325] ∧
    List.Chain
      (fun a b => b = (a + 160 / 2) % 2 ^ 32 ∧ (a + 160 / 2 < 2 ^ 32 → a < b ∧ b - a = 160 / 2))
      5 [85, 165, 245, 325] := by
  have h := fake_reads_clock_ticks fake_decls_u32 (open_fake_stream 0 1000 5 7)
    [(1500, 26400), (1700, 26400)] (by decide)
  have hl : (fake_reads fake_decls_u32 (open_fake_stream 0 1000 5 7)
      [(1500, 26400), (1700, 26400)]).2.map (fun r => r.clock_ticks) = [85, 165, 245, 325] := by
    decide
  rw [hl] at h
  exact ⟨hl, h⟩

/-- C15: once the write position of a CPU-stats stream has reached the buffer
length, in bounded mode every later tick writes no row and leaves the position
where it is; in overwrite mode the tick in which the position reaches the
length resets it to 0, and the next tick writes its row at offset 0. -/
theorem log_cpu_stats_cb_buffer_end (s : CpuStream) :
    (s.overwrite = false → s.stats_buf_len ≤ s.stats_buf_pos →
      ∀ ns, (cpu_ticks ns s).stats_buf_pos = s.stats_buf_pos ∧
        (cpu_ticks ns s).writes = s.writes) ∧
    (s.overwrite = true → ∀ n,
      s.stats_buf_len ≤ (if s.stats_buf_pos < s.stats_buf_len then s.stats_buf_pos + n
        else s.stats_buf_pos) →
      (log_cpu_stats_cb n s).stats_buf_pos = 0 ∧
      (0 < s.stats_buf_len → ∀ n', (log_cpu_stats_cb n' (log_cpu_stats_cb n s)).writes =
        (log_cpu_stats_cb n s).writes ++ [(0, n')])) := by
  refine ⟨fun hov hfull ns => cpu_ticks_stopped ns s hov hfull, ?_⟩
  intro hov n hreach
  have hstep : log_cpu_stats_cb n s =
      { s with
        writes := if s.stats_buf_pos < s.stats_buf_len then s.writes ++ [(s.stats_buf_pos, n)]
          else s.writes
        stats_buf_pos := 0
        stats_buf_full := true } := by
    unfold log_cpu_stats_cb
    by_cases h1 : s.stats_buf_pos < s.stats_buf_len
    · simp only [h1, if_true] at hreach
      simp [h1, hreach, hov]
    · simp only [h1, if_false] at hreach
      simp [h1, hreach, hov]
  refine ⟨by rw [hstep], ?_⟩
  intro hlen n'
  rw [hstep]
  unfold log_cpu_stats_cb
  simp only [hlen, if_true]
  split_ifs <;> rfl

/-- Witness for C15: with 4 CPUs and a 10-row buffer the position reaches 12
at the third tick; in bounded mode two more ticks change neither the position
nor the rows written, in overwrite mode the position is 0 after the third tick
and the fourth tick writes at offset 0. -/
theorem log_cpu_stats_cb_buffer_end_witness :
    ((cpu_ticks [4, 4] (cpu_ticks [4, 4, 4] (gputop_perf_open_cpu_stats 4 false 100))).stats_buf_pos
        = 12 ∧
      (cpu_ticks [4, 4] (cpu_ticks [4, 4, 4] (gputop_perf_open_cpu_stats 4 false 100))).writes
        = [(0, 4), (4, 4), (8, 4)]) ∧
    ((cpu_ticks [4, 4, 4] (gputop_perf_open_cpu_stats 4 true 100)).stats_buf_pos = 0 ∧
      (cpu_ticks [4, 4, 4, 4] (gputop_perf_open_cpu_stats 4 true 100)).writes
        = [(0, 4), (4, 4), (8, 4), (0, 4)]) := by
  have hb := (log_cpu_stats_cb_buffer_end
    (cpu_ticks [4, 4, 4] (gputop_perf_open_cpu_stats 4 false 100))).1
    (by decide) (by decide) [4, 4]
  have ho := (log_cpu_stats_cb_buffer_end
    (cpu_ticks [4, 4] (gputop_perf_open_cpu_stats 4 true 100))).2
    (by decide) 4 (by decide)
  refine ⟨⟨?_, ?_⟩, ?_, ?_⟩
  · rw [hb.1]; decide
  · rw [hb.2]; decide
  · exact ho.1
  · have := ho.2 (by decide) 4
    simpa [cpu_ticks] using this

/-- C16: for a CPU-stats stream opened with `sample_period_ms > 0`, "data
pending" is false before any timer tick; the first tick writes a row, and
after it and after every later tick "data pending" is true, in bounded and in
overwrite mode, whatever the position (also right after it wrapped to 0), as
long as every tick sees at least one CPU. -/
theorem cpu_stream_data_pending (gputop_fake_mode : Bool) (now : Nat) (poll_in : Bool)
    (n_cpus : Int) (overwrite : Bool) (sample_period_ms : Nat) (hperiod : 0 < sample_period_ms) :
    gputop_stream_data_pending gputop_fake_mode now poll_in
      (AnyStream.cpu (gputop_perf_open_cpu_stats n_cpus overwrite sample_period_ms)) = false ∧
    ∀ (n : Int) (ns : List Int), 1 ≤ n → (∀ m ∈ ns, 1 ≤ m) →
      (log_cpu_stats_cb n (gputop_perf_open_cpu_stats n_cpus overwrite sample_period_ms)).writes
        = [(0, n)] ∧
      gputop_stream_data_pending gputop_fake_mode now poll_in
        (AnyStream.cpu (cpu_ticks (n :: ns)
          (gputop_perf_open_cpu_stats n_cpus overwrite sample_period_ms))) = true := by
  refine ⟨by simp [gputop_stream_data_pending, gputop_perf_open_cpu_stats], ?_⟩
  intro n ns hn hns
  have hlen : (0 : Int) < ((max 10 (1000 / sample_period_ms) : Nat) : Int) := by
    have : 10 ≤ max 10 (1000 / sample_period_ms) := le_max_left _ _
    omega
  constructor
  · unfold log_cpu_stats_cb gputop_perf_open_cpu_stats
    simp only [hlen, if_true]
    split_ifs <;> simp
  · obtain ⟨a, b⟩ := log_cpu_stats_cb_pending n
      (gputop_perf_open_cpu_stats n_cpus overwrite sample_period_ms) hn (le_refl _)
    obtain ⟨_, d⟩ := cpu_ticks_pending ns _ hns a b
    simp only [gputop_stream_data_pending, cpu_ticks]
    rcases d with d | d
    · have : (cpu_ticks ns (log_cpu_stats_cb n
          (gputop_perf_open_cpu_stats n_cpus overwrite sample_period_ms))).stats_buf_pos ≠ 0 := by
        omega
      simp [this]
    · simp [d]

/-- Witness for C16: with 4 CPUs, a 10-row buffer and overwrite mode, "data
pending" is false on the fresh stream and true after three ticks, when the
position has just wrapped to 0. -/
theorem cpu_stream_data_pending_witness :
    gputop_stream_data_pending false 0 false
      (AnyStream.cpu (gputop_perf_open_cpu_stats 4 true 100)) = false ∧
    (cpu_ticks [4, 4, 4] (gputop_perf_open_cpu_stats 4 true 100)).stats_buf_pos = 0 ∧
    gputop_stream_data_pending false 0 false
      (AnyStream.cpu (cpu_ticks [4, 4, 4] (gputop_perf_open_cpu_stats 4 true 100))) = true := by
  have h := cpu_stream_data_pending false 0 false 4 true 100 (by decide)
  exact ⟨h.1, by decide, (h.2 4 [4, 4] (by decide) (by decide)).2⟩

/-- C17: in the Sample case with a previous report, let the accumulator code
return `(accepted, acc)`.  If the pairing was accepted, an update is forwarded
exactly when `acc.last_timestamp - acc.first_timestamp` (64-bit unsigned)
exceeds `aggregation_period` or one of the two context-switch flags is set in
`acc.flags`; its begin call carries the reason context-switch-away (4) when
that flag is set, else context-switch-to (2) when that flag is set, else
period-elapsed (1), and the accumulator is cleared right after.  Otherwise, and
whenever the pairing was rejected, nothing is sent to the sink and the
accumulator is left as the accumulator code returned it. -/
theorem handle_sample_emission (api : AccumulatorApi) (stream : WebcStream)
    (last report : Report) (accepted : Bool) (acc : Accumulator)
    (hacc : api.gputop_oa_accumulate_reports stream.oa_accumulator last report
      stream.per_ctx_mode = (accepted, acc)) :
    (accepted = true →
      (stream.aggregation_period < sub64 acc.last_timestamp acc.first_timestamp ∨
        acc.flags &&& api.GPUTOP_ACCUMULATOR_CTX_SW_TO_SEEN ≠ 0 ∨
        acc.flags &&& api.GPUTOP_ACCUMULATOR_CTX_SW_FROM_SEEN ≠ 0) →
      (handle_sample api stream (some last) report).sink =
        (forward_stream_update { stream with oa_accumulator := acc }
          (if acc.flags &&& api.GPUTOP_ACCUMULATOR_CTX_SW_FROM_SEEN ≠ 0 then
            UPDATE_REASON_CTX_SWITCH_AWAY
          else if acc.flags &&& api.GPUTOP_ACCUMULATOR_CTX_SW_TO_SEEN ≠ 0 then
            UPDATE_REASON_CTX_SWITCH_TO
          else UPDATE_REASON_PERIOD)).sink ∧
      (∃ rest, (handle_sample api stream (some last) report).sink =
        stream.sink ++ SinkEvent.start_update acc.first_timestamp acc.last_timestamp
          (if acc.flags &&& api.GPUTOP_ACCUMULATOR_CTX_SW_FROM_SEEN ≠ 0 then 4
          else if acc.flags &&& api.GPUTOP_ACCUMULATOR_CTX_SW_TO_SEEN ≠ 0 then 2
          else 1) :: rest) ∧
      (handle_sample api stream (some last) report).oa_accumulator =
        api.gputop_oa_accumulator_clear acc) ∧
    (accepted = true →
      ¬ (stream.aggregation_period < sub64 acc.last_timestamp acc.first_timestamp ∨
        acc.flags &&& api.GPUTOP_ACCUMULATOR_CTX_SW_TO_SEEN ≠ 0 ∨
        acc.flags &&& api.GPUTOP_ACCUMULATOR_CTX_SW_FROM_SEEN ≠ 0) →
      (handle_sample api stream (some last) report).sink = stream.sink ∧
      (handle_sample api stream (some last) report).oa_accumulator = acc) ∧
    (accepted = false →
      (handle_sample api stream (some last) report).sink = stream.sink ∧
      (handle_sample api stream (some last) report).oa_accumulator = acc) := by
  refine ⟨?_, ?_, ?_⟩
  · intro ha hemit
    subst ha
    have hreason : (if acc.flags &&& api.GPUTOP_ACCUMULATOR_CTX_SW_FROM_SEEN ≠ 0 then
          UPDATE_REASON_CTX_SWITCH_AWAY
        else if acc.flags &&& api.GPUTOP_ACCUMULATOR_CTX_SW_TO_SEEN ≠ 0 then
          UPDATE_REASON_CTX_SWITCH_TO
        else if stream.aggregation_period < sub64 acc.last_timestamp acc.first_timestamp then
          UPDATE_REASON_PERIOD else 0) =
        (if acc.flags &&& api.GPUTOP_ACCUMULATOR_CTX_SW_FROM_SEEN ≠ 0 then
          UPDATE_REASON_CTX_SWITCH_AWAY
        else if acc.flags &&& api.GPUTOP_ACCUMULATOR_CTX_SW_TO_SEEN ≠ 0 then
          UPDATE_REASON_CTX_SWITCH_TO
        else UPDATE_REASON_PERIOD) := by
      split_ifs <;> first | rfl | (exfalso; tauto)
    have hne : (if acc.flags &&& api.GPUTOP_ACCUMULATOR_CTX_SW_FROM_SEEN ≠ 0 then
          UPDATE_REASON_CTX_SWITCH_AWAY
        else if acc.flags &&& api.GPUTOP_ACCUMULATOR_CTX_SW_TO_SEEN ≠ 0 then
          UPDATE_REASON_CTX_SWITCH_TO
        else UPDATE_REASON_PERIOD) ≠ 0 := by
      split_ifs <;> decide
    have hsink : (handle_sample api stream (some last) report) =
        { forward_stream_update { stream with oa_accumulator := acc }
            (if acc.flags &&& api.GPUTOP_ACCUMULATOR_CTX_SW_FROM_SEEN ≠ 0 then
              UPDATE_REASON_CTX_SWITCH_AWAY
            else if acc.flags &&& api.GPUTOP_ACCUMULATOR_CTX_SW_TO_SEEN ≠ 0 then
              UPDATE_REASON_CTX_SWITCH_TO
            else UPDATE_REASON_PERIOD) with
          oa_accumulator := api.gputop_oa_accumulator_clear
            (forward_stream_update { stream with oa_accumulator := acc }
              (if acc.flags &&& api.GPUTOP_ACCUMULATOR_CTX_SW_FROM_SEEN ≠ 0 then
                UPDATE_REASON_CTX_SWITCH_AWAY
              else if acc.flags &&& api.GPUTOP_ACCUMULATOR_CTX_SW_TO_SEEN ≠ 0 then
                UPDATE_REASON_CTX_SWITCH_TO
              else UPDATE_REASON_PERIOD)).oa_accumulator } := by
      rw [← hreason] at hne ⊢
      simp only [handle_sample, hacc, if_true]
      split_ifs at hne ⊢ <;> rfl
    obtain ⟨f1, f2, _, _⟩ := forward_stream_update_sink { stream with oa_accumulator := acc }
      (if acc.flags &&& api.GPUTOP_ACCUMULATOR_CTX_SW_FROM_SEEN ≠ 0 then
        UPDATE_REASON_CTX_SWITCH_AWAY
      else if acc.flags &&& api.GPUTOP_ACCUMULATOR_CTX_SW_TO_SEEN ≠ 0 then
        UPDATE_REASON_CTX_SWITCH_TO
      else UPDATE_REASON_PERIOD)
    rw [hsink]
    refine ⟨rfl, ⟨(List.range stream.oa_metric_set.n_counters.toNat).map
      (counter_event { stream with oa_accumulator := acc }) ++ [SinkEvent.end_update], ?_⟩, ?_⟩
    · simp only []
      rw [f1]
      simp only [UPDATE_REASON_CTX_SWITCH_AWAY, UPDATE_REASON_CTX_SWITCH_TO, UPDATE_REASON_PERIOD]
    · simp only []
      rw [f2]
  · intro ha hno
    subst ha
    have h1 : ¬ stream.aggregation_period < sub64 acc.last_timestamp acc.first_timestamp :=
      fun h => hno (Or.inl h)
    have h2 : ¬ acc.flags &&& api.GPUTOP_ACCUMULATOR_CTX_SW_TO_SEEN ≠ 0 :=
      fun h => hno (Or.inr (Or.inl h))
    have h3 : ¬ acc.flags &&& api.GPUTOP_ACCUMULATOR_CTX_SW_FROM_SEEN ≠ 0 :=
      fun h => hno (Or.inr (Or.inr h))
    simp only [handle_sample, hacc, if_true, h1, h2, h3, if_false, ne_eq, not_true_eq_false,
      and_self]
  · intro ha
    subst ha
    simp only [handle_sample, hacc, Bool.false_eq_true, if_false, and_self]

/-- Witness for C17: with the stand-in accumulator code, a window from 100 to
5000 exceeds the aggregation period 1000 with no flag set, so the update is
forwarded with reason period-elapsed (1) and the accumulator is cleared. -/
theorem handle_sample_emission_witness :
    (∃ rest, (handle_sample test_api (three_counter_stream (accumulator_with 100 200 0))
        (some (fun _ => 0)) (fun i => if i = 0 then 5000 else 0)).sink =
      SinkEvent.start_update 100 5000 1 :: rest) ∧
    (handle_sample test_api (three_counter_stream (accumulator_with 100 200 0))
        (some (fun _ => 0)) (fun i => if i = 0 then 5000 else 0)).oa_accumulator.last_timestamp
      = 0 := by
  have h := (handle_sample_emission test_api (three_counter_stream (accumulator_with 100 200 0))
    (fun _ => 0) (fun i => if i = 0 then 5000 else 0) true
    { accumulator_with 100 200 0 with last_timestamp := 5000, flags := 0 } rfl).1 rfl
    (Or.inl (by decide))
  obtain ⟨_, ⟨rest, hrest⟩, hclear⟩ := h
  exact ⟨⟨rest, hrest⟩, by rw [hclear]; rfl⟩

/-- C18: for a metric set whose counters all have data type UINT64 or FLOAT,
what `forward_stream_update` appends to the sink is one
`start_update (first_timestamp, last_timestamp, reason)`, then for
`i = 0, 1, ..., n_counters - 1` in this order one `update_counter` with index
`i`, then one `end_update`, and nothing else; no console assertion fails. -/
theorem forward_stream_update_sequence (s : WebcStream) (reason : Nat)
    (htypes : ∀ i, i < s.oa_metric_set.n_counters.toNat →
      (s.oa_metric_set.counters i).data_type = .GPUTOP_PERFQUERY_COUNTER_DATA_UINT64 ∨
      (s.oa_metric_set.counters i).data_type = .GPUTOP_PERFQUERY_COUNTER_DATA_FLOAT) :
    (forward_stream_update s reason).sink =
      s.sink ++
        [SinkEvent.start_update s.oa_accumulator.first_timestamp
          s.oa_accumulator.last_timestamp reason] ++
        (List.range s.oa_metric_set.n_counters.toNat).map
          (fun i => SinkEvent.update_counter i (counter_max s i) (counter_value s i)) ++
        [SinkEvent.end_update] ∧
    ((List.range s.oa_metric_set.n_counters.toNat).map
      (fun i => SinkEvent.update_counter i (counter_max s i) (counter_value s i))).length =
      s.oa_metric_set.n_counters.toNat ∧
    console_asserts (forward_stream_update s reason) = console_asserts s := by
  refine ⟨?_, by simp, forward_stream_update_console s reason htypes⟩
  rw [(forward_stream_update_sink s reason).1]
  simp [counter_event]

/-- Witness for C18: the three-counter set (UINT64, UINT64, FLOAT) forwards
begin, the updates 0, 1, 2 and end. -/
theorem forward_stream_update_sequence_witness :
    (forward_stream_update (three_counter_stream (accumulator_with 100 200 0)) 1).sink =
      [SinkEvent.start_update 100 200 1,
        SinkEvent.update_counter 0 0 (SinkValue.of_uint 5),
        SinkEvent.update_counter 1 0 (SinkValue.of_uint 9007199254740991),
        SinkEvent.update_counter 2 100 (SinkValue.of_float { bits := 1065353216 }),
        SinkEvent.end_update] ∧
    console_asserts (forward_stream_update (three_counter_stream (accumulator_with 100 200 0)) 1)
      = 0 := by
  have h := forward_stream_update_sequence (three_counter_stream (accumulator_with 100 200 0)) 1
    (by
      intro i hi
      have hi3 : i < 3 := hi
      interval_cases i <;> simp [three_counter_stream, three_counter_set, uint64_counter,
        float_counter])
  exact ⟨h.1.trans (by decide), h.2.2.trans (by decide)⟩

/-- C19: for a counter of data type UINT64 whose read function returns the
64-bit value `v`, the value handed to the update sink is `min v (2 ^ 53 - 1)`:
`v` itself when `v ≤ 2 ^ 53 - 1`, with nothing written to the console, and
exactly `2 ^ 53 - 1` otherwise, with one error line naming the counter; no
assertion fails in either case, and within `forward_stream_update` this is the
call made at position `i` after the begin call. -/
theorem forward_counter_clamps (s : WebcStream) (i v : Nat)
    (hdt : (s.oa_metric_set.counters i).data_type = .GPUTOP_PERFQUERY_COUNTER_DATA_UINT64)
    (hv : (s.oa_metric_set.counters i).oa_counter_read_uint64 s.oa_accumulator.deltas = v)
    (hv64 : v < 2 ^ 64) :
    (forward_counter i s).sink =
      s.sink ++ [SinkEvent.update_counter i (counter_max s i)
        (SinkValue.of_uint (min v (2 ^ 53 - 1)))] ∧
    (v ≤ 2 ^ 53 - 1 → min v (2 ^ 53 - 1) = v ∧ (forward_counter i s).console = s.console) ∧
    (2 ^ 53 - 1 < v → min v (2 ^ 53 - 1) = 2 ^ 53 - 1 ∧
      (forward_counter i s).console =
        s.console ++ [ConsoleEvent.error (s.oa_metric_set.counters i).symbol_name]) ∧
    console_asserts (forward_counter i s) = console_asserts s ∧
    (∀ reason, i < s.oa_metric_set.n_counters.toNat →
      (forward_stream_update s reason).sink[s.sink.length + 1 + i]? =
        some (SinkEvent.update_counter i (counter_max s i)
          (SinkValue.of_uint (min v (2 ^ 53 - 1))))) := by
  have hmod : v % U64 = v := Nat.mod_eq_of_lt (by unfold U64; omega)
  have hval : counter_value s i = SinkValue.of_uint (min v (2 ^ 53 - 1)) := by
    simp only [counter_value, hdt, hv, hmod]
  refine ⟨?_, ?_, ?_, ?_, ?_⟩
  · rw [forward_counter_sink, counter_event, hval]
  · intro hle
    refine ⟨Nat.min_eq_left hle, ?_⟩
    have hno : ¬ JS_MAX_SAFE_INTEGER < v := by rw [JS_MAX_SAFE_INTEGER_eq]; omega
    simp only [forward_counter, hdt, hv, hmod, hno, if_false]
  · intro hgt
    refine ⟨Nat.min_eq_right (le_of_lt hgt), ?_⟩
    have hyes : JS_MAX_SAFE_INTEGER < v := by rw [JS_MAX_SAFE_INTEGER_eq]; omega
    simp only [forward_counter, hdt, hv, hmod, hyes, if_true]
  · exact forward_counter_console i s (Or.inl hdt)
  · intro reason hi
    rw [(forward_stream_update_sink s reason).1, ← hval,
      List.getElem?_append_right (by omega)]
    have hidx : s.sink.length + 1 + i - s.sink.length = i + 1 := by omega
    rw [hidx, List.getElem?_cons_succ, List.getElem?_append_left (by simpa using hi),
      List.getElem?_map, List.getElem?_range hi]
    rfl

/-- Witness for C19: the counter at index 1 of the three-counter set reads
`2 ^ 60`; the sink receives `2 ^ 53 - 1 = 9007199254740991` and the console one
error line. -/
theorem forward_counter_clamps_witness :
    (forward_counter 1 (three_counter_stream (accumulator_with 100 200 0))).sink =
      [SinkEvent.update_counter 1 0 (SinkValue.of_uint 9007199254740991)] ∧
    (forward_counter 1 (three_counter_stream (accumulator_with 100 200 0))).console =
      [ConsoleEvent.error "B"] := by
  have h := forward_counter_clamps (three_counter_stream (accumulator_with 100 200 0)) 1 (2 ^ 60)
    rfl rfl (by norm_num)
  exact ⟨h.1.trans (by decide), (h.2.2.1 (by norm_num)).2.trans rfl⟩

/-- C20 (the code's behaviour): on the 32-byte message made of one 16-byte
Sample record followed by a header that declares size 0, the loop of
`gputop_webc_handle_i915_perf_message` never leaves offset 16: whatever bound
is put on the number of iterations, the function has not returned when the
bound is reached. -/
theorem handle_i915_perf_message_zero_size_never_returns (api : AccumulatorApi) (fuel : Nat)
    (stream : WebcStream) :
    (0 : Int) ≤ message_with_zero_size_header.len ∧
    (message_with_zero_size_header.header 16).size = 0 ∧
    gputop_webc_handle_i915_perf_message api fuel stream message_with_zero_size_header =
      Outcome.out_of_fuel := by
  refine ⟨by decide, by decide, ?_⟩
  have hloop : ∀ (st : WebcStream) (last : Option Report),
      message_loop api message_with_zero_size_header fuel 0 st last = LoopEnd.out_of_fuel := by
    intro st last
    cases fuel with
    | zero => simp [message_loop, message_with_zero_size_header]
    | succ n =>
      rw [message_loop]
      have h16 := message_loop_stuck api n
      simp only [message_with_zero_size_header, DRM_I915_PERF_RECORD_OA_BUFFER_LOST,
        DRM_I915_PERF_RECORD_OA_REPORT_LOST, DRM_I915_PERF_RECORD_SAMPLE, U16] at h16 ⊢
      norm_num
      exact h16 _ _
  unfold gputop_webc_handle_i915_perf_message
  simp only [hloop]


/-- C21: for every metric set and every name, `gputop_webc_get_counter_id`
returns (its loop ends within `n_counters` iterations) a value `r` such that
`r = -1` exactly when no counter with index in `[0, n_counters)` has that
`symbol_name`, and otherwise `r` is the smallest index in `[0, n_counters)`
whose counter has that `symbol_name`. -/
theorem get_counter_id_smallest_index (metric_set : MetricSet) (name : String) :
    ∃ r : Int,
      (∀ fuel, metric_set.n_counters.toNat ≤ fuel →
        gputop_webc_get_counter_id fuel metric_set name = some r) ∧
      (r = -1 ↔ ∀ u : Nat, (u : Int) < metric_set.n_counters →
        (metric_set.counters u).symbol_name ≠ name) ∧
      (r ≠ -1 → ∃ u : Nat, r = (u : Int) ∧ (u : Int) < metric_set.n_counters ∧
        (metric_set.counters u).symbol_name = name ∧
        ∀ v, v < u → (metric_set.counters v).symbol_name ≠ name) := by
  obtain ⟨r, hr, h1, h2⟩ := get_counter_id_loop_spec metric_set name
    metric_set.n_counters.toNat 0 (by omega) (fun u hu => absurd hu (Nat.not_lt_zero u))
  refine ⟨r, ?_, h1, h2⟩
  intro fuel hfuel
  obtain ⟨r', hr', h1', h2'⟩ := get_counter_id_loop_spec metric_set name fuel 0 (by omega)
    (fun u hu => absurd hu (Nat.not_lt_zero u))
  have hrr : r' = r := by
    by_cases hm : r = -1
    · rw [hm]; exact h1'.2 (h1.1 hm)
    · have hm' : r' ≠ -1 := fun h => hm (h1.2 (h1'.1 h))
      obtain ⟨u, hu, _, hun, humin⟩ := h2 hm
      obtain ⟨u', hu', _, hun', humin'⟩ := h2' hm'
      have : u = u' := by
        rcases Nat.lt_trichotomy u u' with h | h | h
        · exact absurd hun (humin' u h)
        · exact h
        · exact absurd hun' (humin u' h)
      rw [hu, hu', this]
  unfold gputop_webc_get_counter_id
  rw [hr', hrr]

/-- Witness for C21: in the three-counter set ("A", "B", "C") the name "B" has
id 1 and the name "D" has id -1. -/
theorem get_counter_id_smallest_index_witness :
    gputop_webc_get_counter_id 3 three_counter_set "B" = some 1 ∧
    gputop_webc_get_counter_id 3 three_counter_set "D" = some (-1) ∧
    ∃ r : Int, gputop_webc_get_counter_id 3 three_counter_set "B" = some r ∧ r ≠ -1 := by
  obtain ⟨r, hr, h1, _⟩ := get_counter_id_smallest_index three_counter_set "B"
  have h3 := hr 3 (by decide)
  have hB : gputop_webc_get_counter_id 3 three_counter_set "B" = some 1 := by decide
  refine ⟨hB, by decide, r, h3, ?_⟩
  rw [hB] at h3
  cases h3
  decide

/-- C22 (counterexample): after the first wake-up the tracker of the 128-byte
ring is full with tail index 1, whose slot holds offset 48.  The next record
lies at offset 16 with size 32, so it ends exactly at 48, where the tracked
record begins (the normalised offset is `48 = 16 + 32`); the call nevertheless
moves the tail to index 2, past that record. -/
theorem update_header_offsets_evicts_record_at_new_end :
    (run_updates 10 (open_perf_stream 128 4 (fun _ => 0))
        (wakeups_record_ends_at_tracked.take 1)).map
      (fun s => (s.header_buf.full, s.header_buf.tail, s.header_buf.offsets 1))
      = some (true, 1, 48) ∧
    normalised_offset 128 16 48 = 16 + 32 ∧
    (run_updates 10 (open_perf_stream 128 4 (fun _ => 0))
        wakeups_record_ends_at_tracked).map
      (fun s => (s.header_buf.tail, s.header_buf.offsets 1)) = some (2, 48) := by
  refine ⟨?_, ?_, ?_⟩ <;> decide

/-- C22 (amended): with `full` set, for a new record at offset `p` with size
`r` and a tracker whose entries are offsets inside the ring, the eviction loop
stops at a tail index exactly when the end `p + r` of the new record is
strictly below the normalised tracked offset there (`o + buffer_size` when
`o < p`); so a run of the loop that returns has advanced the tail past every
tracked offset whose normalised value is at most `p + r`, equality included,
and stands on the first one strictly beyond `p + r`; and the loop returns as
soon as such an entry exists. -/
theorem evict_loop_stops_strictly_ahead (offsets : Nat → Nat) (len buffer_size p r : Nat)
    (hoff : ∀ i, offsets i < buffer_size) (hbs : 2 * buffer_size ≤ 2 ^ 32)
    (hp : p < buffer_size) (hr : r < 2 ^ 16) :
    (∀ t, nothing_eaten offsets len buffer_size p r t = true ↔
      p + r < normalised_offset buffer_size p (offsets (t % len))) ∧
    (∀ fuel t t', evict_loop offsets len buffer_size p r fuel t = some t' →
      ∃ k, k < fuel ∧ t' = advance_head t k ∧
        (∀ j, j < k →
          normalised_offset buffer_size p (offsets (advance_head t j % len)) ≤ p + r) ∧
        p + r < normalised_offset buffer_size p (offsets (t' % len))) ∧
    (∀ k t, p + r < normalised_offset buffer_size p (offsets (advance_head t k % len)) →
      ∃ t', evict_loop offsets len buffer_size p r (k + 1) t = some t') :=
  ⟨nothing_eaten_iff offsets len buffer_size p r hoff hbs hp hr,
    evict_loop_sound offsets len buffer_size p r hoff hbs hp hr,
    evict_loop_returns offsets len buffer_size p r hoff hbs hp hr⟩

/-- Witness for C22 (amended): on the tracker array left by the first wake-up,
for the new record at offset 16 with size 32, the loop does not stop at tail
index 1 (offset 48, equal to the record's end), stops at index 2 (offset 96),
and returns within two iterations. -/
theorem evict_loop_stops_strictly_ahead_witness :
    ¬ nothing_eaten offsets_after_first_wakeup 4 128 16 32 1 = true ∧
    nothing_eaten offsets_after_first_wakeup 4 128 16 32 2 = true ∧
    ∃ t', evict_loop offsets_after_first_wakeup 4 128 16 32 2 1 = some t' := by
  have h := evict_loop_stops_strictly_ahead offsets_after_first_wakeup 4 128 16 32
    (by intro i; unfold offsets_after_first_wakeup; split_ifs <;> omega)
    (by norm_num) (by norm_num) (by norm_num)
  exact ⟨fun hh => absurd ((h.1 1).mp hh) (by decide), (h.1 2).mpr (by decide),
    h.2.2 1 1 (by decide)⟩

/-- C23 (the code's behaviour): `gputop_perf_open_cpu_stats` registers the
stream's `cpu.sample_timer` with the reactor, but `gputop_perf_stream_close` on
that stream asks the reactor to close no handle and leaves
`n_closing_uv_handles = 0`: it finishes the close at once (the timer is only
stopped), and the last `unref` then frees the stream.  A simulated OA stream,
by contrast, has its one registered timer closed and counted. -/
theorem stream_close_skips_cpu_sample_timer :
    gputop_perf_open_cpu_stats_stream.registered = [UvHandle.cpu_sample_timer] ∧
    closing_handles (gputop_perf_stream_close gputop_perf_open_cpu_stats_stream.stream) = [] ∧
    (gputop_perf_stream_close gputop_perf_open_cpu_stats_stream.stream).n_closing_uv_handles
      = 0 ∧
    (gputop_perf_stream_close gputop_perf_open_cpu_stats_stream.stream).effects =
      [Effect.free_stats_buf, Effect.uv_timer_stop, Effect.on_close_cb] ∧
    (match gputop_perf_stream_unref
        (gputop_perf_stream_close gputop_perf_open_cpu_stats_stream.stream) with
      | .ok s => s.effects
      | .assert_failed _ => []) =
      [Effect.free_stats_buf, Effect.uv_timer_stop, Effect.on_close_cb, Effect.free_stream] ∧
    (gputop_open_i915_perf_oa_stream true 0).map
      (fun o => (o.registered, closing_handles (gputop_perf_stream_close o.stream),
        (gputop_perf_stream_close o.stream).n_closing_uv_handles)) =
      some ([UvHandle.fd_timer], [UvHandle.fd_timer], 1) := by
  refine ⟨?_, ?_, ?_, ?_, ?_, ?_⟩ <;> decide

/-- C24 (the code's behaviour): a generic-perf stream and a real OA stream
opened on descriptor 0 have their poll handle closed by
`gputop_perf_stream_close`, but when the confirmation arrives
`finish_stream_close` releases nothing: the only call it makes is the on-close
callback, the ring stays mapped, the offset array and both OA buffers stay
allocated, and `fd` is still 0 on the stream marked closed. -/
theorem finish_stream_close_keeps_descriptor_zero :
    (gputop_perf_open_generic_counter 0 true true).map
      (fun o =>
        ((gputop_perf_stream_close o.stream).effects,
          (confirmations 1 (gputop_perf_stream_close o.stream)).effects,
          (confirmations 1 (gputop_perf_stream_close o.stream)).closed,
          (confirmations 1 (gputop_perf_stream_close o.stream)).fd,
          (confirmations 1 (gputop_perf_stream_close o.stream)).mmap_page,
          (confirmations 1 (gputop_perf_stream_close o.stream)).offsets)) =
      some ([Effect.uv_close_fd_poll], [Effect.uv_close_fd_poll, Effect.on_close_cb],
        true, 0, true, true) ∧
    (gputop_open_i915_perf_oa_stream false 0).map
      (fun o =>
        ((gputop_perf_stream_close o.stream).effects,
          (confirmations 1 (gputop_perf_stream_close o.stream)).effects,
          (confirmations 1 (gputop_perf_stream_close o.stream)).closed,
          (confirmations 1 (gputop_perf_stream_close o.stream)).fd,
          (confirmations 1 (gputop_perf_stream_close o.stream)).oa_bufs0,
          (confirmations 1 (gputop_perf_stream_close o.stream)).oa_bufs1)) =
      some ([Effect.uv_close_fd_poll], [Effect.uv_close_fd_poll, Effect.on_close_cb],
        true, 0, true, true) ∧
    (gputop_perf_open_generic_counter 5 true true).map
      (fun o => (confirmations 1 (gputop_perf_stream_close o.stream)).effects) =
      some [Effect.uv_close_fd_poll, Effect.munmap, Effect.free_offsets, Effect.close_fd 5,
        Effect.on_close_cb] := by
  refine ⟨?_, ?_, ?_⟩ <;> decide

/-- C25: let a message consist of the records `recs` laid one after the other
from offset 0 up to or beyond `len`, all of type BufferLost, ReportLost or
Sample with sizes in `1 .. 2 ^ 16 - 1`, and let a carried-over report, if any,
be `perf_raw_size` bytes long.  Then `gputop_webc_handle_i915_perf_message`
returns (within `recs.length` iterations), and: if some record is a Sample,
`continuation_report` holds the first `perf_raw_size` bytes of the report of
the last Sample, which is therefore what `last` starts at for the next message;
if no record is a Sample, `continuation_report` is as it was. -/
theorem handle_message_continuation (api : AccumulatorApi) (stream : WebcStream)
    (msg : Message) (recs : List RecordHeader) (fuel : Nat)
    (hlaid : records_laid_from msg 0 recs = true)
    (hend : msg.len ≤ (records_end 0 recs : Int))
    (hrecs : ∀ r ∈ recs, known_record_type r.type ∧ 0 < r.size ∧ r.size < 2 ^ 16)
    (hinv : ∀ bytes, stream.continuation_report = some bytes →
      bytes.length = stream.oa_metric_set.perf_raw_size)
    (hfuel : recs.length ≤ fuel) :
    ∃ s', gputop_webc_handle_i915_perf_message api fuel stream msg = Outcome.returned s' ∧
      ((∃ r ∈ recs, r.type = DRM_I915_PERF_RECORD_SAMPLE) →
        ∃ off, last_sample_offset 0 recs = some off ∧
          (msg.header off).type = DRM_I915_PERF_RECORD_SAMPLE ∧
          s'.continuation_report =
            some ((List.range stream.oa_metric_set.perf_raw_size).map (oa_report msg off)) ∧
          ∃ r, carried_report s' = some r ∧
            ∀ i, i < stream.oa_metric_set.perf_raw_size → r i = oa_report msg off i) ∧
      ((∀ r ∈ recs, r.type ≠ DRM_I915_PERF_RECORD_SAMPLE) →
        s'.continuation_report = stream.continuation_report) := by
  obtain ⟨st, hst1, hst2, hstart⟩ := handle_message_start api fuel stream msg
  obtain ⟨s1, hloop, hc1, hm1⟩ := message_loop_over_records api msg recs 0 (fuel - recs.length) st
    (carried_report stream) hlaid (fun r hr => ⟨(hrecs r hr).1, (hrecs r hr).2.2⟩)
  have hf : recs.length + (fuel - recs.length) = fuel := by omega
  rw [hf, message_loop_past_end api msg (fuel - recs.length) (records_end 0 recs) s1 _
    (by omega)] at hloop
  rw [hloop] at hstart
  cases hl : last_sample_offset 0 recs with
  | some off =>
    simp only [hl] at hstart
    refine ⟨_, hstart, ?_, ?_⟩
    · intro _
      refine ⟨off, rfl, last_sample_offset_is_sample msg recs 0 off hlaid hl, ?_, ?_⟩
      · simp only [hm1, hst2]
      · refine ⟨_, rfl, ?_⟩
        intro i hi
        simp only [hm1, hst2]
        simp [List.getD_eq_getElem?_getD, hi]
    · intro hno
      rw [last_sample_offset_none recs 0 hno] at hl
      cases hl
  | none =>
    simp only [hl] at hstart
    cases hcr : stream.continuation_report with
    | none =>
      simp only [carried_report, hcr] at hstart
      refine ⟨_, hstart, ?_, ?_⟩
      · intro hs
        obtain ⟨o, ho⟩ := last_sample_offset_some recs 0 hs
        rw [ho] at hl
        cases hl
      · intro _
        rw [hc1, hst1, hcr]
    | some bytes =>
      simp only [carried_report, hcr] at hstart
      refine ⟨_, hstart, ?_, ?_⟩
      · intro hs
        obtain ⟨o, ho⟩ := last_sample_offset_some recs 0 hs
        rw [ho] at hl
        cases hl
      · intro _
        simp only [hm1, hst2, ← hinv bytes hcr, map_getD_range]

/-- Witness for C25: the 40-byte message (ReportLost, Sample at 8, Sample at
24) on a stream with 4-byte raw reports and nothing carried over returns with
`continuation_report` holding bytes 32..35, the first four report bytes of the
Sample at offset 24. -/
theorem handle_message_continuation_witness :
    ∃ s', gputop_webc_handle_i915_perf_message test_api 3 (plain_stream none)
        message_two_samples = Outcome.returned s' ∧
      s'.continuation_report = some [32, 33, 34, 35] := by
  obtain ⟨s', hs', h1, _⟩ := handle_message_continuation test_api (plain_stream none)
    message_two_samples
    [ { type := DRM_I915_PERF_RECORD_OA_REPORT_LOST, size := 8 },
      { type := DRM_I915_PERF_RECORD_SAMPLE, size := 16 },
      { type := DRM_I915_PERF_RECORD_SAMPLE, size := 16 } ] 3
    (by decide) (by decide)
    (by
      intro r hr
      simp only [List.mem_cons, List.mem_singleton, List.not_mem_nil, or_false] at hr
      rcases hr with rfl | rfl | rfl <;>
        simp [known_record_type, DRM_I915_PERF_RECORD_OA_REPORT_LOST,
          DRM_I915_PERF_RECORD_SAMPLE, DRM_I915_PERF_RECORD_OA_BUFFER_LOST])
    (by intro bytes h; cases h)
    (by decide)
  obtain ⟨off, hoff, _, hc, _⟩ := h1 ⟨{ type := DRM_I915_PERF_RECORD_SAMPLE, size := 16 },
    by simp, rfl⟩
  have h24 : off = 24 := by
    have : last_sample_offset 0
      [ { type := DRM_I915_PERF_RECORD_OA_REPORT_LOST, size := 8 },
        { type := DRM_I915_PERF_RECORD_SAMPLE, size := 16 },
        { type := DRM_I915_PERF_RECORD_SAMPLE, size := 16 } ] = some 24 := by decide
    rw [this] at hoff
    injection hoff with h
    exact h.symm
  subst h24
  exact ⟨s', hs', hc.trans (by decide)⟩

/-- C28: let the records `pre` (of known types, any of them Samples) lie one
after the other from offset 0 of a message, followed inside the message by a
record whose type is none of BufferLost, ReportLost and Sample.  Then
`gputop_webc_handle_i915_perf_message` returns at that record (within
`pre.length + 1` iterations) with `continuation_report` as it was before the
call, so `last` starts the next message at the older carried-over report, or
at nothing when there was none. -/
theorem handle_message_unknown_type (api : AccumulatorApi) (stream : WebcStream)
    (msg : Message) (pre : List RecordHeader) (fuel : Nat)
    (hlaid : records_laid_from msg 0 pre = true)
    (hpre : ∀ r ∈ pre, known_record_type r.type ∧ r.size < 2 ^ 16)
    (hin : (records_end 0 pre : Int) < msg.len)
    (hbad : ¬ known_record_type (msg.header (records_end 0 pre)).type)
    (hfuel : pre.length < fuel) :
    ∃ s', gputop_webc_handle_i915_perf_message api fuel stream msg = Outcome.returned s' ∧
      s'.continuation_report = stream.continuation_report ∧
      carried_report s' = carried_report stream := by
  obtain ⟨st, hst1, _, hstart⟩ := handle_message_start api fuel stream msg
  obtain ⟨s1, hloop, hc1, _⟩ := message_loop_over_records api msg pre 0 (fuel - pre.length) st
    (carried_report stream) hlaid hpre
  have hf : pre.length + (fuel - pre.length) = fuel := by omega
  obtain ⟨n, hn⟩ : ∃ n, fuel - pre.length = n + 1 := ⟨fuel - pre.length - 1, by omega⟩
  rw [hf, hn, message_loop, if_pos hin] at hloop
  have hn3 : ¬ (msg.header (records_end 0 pre)).type = DRM_I915_PERF_RECORD_OA_BUFFER_LOST :=
    fun h => hbad (Or.inl h)
  have hn2 : ¬ (msg.header (records_end 0 pre)).type = DRM_I915_PERF_RECORD_OA_REPORT_LOST :=
    fun h => hbad (Or.inr (Or.inl h))
  have hn1 : ¬ (msg.header (records_end 0 pre)).type = DRM_I915_PERF_RECORD_SAMPLE :=
    fun h => hbad (Or.inr (Or.inr h))
  simp only [hn3, hn2, hn1, if_false] at hloop
  rw [hloop] at hstart
  have hc : s1.continuation_report = stream.continuation_report := hc1.trans hst1
  refine ⟨_, hstart, hc, ?_⟩
  simp only [carried_report, hc]

/-- Witness for C28: in the 40-byte message a Sample at offset 0 is followed at
offset 16 by a record of type 9; on a stream carrying nothing over the handler
returns with `continuation_report` still absent. -/
theorem handle_message_unknown_type_witness :
    ∃ s', gputop_webc_handle_i915_perf_message test_api 2 (plain_stream none)
        message_with_unknown_type = Outcome.returned s' ∧
      s'.continuation_report = none := by
  obtain ⟨s', hs', hc, _⟩ := handle_message_unknown_type test_api (plain_stream none)
    message_with_unknown_type [ { type := DRM_I915_PERF_RECORD_SAMPLE, size := 16 } ] 2
    (by decide)
    (by
      intro r hr
      simp only [List.mem_singleton] at hr
      subst hr
      simp [known_record_type, DRM_I915_PERF_RECORD_SAMPLE])
    (by decide)
    (by
      simp [known_record_type, message_with_unknown_type, records_end,
        DRM_I915_PERF_RECORD_OA_REPORT_LOST, DRM_I915_PERF_RECORD_SAMPLE,
        DRM_I915_PERF_RECORD_OA_BUFFER_LOST])
    (by decide)
  exact ⟨s', hs', hc⟩

/-- C26 (counterexample): a 128-byte ring with `tail = 0` and `head = 128` is
exactly full (`head - tail = 128`), and `REMAINING` evaluates to 128, not 0. -/
theorem REMAINING_exactly_full_counterexample :
    sub64 128 0 = 128 ∧ REMAINING 128 0 128 = 128 ∧ REMAINING 128 0 128 ≠ 0 := by
  refine ⟨?_, ?_, ?_⟩ <;> decide

/-- C26 (amended): when the ring is exactly full (`head - tail = size` as a
64-bit difference, `size = 2 ^ k` with `k < 64`), `TAKEN` evaluates to 0 and
`REMAINING` evaluates to `size`, the same two values as for an empty ring
(`head = tail`). -/
theorem REMAINING_exactly_full (k head tail : Nat) (hk : k < 64)
    (hfull : sub64 head tail = 2 ^ k) :
    TAKEN head tail (2 ^ k) = 0 ∧ REMAINING head tail (2 ^ k) = 2 ^ k ∧
    TAKEN tail tail (2 ^ k) = 0 ∧ REMAINING tail tail (2 ^ k) = 2 ^ k := by
  have h1 : TAKEN head tail (2 ^ k) = 0 := by
    rw [TAKEN_eq_mod head tail k hk, hfull, Nat.mod_self]
  have h2 : TAKEN tail tail (2 ^ k) = 0 := TAKEN_self tail (2 ^ k)
  refine ⟨h1, ?_, h2, ?_⟩
  · rw [REMAINING_eq head tail k hk, h1, Nat.sub_zero]
  · rw [REMAINING_eq tail tail k hk, h2, Nat.sub_zero]

/-- Witness for C26 (amended): the exactly full 128-byte ring with `tail = 0`
and `head = 128`. -/
theorem REMAINING_exactly_full_witness :
    (7 < 64 ∧ sub64 128 0 = 2 ^ 7) ∧
    TAKEN 128 0 (2 ^ 7) = 0 ∧ REMAINING 128 0 (2 ^ 7) = 2 ^ 7 :=
  ⟨⟨by decide, by decide⟩,
    (REMAINING_exactly_full 7 128 0 (by decide) (by decide)).1,
    (REMAINING_exactly_full 7 128 0 (by decide) (by decide)).2.1⟩

/-- C27 (the code's behaviour): on a fresh 16-byte ring holding an 8-byte
record at offset 0 and a 12-byte record at offset 8 (the first record to wrap),
`gputop_perf_update_header_offsets` does not return, whatever bound is put on
its loops: for a tracker of any `len > 0` whose array starts zeroed, and for a
one-entry tracker whatever its array holds.  The second record sets `full`;
every slot the eviction loop then looks at holds offset 0, normalised to 16,
which the record's end 20 is not below, so the `while (1)` loop never reaches
its `break`. -/
theorem update_header_offsets_first_wrap_never_returns :
    (∀ n fuel, gputop_perf_update_header_offsets fuel
      (first_wrap_stream (n + 1) (fun _ => 0)) = none) ∧
    (∀ offsets fuel, gputop_perf_update_header_offsets fuel
      (first_wrap_stream 1 offsets) = none) ∧
    (∀ n ev t, evict_loop (store32 (fun _ => 0) 0 0) (n + 1) 16 8 12 ev t = none) := by
  have hz : ∀ n t, nothing_eaten (store32 (fun _ => 0) (0 % (n + 1)) 0) (n + 1) 16 8 12 t
      = false := by
    intro n t
    simp [nothing_eaten, store32, add32, add64, U32, U64]
  have ho : ∀ offsets t, nothing_eaten (store32 offsets (0 % 1) 0) 1 16 8 12 t = false := by
    intro offsets t
    simp [nothing_eaten, store32, add32, add64, U32, U64, Nat.mod_one]
  refine ⟨?_, ?_, ?_⟩
  · intro n fuel
    exact first_wrap_never_returns (n + 1) (fun _ => 0) (hz n) fuel
  · intro offsets fuel
    exact first_wrap_never_returns 1 offsets (ho offsets) fuel
  · intro n ev t
    have h0 : (0 : Nat) % (n + 1) = 0 := Nat.zero_mod _
    have := evict_loop_never _ _ _ _ _ (hz n) ev t
    rw [h0] at this
    exact this

/-- C29: a CPU-stats stream opened with `sample_period_ms > 0` on a machine
with `n_cpus ≥ 1` has `stats_buf_len = max 10 (1000 / sample_period_ms)` and a
buffer of `stats_buf_len * n_cpus` entries; after any number of timer ticks,
every write `log_cpu_stats_cb` has made was of `n_cpus` entries at a position
`pos` with `0 ≤ pos` and `pos + n_cpus ≤ stats_buf_len * n_cpus`. -/
theorem log_cpu_stats_cb_writes_in_bounds (n_cpus : Int) (overwrite : Bool)
    (sample_period_ms ticks : Nat) (hperiod : 0 < sample_period_ms) (hcpus : 1 ≤ n_cpus) :
    (gputop_perf_open_cpu_stats n_cpus overwrite sample_period_ms).stats_buf_len =
      ((max 10 (1000 / sample_period_ms) : Nat) : Int) ∧
    (cpu_ticks (List.replicate ticks n_cpus)
      (gputop_perf_open_cpu_stats n_cpus overwrite sample_period_ms)).alloc_entries =
      ((max 10 (1000 / sample_period_ms) : Nat) : Int) * n_cpus ∧
    ∀ w ∈ (cpu_ticks (List.replicate ticks n_cpus)
        (gputop_perf_open_cpu_stats n_cpus overwrite sample_period_ms)).writes,
      w.2 = n_cpus ∧ 0 ≤ w.1 ∧
      w.1 + n_cpus ≤ ((max 10 (1000 / sample_period_ms) : Nat) : Int) * n_cpus := by
  obtain ⟨_, h2, h3⟩ := cpu_ticks_writes_bounded n_cpus hcpus (List.replicate ticks n_cpus)
    (gputop_perf_open_cpu_stats n_cpus overwrite sample_period_ms)
    (fun n hn => (List.mem_replicate.mp hn).2) (le_refl _)
    (fun w hw => by simp [gputop_perf_open_cpu_stats] at hw)
  refine ⟨rfl, h2, ?_⟩
  intro w hw
  obtain ⟨a, b, c⟩ := h3 w hw
  refine ⟨c, a, ?_⟩
  have hb : w.1 < ((max 10 (1000 / sample_period_ms) : Nat) : Int) := b
  have hlen : (1 : Int) ≤ ((max 10 (1000 / sample_period_ms) : Nat) : Int) := by omega
  nlinarith [mul_nonneg (sub_nonneg.mpr hlen) (sub_nonneg.mpr hcpus)]

/-- Witness for C29: with 4 CPUs and a 50 ms period the buffer has 20 rows of 4
entries; the first three ticks write at positions 0, 4 and 8, each inside the
80 allocated entries. -/
theorem log_cpu_stats_cb_writes_in_bounds_witness :
    (gputop_perf_open_cpu_stats 4 false 50).stats_buf_len = 20 ∧
    (cpu_ticks (List.replicate 3 4) (gputop_perf_open_cpu_stats 4 false 50)).writes =
      [(0, 4), (4, 4), (8, 4)] ∧
    ∀ w ∈ (cpu_ticks (List.replicate 3 4) (gputop_perf_open_cpu_stats 4 false 50)).writes,
      w.2 = 4 ∧ 0 ≤ w.1 ∧ w.1 + 4 ≤ ((max 10 (1000 / 50) : Nat) : Int) * 4 := by
  have h := log_cpu_stats_cb_writes_in_bounds 4 false 50 3 (by decide) (by decide)
  exact ⟨h.1.trans (by decide), by decide, h.2.2⟩

/-- C30: for a simulated OA stream with `period > 0` at elapsed time
`T = now - start_time` with `gen_so_far ≤ T / period` (the count not wrapping
in its field) and a buffer of `L ≥ 264` bytes, `i915_perf_stream_data_pending`
returns true exactly when `gputop_perf_fake_read` at that same time generates
at least one record, and exactly when that read returns a positive byte count;
and after a read that the buffer did not cap (`T / period - gen_so_far ≤
L / 264`), data pending at that same time is false. -/
theorem fake_data_pending_iff_read (d : FakeDecls) (now : Nat) (poll_in : Bool)
    (s : FakeStream) (L : Nat)
    (hperiod : 0 < s.period) (hL264 : 264 ≤ L) (hL : L < 2 ^ 31)
    (hgen : s.gen_so_far ≤ sub64 now s.start_time / s.period)
    (hwidth : s.gen_so_far +
      min (sub64 now s.start_time / s.period - s.gen_so_far) (L / 264) < d.gen_so_far_mod) :
    (i915_perf_stream_data_pending true now poll_in s = true ↔
      1 ≤ (gputop_perf_fake_read d now s (L : Int)).2.1.length) ∧
    (i915_perf_stream_data_pending true now poll_in s = true ↔
      0 < (gputop_perf_fake_read d now s (L : Int)).2.2) ∧
    (sub64 now s.start_time / s.period - s.gen_so_far ≤ L / 264 →
      i915_perf_stream_data_pending true now poll_in
        (gputop_perf_fake_read d now s (L : Int)).1 = false) := by
  obtain ⟨h1, h2, h3, h4, h5⟩ := fake_read_outcome d now s L hL hgen hwidth
  have hq : sub64 now s.start_time / s.period < U64 :=
    lt_of_le_of_lt (Nat.div_le_self _ _) (sub64_lt _ _)
  have hfit : 1 ≤ L / 264 := (Nat.le_div_iff_mul_le (by decide)).mpr (by omega)
  have hp : i915_perf_stream_data_pending true now poll_in s = true ↔
      0 < sub64 now s.start_time / s.period - s.gen_so_far := by
    simp only [i915_perf_stream_data_pending, if_true, decide_eq_true_eq,
      sub64_of_le _ _ hq hgen]
  refine ⟨?_, ?_, ?_⟩
  · rw [hp, h1]
    omega
  · rw [hp, h2]
    constructor
    · intro h
      have : 1 ≤ min (sub64 now s.start_time / s.period - s.gen_so_far) (L / 264) := by omega
      omega
    · intro h
      by_contra hc
      have h0 : sub64 now s.start_time / s.period - s.gen_so_far = 0 := by omega
      rw [h0] at h
      simp at h
  · intro hcap
    have hg : (gputop_perf_fake_read d now s (L : Int)).1.gen_so_far =
        sub64 now s.start_time / s.period := by
      rw [h3]; omega
    simp only [i915_perf_stream_data_pending, if_true, h4, h5, hg, sub64_self]
    decide

/-- Witness for C30: period 160, 1000 time units after opening: data is
pending and a read into a 26400-byte buffer generates 6 records; right after
that read, at the same time, nothing is pending. -/
theorem fake_data_pending_iff_read_witness :
    i915_perf_stream_data_pending true 2000 false (open_fake_stream 0 1000 5 7) = true ∧
    1 ≤ (gputop_perf_fake_read fake_decls_u32 2000 (open_fake_stream 0 1000 5 7)
      26400).2.1.length ∧
    i915_perf_stream_data_pending true 2000 false
      (gputop_perf_fake_read fake_decls_u32 2000 (open_fake_stream 0 1000 5 7) 26400).1
      = false := by
  have h := fake_data_pending_iff_read fake_decls_u32 2000 false (open_fake_stream 0 1000 5 7)
    26400 (by decide) (by decide) (by decide) (by decide) (by decide)
  have hp : i915_perf_stream_data_pending true 2000 false (open_fake_stream 0 1000 5 7)
      = true := by decide
  exact ⟨hp, h.1.mp hp, h.2.2 (by decide)⟩

/-- C4 (the code's behaviour): on the call where the producer cursor passes
`2 ^ 32`, a 96-byte record at offset 4000 is followed at offset 0 by a header
that declares 24 bytes with only 16 bytes left up to the producer head
(`data_head - data_tail - 96 = 16`).  The head `read_perf_head` returns is 16
and the difference compared with the size at line 1001 is
`16 - 2 ^ 32 = 2 ^ 64 - 2 ^ 32 + 16` on 64-bit values, so the overshooting
record is accepted: the call returns with the tracker head advanced by 2 and
offsets 4000 and 0 stored.  With the same ring contents and both cursors below
`2 ^ 32` the walk stops at that header: the head advances by 1 and only offset
4000 is stored. -/
theorem update_header_offsets_overshoot_accepted_at_u32_wrap :
    stream_straddling_u32.data_head - stream_straddling_u32.data_tail - 96 = 16 ∧
    stream_straddling_u32.header_size 0 = 24 ∧
    sub64 (read_perf_head stream_straddling_u32.data_head)
      (add64 stream_straddling_u32.data_tail 96) = 2 ^ 64 - 2 ^ 32 + 16 ∧
    (gputop_perf_update_header_offsets 8 stream_straddling_u32).map
      (fun s => (s.header_buf.head, s.header_buf.offsets 0, s.header_buf.offsets 1))
      = some (2, 4000, 0) ∧
    (gputop_perf_update_header_offsets 8 stream_same_records_below_u32).map
      (fun s => (s.header_buf.head, s.header_buf.offsets 0, s.header_buf.offsets 1,
        s.header_buf.offsets 2)) = some (1, 4000, 0, 0) := by
  refine ⟨?_, ?_, ?_, ?_, ?_⟩ <;> decide

/-- C10 (the code's behaviour): the reads "EINTR, a chunk of two Samples, a
chunk whose second header declares size 0" end the process through `exit(1)`
during the scan of the second chunk, whatever reads would follow: the reader
never reaches the read that returns 0 bytes or fails, and does not return.
Without the second chunk the same reads followed by `EAGAIN` make it return
there. -/
theorem read_i915_perf_samples_exits_before_stopping_read :
    (∀ (stop : ReadResult) (rest : List ReadResult),
      read_i915_perf_samples open_oa_stream
        ([read_eintr, chunk_of_samples 2 [], chunk_with_zero_size_header] ++ stop :: rest)
        = Outcome.exited 1) ∧
    ((match read_i915_perf_samples open_oa_stream
        ([read_eintr, chunk_of_samples 2 []] ++ read_eagain :: [chunk_of_samples 1 []]) with
      | .returned out => some (out.1.samples, out.2.length)
      | _ => none) = some ([((1, 8), (1, 24))], 1)) := by
  refine ⟨?_, ?_⟩
  · intro stop rest
    rfl
  · rfl

end Gputop
